import Mathlib

/-!
# Trade lifecycle, fee model and entry validator of the Polymarket paper trader

A shallow embedding of `src/config.js`, of `FeeCalculator`, `EntryValidator`,
`PriceSimulator`, `TradeValidator` and `RealTimePriceFeed` (`src/api.js`) and of the
trade state machine of `PolymarketTradingGame` (`src/game.js`).

Conventions of the embedding:

* JavaScript numbers are modelled by exact rationals `ℚ`; rounding of IEEE doubles is
  outside the model.  Where JavaScript would divide by zero (a non-finite result) the
  model either returns `none` or the theorem carries the hypothesis that the divisor
  is not zero.  Two kinds of statement depend on the rounding and are left out: the
  value of the floor taken for the share count of a trade, except at inputs where the
  product is exact in doubles, and identities between sums that the program
  accumulates in different orders.
* A read `table[key]` of a configuration table is a number for the table's own keys
  and `undefined` for a key that names no property; for the names that every object
  inherits (`objectPrototypeKeys`) it is a function, and the arithmetic on it is `NaN`
  (`slippageRead`, `slippageCharge`, `calculateFeesTotal`).  The rational-valued
  functions give the numbers computed for the other keys.
* A property that may be `undefined` is an `Option`; the JavaScript operator `a || b`
  on numbers is `jsOr` (an `undefined` or zero left operand selects `b`).
* Methods that mutate `this.state` are functions from `GameState` to `GameState`;
  the two interval handles `tradeTimer` and `priceUpdateTimer` are booleans (`true`
  when the handle is not `null`).  DOM writes, console output and wall-clock time
  stamps are left out.
* The feed is a state of its own (`FeedState`); its event handlers and timer
  callbacks are functions on that state, and what it does to its environment
  (messages sent, timers set, callbacks called) is recorded in the state.
* The simulator is a state of its own (`PriceSimulator`); the value of
  `Math.random()` is an argument of its `updatePrice`.  A number that may be
  `Infinity` (the profit factor) is a `JsNumber`.
-/

namespace PolymarketTrader

/-! ## Configuration (`src/config.js`) -/

/-- Table `GAME_CONFIG.fees.slippage`. -/
structure SlippageConfig where
  low : ℚ
  medium : ℚ
  high : ℚ

/-- Object `GAME_CONFIG.fees`. -/
structure FeesConfig where
  takerFee : ℚ
  makerFee : ℚ
  slippage : SlippageConfig
  estimatedGasUSD : ℚ
  typicalSpread : ℚ

/-- Object `GAME_CONFIG.smartTrading.takeProfitLevels`. -/
structure TakeProfitLevels where
  conservative : ℚ
  standard : ℚ
  aggressive : ℚ

/-- Object `GAME_CONFIG.smartTrading` (the keys read by the trade engine). -/
structure SmartTradingConfig where
  minExpectedProfit : ℚ
  minEdgeOverFees : ℚ
  takeProfitLevels : TakeProfitLevels
  stopLoss : ℚ
  autoTakeProfit : Bool
  autoStopLoss : Bool

/-- Object `GAME_CONFIG.riskManagement` (the keys read by the trade engine). -/
structure RiskManagementConfig where
  maxPositionPct : ℚ
  maxDailyLossPct : ℚ
  maxOpenTrades : ℕ
  redZoneThreshold : ℚ

/-- Values of `state.priceSource` (and of the key `priceSource` of the
configuration, which is `'real'` or `'simulated'`). -/
inductive PriceSource where
  | real
  | simulated
  | unavailable
deriving DecidableEq, Repr

/-- Object `GAME_CONFIG.warnings.liveTradeRequirements`. -/
structure LiveTradeRequirements where
  minPaperTrades : ℕ
  minWinRate : ℚ
  minProfitFactor : ℚ
  minConsecutiveWins : ℕ
  maxDrawdown : ℚ

/-- Object `GAME_CONFIG.warnings`: the key read by the code. -/
structure WarningsConfig where
  liveTradeRequirements : LiveTradeRequirements

/-- Table `GAME_CONFIG.simulationVolatility`. -/
structure SimulationVolatility where
  low : ℚ
  medium : ℚ
  high : ℚ

/-- The keys of `GAME_CONFIG` read by the fee model, the validator and the engine.
`redZoneThreshold` is the TOP-LEVEL key read by `updateStats`; the configuration file
defines no such key (only `riskManagement.redZoneThreshold`), so it is `none`. -/
structure Config where
  priceSource : PriceSource
  requireRealPrices : Bool
  fallbackToSimulation : Bool
  warnings : WarningsConfig
  startingBankroll : ℚ
  riskManagement : RiskManagementConfig
  redZoneThreshold : Option ℚ
  fees : FeesConfig
  includeFees : Bool
  aiWinThreshold : ℚ
  defaultTimer : ℤ
  smartTrading : SmartTradingConfig
  priceHistoryLength : ℕ
  enablePriceSimulation : Bool
  simulationVolatility : SimulationVolatility

/-- The configuration object of `src/config.js`. -/
def GAME_CONFIG : Config where
  priceSource := PriceSource.real
  requireRealPrices := true
  fallbackToSimulation := false
  warnings :=
    { liveTradeRequirements :=
        { minPaperTrades := 50
          minWinRate := 55 / 100
          minProfitFactor := 12 / 10
          minConsecutiveWins := 3
          maxDrawdown := 20 / 100 } }
  startingBankroll := 1000
  riskManagement :=
    { maxPositionPct := 5 / 100
      maxDailyLossPct := 10 / 100
      maxOpenTrades := 1
      redZoneThreshold := -100 }
  redZoneThreshold := none
  fees :=
    { takerFee := 2 / 100
      makerFee := 0
      slippage := { low := 5 / 1000, medium := 1 / 100, high := 2 / 100 }
      estimatedGasUSD := 1 / 100
      typicalSpread := 1 / 100 }
  includeFees := true
  aiWinThreshold := 75
  defaultTimer := 20
  smartTrading :=
    { minExpectedProfit := 5 / 100
      minEdgeOverFees := 3 / 100
      takeProfitLevels := { conservative := 8 / 100, standard := 15 / 100, aggressive := 25 / 100 }
      stopLoss := 12 / 100
      autoTakeProfit := true
      autoStopLoss := true }
  priceHistoryLength := 60
  enablePriceSimulation := false
  simulationVolatility := { low := 3 / 1000, medium := 6 / 1000, high := 1 / 100 }

/-! ## JavaScript truthiness on numbers -/

/-- JavaScript `a || b` for a possibly undefined number `a`: `b` when `a` is
`undefined` or `0`, else `a`. -/
def jsOr (a : Option ℚ) (b : ℚ) : ℚ :=
  match a with
  | none => b
  | some v => if v = 0 then b else v

/-- JavaScript `s || d` for a possibly undefined string: `d` when `s` is `undefined`
or the empty string. -/
def jsOrStr (a : Option String) (d : String) : String :=
  match a with
  | none => d
  | some v => if v = "" then d else v

/-! ## Fee model (`FeeCalculator`, `src/api.js`) -/

/-- The names of the properties that an object literal inherits from
`Object.prototype`.  A read of one of them on a configuration table yields a function
(for `__proto__` the prototype object): a truthy value that is not a number. -/
def objectPrototypeKeys : List String :=
  ["constructor", "hasOwnProperty", "isPrototypeOf", "propertyIsEnumerable",
   "toLocaleString", "toString", "valueOf", "__proto__", "__defineGetter__",
   "__defineSetter__", "__lookupGetter__", "__lookupSetter__"]

/-- What a read `table[key]` yields on a table whose own keys are `low`, `medium` and
`high`: the configured number, an inherited property, or `undefined`. -/
inductive TableRead where
  | rate (value : ℚ)
  | inherited
  | undefined
deriving DecidableEq, Repr

/-- The read `fees.slippage[volatilityLevel]`, the prototype chain included. -/
def slippageRead (level : String) : TableRead :=
  if level = "low" then TableRead.rate GAME_CONFIG.fees.slippage.low
  else if level = "medium" then TableRead.rate GAME_CONFIG.fees.slippage.medium
  else if level = "high" then TableRead.rate GAME_CONFIG.fees.slippage.high
  else if level ∈ objectPrototypeKeys then TableRead.inherited
  else TableRead.undefined

/-- The number `tradeAmount * (fees.slippage[volatilityLevel] || fees.slippage.medium)`
computed by the first statement of `calculateFees`; `none` is `NaN`.  An inherited
property is truthy, so `||` keeps it, and its product with a number is `NaN`. -/
def slippageCharge (tradeAmount : ℚ) (volatilityLevel : Option String) : Option ℚ :=
  match slippageRead (volatilityLevel.getD "medium") with
  | TableRead.rate value =>
    some (tradeAmount * (if value = 0 then GAME_CONFIG.fees.slippage.medium else value))
  | TableRead.inherited => none
  | TableRead.undefined => some (tradeAmount * GAME_CONFIG.fees.slippage.medium)

/-- The field `total` of the object returned by `calculateFees` with fees enabled, as
a JavaScript number: the sum `slippage + spreadCost + tradingFee + gasCost`, which is
`NaN` (`none`) when the slippage is. -/
def calculateFeesTotal (tradeAmount : ℚ) (volatilityLevel : Option String)
    (isWinning : Bool) : Option ℚ :=
  (slippageCharge tradeAmount volatilityLevel).map (fun slippage =>
    slippage + tradeAmount * (GAME_CONFIG.fees.typicalSpread / 2) +
      (if isWinning then tradeAmount * GAME_CONFIG.fees.takerFee else 0) +
      GAME_CONFIG.fees.estimatedGasUSD * 2)

/-- The number read by `fees.slippage[volatilityLevel]`: the own property of the
table, `none` for every other key.  (For the keys of `objectPrototypeKeys` the read is
not a number; see `slippageRead`.) -/
def slippageLookup (level : String) : Option ℚ :=
  if level = "low" then some GAME_CONFIG.fees.slippage.low
  else if level = "medium" then some GAME_CONFIG.fees.slippage.medium
  else if level = "high" then some GAME_CONFIG.fees.slippage.high
  else none

/-- Field `breakdown` of the object returned by `calculateFees`. -/
structure FeeBreakdown where
  slippage : ℚ
  spread : ℚ
  tradingFee : ℚ
  gas : ℚ
deriving DecidableEq, Repr

/-- Object returned by `calculateFees`.  `breakdown = none` is the empty object of the
fees-disabled branch; `percentage = none` is an absent or non-finite percentage (the
fees-disabled branch, or a division by a zero trade amount). -/
structure FeeResult where
  total : ℚ
  breakdown : Option FeeBreakdown
  percentage : Option ℚ
deriving DecidableEq, Repr

/-- `FeeCalculator.calculateFees(tradeAmount, volatilityLevel = 'medium', isWinning)`.
An `undefined` level takes the default parameter value `'medium'`.  The fields are the
numbers computed when the table read is a number or `undefined`; for a level in
`objectPrototypeKeys` the slippage, the total and the percentage are `NaN` in the code
(`slippageCharge`, `calculateFeesTotal`). -/
def calculateFees (tradeAmount : ℚ) (volatilityLevel : Option String) (isWinning : Bool) :
    FeeResult :=
  if !GAME_CONFIG.includeFees then
    { total := 0, breakdown := none, percentage := none }
  else
    let fees := GAME_CONFIG.fees
    let level := volatilityLevel.getD "medium"
    let slippage := tradeAmount * jsOr (slippageLookup level) fees.slippage.medium
    let spreadCost := tradeAmount * (fees.typicalSpread / 2)
    let tradingFee := if isWinning then tradeAmount * fees.takerFee else 0
    let gasCost := fees.estimatedGasUSD * 2
    let total := slippage + spreadCost + tradingFee + gasCost
    { total := total
      breakdown := some { slippage := slippage, spread := spreadCost,
                          tradingFee := tradingFee, gas := gasCost }
      percentage := if tradeAmount = 0 then none else some (total / tradeAmount * 100) }

/-- `FeeCalculator.calculateNetPnL(grossPnL, tradeAmount, volatilityLevel)`. -/
def calculateNetPnL (grossPnL tradeAmount : ℚ) (volatilityLevel : Option String) : ℚ :=
  grossPnL - (calculateFees tradeAmount volatilityLevel (decide (grossPnL > 0))).total

/-- `FeeCalculator.calculateBreakEvenProfit(tradeAmount, volatilityLevel)`.  The table
lookup has no fallback here: for a key outside the table the JavaScript result is
`NaN`, modelled by `none`. -/
def calculateBreakEvenProfit (tradeAmount : ℚ) (volatilityLevel : Option String) :
    Option ℚ :=
  let fees := GAME_CONFIG.fees
  match slippageLookup (volatilityLevel.getD "medium") with
  | none => none
  | some rate =>
    let entryFees := tradeAmount * (rate + fees.typicalSpread / 2)
    let exitFees := tradeAmount * (rate + fees.takerFee)
    some (entryFees + exitFees + fees.estimatedGasUSD * 2)

/-! ## Entry validator (`EntryValidator`, `src/api.js`) -/

/-- Input record `Market` (the fields read by the engine). -/
structure Market where
  id : String
  question : String
  yesPrice : ℚ
  volatilityLevel : Option String
  aiProbability : Option ℚ
deriving DecidableEq, Repr

/-- The three rejection messages of `validateEntry`, with the numbers they print. -/
inductive RejectReason where
  | expectedProfitBelowMinimum (expectedProfit minimum : ℚ)
  | edgeBelowMinimum (edgeAfterFees minimum : ℚ)
  | confidenceBelowThreshold (aiConfidence threshold : ℚ)
deriving DecidableEq, Repr

/-- Object returned by `validateEntry`.  `breakEvenPrice` and `minProfitRequired` are
`none` where JavaScript yields a non-finite number. -/
structure EntryValidation where
  valid : Bool
  reasons : List RejectReason
  expectedProfit : ℚ
  breakEvenPrice : Option ℚ
  feeCost : ℚ
  minProfitRequired : Option ℚ
  edgeAfterFees : ℚ
deriving DecidableEq, Repr

/-- `EntryValidator.validateEntry(market, aiConfidence, buyPrice, volatilityLevel)`.
The three `if` statements run one after the other, each pushing its own reason. -/
def validateEntry (_market : Market) (aiConfidence buyPrice : ℚ)
    (volatilityLevel : Option String) : EntryValidation :=
  let fees := calculateFees buyPrice volatilityLevel true
  let feeCost := fees.total
  let breakEvenProfit := calculateBreakEvenProfit buyPrice volatilityLevel
  let minProfitRequired :=
    if buyPrice = 0 then none else breakEvenProfit.map (fun b => b / buyPrice)
  let winProbability := aiConfidence / 100
  let potentialWin := buyPrice * GAME_CONFIG.smartTrading.takeProfitLevels.standard
  let potentialLoss := buyPrice * GAME_CONFIG.smartTrading.stopLoss
  let expectedProfit := winProbability * potentialWin - (1 - winProbability) * potentialLoss
  let minExpectedProfit :=
    buyPrice * jsOr (some GAME_CONFIG.smartTrading.minExpectedProfit) (5 / 100)
  let reasons1 : List RejectReason :=
    if expectedProfit < minExpectedProfit then
      [RejectReason.expectedProfitBelowMinimum expectedProfit minExpectedProfit]
    else []
  let edgeAfterFees := expectedProfit - feeCost
  let minEdge := buyPrice * jsOr (some GAME_CONFIG.smartTrading.minEdgeOverFees) (3 / 100)
  let reasons2 : List RejectReason :=
    if edgeAfterFees < minEdge then
      reasons1 ++ [RejectReason.edgeBelowMinimum edgeAfterFees minEdge]
    else reasons1
  let reasons3 : List RejectReason :=
    if aiConfidence < GAME_CONFIG.aiWinThreshold then
      reasons2 ++ [RejectReason.confidenceBelowThreshold aiConfidence GAME_CONFIG.aiWinThreshold]
    else reasons2
  { valid := decide (reasons3.length = 0)
    reasons := reasons3
    expectedProfit := expectedProfit
    breakEvenPrice := breakEvenProfit
    feeCost := feeCost
    minProfitRequired := minProfitRequired
    edgeAfterFees := edgeAfterFees }

/-! ## Trade state machine (`PolymarketTradingGame`, `src/game.js`) -/

/-- The argument `reason` of `autoExitTrade`, one constructor per call site:
the take-profit, stop-loss and max-loss branches of `updateTradePnL` and the
countdown callback of `startTradeTimers` ('Timer expired'). -/
inductive AutoExitReason where
  | takeProfit
  | stopLoss
  | maxLoss
  | timerExpired
deriving DecidableEq, Repr

/-- Field `exitReason` handed to `tradeLogger.logTrade`: `'manual'` from `exitTrade`,
the `reason` argument from `autoExitTrade`. -/
inductive ExitReason where
  | manual
  | auto (reason : AutoExitReason)
deriving DecidableEq, Repr

/-- Field `exitType` written by `recordTrade`. -/
inductive ExitType where
  | manual
  | auto
deriving DecidableEq, Repr

/-- Object `state.activeTrade`.  `grossPnl`, `fees` and `netPnl` are the properties
that `updateTradePnL` stores "for later"; they do not exist on the object literal
built by `enterTrade`. -/
structure Trade where
  market : Market
  entryPrice : ℚ
  currentPrice : ℚ
  buyPrice : ℚ
  shares : ℤ
  timeRemaining : ℤ
  takeProfitTarget : ℚ
  stopLossTarget : ℚ
  aiConfidence : ℚ
  priceSource : PriceSource
  entryValidation : EntryValidation
  grossPnl : Option ℚ
  fees : Option FeeResult
  netPnl : Option ℚ
deriving DecidableEq, Repr

/-- Record pushed on `state.trades` by `recordTrade`. -/
structure TradeData where
  question : String
  entryPrice : ℚ
  exitPrice : ℚ
  shares : ℤ
  buyPrice : ℚ
  pnl : ℚ
  exitType : ExitType
  marketId : String
  volatilityLevel : Option String
deriving DecidableEq, Repr

/-- Argument of `tradeLogger.logTrade`: the outcome record of a closed trade. -/
structure TradeOutcome where
  market : Market
  entryPrice : ℚ
  exitPrice : ℚ
  shares : ℤ
  buyPrice : ℚ
  grossPnl : ℚ
  fees : FeeResult
  netPnl : ℚ
  exitReason : ExitReason
  priceSource : PriceSource
  aiConfidence : ℚ
deriving DecidableEq, Repr

/-- The mutable state of a `PolymarketTradingGame`: `this.state`, the setting
`this.settings.timerDuration`, the two interval handles, and the list of outcome
records handed to the trade logger. -/
structure GameState where
  sessionActive : Bool
  bankroll : ℚ
  startingBankroll : ℚ
  totalPnL : ℚ
  totalFeesPaid : ℚ
  trades : List TradeData
  activeTrade : Option Trade
  priceSource : PriceSource
  wsConnected : Bool
  tradingEnabled : Bool
  dailyPnL : ℚ
  consecutiveWins : ℕ
  consecutiveLosses : ℕ
  timerDuration : ℤ
  tradeTimer : Bool
  priceUpdateTimer : Bool
  logged : List TradeOutcome
deriving DecidableEq, Repr

/-- The state built by the constructor; `priceSource` is the string of the
configuration (`'real'`). -/
def initialState : GameState where
  sessionActive := false
  bankroll := GAME_CONFIG.startingBankroll
  startingBankroll := GAME_CONFIG.startingBankroll
  totalPnL := 0
  totalFeesPaid := 0
  trades := []
  activeTrade := none
  priceSource := PriceSource.real
  wsConnected := false
  tradingEnabled := true
  dailyPnL := 0
  consecutiveWins := 0
  consecutiveLosses := 0
  timerDuration := GAME_CONFIG.defaultTimer
  tradeTimer := false
  priceUpdateTimer := false
  logged := []

/-- `stopTradeTimers()`. -/
def stopTradeTimers (s : GameState) : GameState :=
  { s with tradeTimer := false, priceUpdateTimer := false }

/-- `closeActiveTrade()`. -/
def closeActiveTrade (s : GameState) : GameState :=
  { stopTradeTimers s with activeTrade := none }

/-- The red-zone test of `updateStats`:
`state.sessionActive && state.totalPnL <= GAME_CONFIG.redZoneThreshold`.
A comparison with `undefined` is false. -/
def statsRedZone (s : GameState) : Bool :=
  s.sessionActive &&
    (match GAME_CONFIG.redZoneThreshold with
     | some threshold => decide (s.totalPnL ≤ threshold)
     | none => false)

/-- `triggerRedZone()`.  The nested `cancelTrade()` runs with `sessionActive` already
false, so the `updateStats()` inside it cannot trigger again; it is unfolded here
(refund of the stake, then `closeActiveTrade()`). -/
def triggerRedZone (s : GameState) : GameState :=
  let s1 : GameState := { s with sessionActive := false }
  match s1.activeTrade with
  | some trade => closeActiveTrade { s1 with bankroll := s1.bankroll + trade.buyPrice }
  | none => s1

/-- `updateStats()`: apart from the display, the red-zone check. -/
def updateStats (s : GameState) : GameState :=
  if statsRedZone s then triggerRedZone s else s

/-- `cancelTrade()`. -/
def cancelTrade (s : GameState) : GameState :=
  match s.activeTrade with
  | none => s
  | some trade =>
    closeActiveTrade (updateStats { s with bankroll := s.bankroll + trade.buyPrice })

/-- `recordTrade(trade, pnl, holdTime, exitType)`. -/
def recordTrade (s : GameState) (trade : Trade) (pnl : ℚ) (exitType : ExitType) : GameState :=
  { s with trades := s.trades ++
      [{ question := trade.market.question
         entryPrice := trade.entryPrice
         exitPrice := trade.currentPrice
         shares := trade.shares
         buyPrice := trade.buyPrice
         pnl := pnl
         exitType := exitType
         marketId := trade.market.id
         volatilityLevel := trade.market.volatilityLevel }] }

/-- The constant `grossPnL` of `exitTrade` and `autoExitTrade`:
`trade.grossPnl || (trade.currentPrice - trade.entryPrice) * trade.shares`. -/
def exitGrossPnL (trade : Trade) : ℚ :=
  jsOr trade.grossPnl ((trade.currentPrice - trade.entryPrice) * trade.shares)

/-- The constant `fees` of `exitTrade` and `autoExitTrade`:
`trade.fees || FeeCalculator.calculateFees(trade.buyPrice, level, grossPnL > 0)`
(an object is always truthy). -/
def exitFees (trade : Trade) : FeeResult :=
  match trade.fees with
  | some f => f
  | none => calculateFees trade.buyPrice trade.market.volatilityLevel
              (decide (exitGrossPnL trade > 0))

/-- The constant `netPnL` of `exitTrade` and `autoExitTrade`:
`trade.netPnl || (grossPnL - fees.total)`. -/
def exitNetPnL (trade : Trade) : ℚ :=
  jsOr trade.netPnl (exitGrossPnL trade - (exitFees trade).total)

/-- The part shared, line for line, by `exitTrade` and `autoExitTrade`: record and
log the trade (trade logging is enabled in the configuration), credit the bankroll,
update the cumulative figures and the streak counters, `updateStats()`,
`closeActiveTrade()`. -/
def settleTrade (s : GameState) (trade : Trade) (exitType : ExitType) (reason : ExitReason) :
    GameState :=
  let grossPnL := exitGrossPnL trade
  let fees := exitFees trade
  let netPnL := exitNetPnL trade
  let s1 := recordTrade s trade netPnL exitType
  let s2 : GameState := { s1 with logged := s1.logged ++
      [{ market := trade.market
         entryPrice := trade.entryPrice
         exitPrice := trade.currentPrice
         shares := trade.shares
         buyPrice := trade.buyPrice
         grossPnl := grossPnL
         fees := fees
         netPnl := netPnL
         exitReason := reason
         priceSource := trade.priceSource
         aiConfidence := trade.aiConfidence }] }
  let s3 : GameState := { s2 with
      bankroll := s2.bankroll + (trade.buyPrice + netPnL)
      totalPnL := s2.totalPnL + netPnL
      totalFeesPaid := s2.totalFeesPaid + fees.total }
  let s4 : GameState :=
    if netPnL ≥ 0 then
      { s3 with consecutiveWins := s3.consecutiveWins + 1, consecutiveLosses := 0 }
    else
      { s3 with consecutiveLosses := s3.consecutiveLosses + 1, consecutiveWins := 0 }
  closeActiveTrade (updateStats s4)

/-- `exitTrade()`: manual exit.  It ends after `closeActiveTrade()`; it has no
red-zone check of its own. -/
def exitTrade (s : GameState) : GameState :=
  match s.activeTrade with
  | none => s
  | some trade => settleTrade s trade ExitType.manual ExitReason.manual

/-- `autoExitTrade(reason)`: as `exitTrade`, followed by the red-zone check against
`GAME_CONFIG.riskManagement?.redZoneThreshold || -100`. -/
def autoExitTrade (s : GameState) (reason : AutoExitReason) : GameState :=
  match s.activeTrade with
  | none => s
  | some trade =>
    let s1 := settleTrade s trade ExitType.auto (ExitReason.auto reason)
    if s1.totalPnL ≤ jsOr (some GAME_CONFIG.riskManagement.redZoneThreshold) (-100) then
      triggerRedZone s1
    else s1

/-- `updateTradePnL()`: recompute and store gross P&L, fees and net P&L; when the
countdown handle `tradeTimer` is set, run the three exit checks in order, the first
that holds closing the trade. -/
def updateTradePnL (s : GameState) : GameState :=
  match s.activeTrade with
  | none => s
  | some trade =>
    let grossPnl := (trade.currentPrice - trade.entryPrice) * trade.shares
    let fees := calculateFees trade.buyPrice trade.market.volatilityLevel (decide (grossPnl > 0))
    let netPnl := grossPnl - fees.total
    let trade1 : Trade :=
      { trade with grossPnl := some grossPnl, fees := some fees, netPnl := some netPnl }
    let s1 : GameState := { s with activeTrade := some trade1 }
    if s1.tradeTimer then
      if GAME_CONFIG.smartTrading.autoTakeProfit && decide (netPnl ≥ trade1.takeProfitTarget) then
        autoExitTrade s1 AutoExitReason.takeProfit
      else if GAME_CONFIG.smartTrading.autoStopLoss && decide (netPnl ≤ trade1.stopLossTarget) then
        autoExitTrade s1 AutoExitReason.stopLoss
      else if netPnl ≤ -trade1.buyPrice then
        autoExitTrade s1 AutoExitReason.maxLoss
      else s1
    else s1

/-- `showActiveTrade()`: apart from the display, the call of `updateTradePnL()`.
Without an active trade the first property access throws and nothing is changed. -/
def showActiveTrade (s : GameState) : GameState :=
  match s.activeTrade with
  | none => s
  | some _ => updateTradePnL s

/-- Which `return` of `enterTrade` was taken: the four guards with their status
messages, the rejection by the validator, or the end of the function. -/
inductive EnterOutcome where
  | sessionNotActive
  | tradingBlocked
  | alreadyActive
  | insufficientBankroll
  | rejectedByValidator (reasons : List RejectReason)
  | opened
deriving DecidableEq, Repr

/-- `enterTrade(market, buyPrice)`.  The share count is the floor of the exact product
`(buyPrice / yesPrice) * multiplier * 1.5`; the program floors the product computed in
doubles, which is one less where the exact product is an integer that the doubles
miss from below. -/
def enterTrade (s : GameState) (market : Market) (buyPrice : ℚ) : EnterOutcome × GameState :=
  if !s.sessionActive then (EnterOutcome.sessionNotActive, s)
  else if !s.tradingEnabled then (EnterOutcome.tradingBlocked, s)
  else if s.activeTrade.isSome then (EnterOutcome.alreadyActive, s)
  else if s.bankroll < buyPrice then (EnterOutcome.insufficientBankroll, s)
  else
    let entryValidation := validateEntry market (jsOr market.aiProbability 75) buyPrice
      (some (jsOrStr market.volatilityLevel "medium"))
    if !entryValidation.valid then
      (EnterOutcome.rejectedByValidator entryValidation.reasons, s)
    else
      let confidenceMultiplier : ℚ :=
        match market.aiProbability with
        | none => 1
        | some a => if a = 0 then 1 else a / 75
      let shares : ℤ := Int.floor (buyPrice / market.yesPrice * confidenceMultiplier * (3 / 2))
      let takeProfitLevel :=
        jsOr (some GAME_CONFIG.smartTrading.takeProfitLevels.standard) (30 / 100)
      let takeProfitAmount := buyPrice * takeProfitLevel
      let trade : Trade :=
        { market := market
          entryPrice := market.yesPrice
          currentPrice := market.yesPrice
          buyPrice := buyPrice
          shares := shares
          timeRemaining := s.timerDuration
          takeProfitTarget := takeProfitAmount
          stopLossTarget := -(buyPrice * jsOr (some GAME_CONFIG.smartTrading.stopLoss) (25 / 100))
          aiConfidence := jsOr market.aiProbability 75
          priceSource := s.priceSource
          entryValidation := entryValidation
          grossPnl := none
          fees := none
          netPnl := none }
      let s1 : GameState := { s with activeTrade := some trade }
      let s2 : GameState := { s1 with bankroll := s1.bankroll - buyPrice }
      (EnterOutcome.opened, showActiveTrade (updateStats s2))

/-- `startTrade()`: apart from the display, `startTradeTimers()`, which sets both
interval handles.  The handles are modelled as set or not set: the intervals of an
earlier `startTrade()` on the same trade, which the program overwrites without
clearing, are not counted. -/
def startTrade (s : GameState) : GameState :=
  match s.activeTrade with
  | none => s
  | some _ => { s with tradeTimer := true, priceUpdateTimer := true }

/-- One firing of the countdown interval of `startTradeTimers` (it fires only while
the handle `tradeTimer` is set). -/
def countdownTick (s : GameState) : GameState :=
  if !s.tradeTimer then s
  else
    match s.activeTrade with
    | none => s
    | some trade =>
      let trade1 : Trade := { trade with timeRemaining := trade.timeRemaining - 1 }
      let s1 : GameState := { s with activeTrade := some trade1 }
      if trade1.timeRemaining ≤ 0 then autoExitTrade s1 AutoExitReason.timerExpired else s1

/-- One firing of the price interval of `startTradeTimers` (it fires only while the
handle `priceUpdateTimer` is set).  `newPrice` is the value fetched from the live
feed or from the simulator; `if (newPrice)` skips `null` and `0`. -/
def priceTick (s : GameState) (newPrice : Option ℚ) : GameState :=
  if !s.priceUpdateTimer then s
  else
    match s.activeTrade with
    | none => s
    | some trade =>
      match newPrice with
      | none => s
      | some p =>
        if p = 0 then s
        else updateTradePnL { s with activeTrade := some { trade with currentPrice := p } }

/-- `startSession()`, up to the asynchronous loading of the markets. -/
def startSession (s : GameState) : GameState :=
  updateStats
    { s with
      sessionActive := true
      bankroll := GAME_CONFIG.startingBankroll
      startingBankroll := GAME_CONFIG.startingBankroll
      totalPnL := 0
      trades := [] }

/-- The operations of the engine, as inputs of the state machine. -/
inductive Action where
  | startSession
  | enterTrade (market : Market) (buyPrice : ℚ)
  | startTrade
  | priceTick (newPrice : Option ℚ)
  | countdownTick
  | exitTrade
  | cancelTrade
deriving DecidableEq, Repr

/-- One operation applied to a state. -/
def step (s : GameState) : Action → GameState
  | Action.startSession => startSession s
  | Action.enterTrade market buyPrice => (enterTrade s market buyPrice).2
  | Action.startTrade => startTrade s
  | Action.priceTick newPrice => priceTick s newPrice
  | Action.countdownTick => countdownTick s
  | Action.exitTrade => exitTrade s
  | Action.cancelTrade => cancelTrade s

/-- A sequence of operations applied from left to right. -/
def run (s : GameState) (actions : List Action) : GameState :=
  actions.foldl step s

/-- States the engine can be in: those obtained from the constructor state by
operations. -/
def Reachable (s : GameState) : Prop :=
  ∃ actions : List Action, run initialState actions = s

/-- The trade is `Pending`: a trade is open and the countdown handle is not set. -/
def IsPending (s : GameState) : Prop :=
  s.activeTrade.isSome = true ∧ s.tradeTimer = false

/-- The trade is `Started`: a trade is open and the countdown handle is set. -/
def IsStarted (s : GameState) : Prop :=
  s.activeTrade.isSome = true ∧ s.tradeTimer = true

/-! ## Price simulator (`PriceSimulator`, `src/api.js`) -/

/-- The number read by `GAME_CONFIG.simulationVolatility[volatilityLevel]`: the own
property of the table, `none` for every other key and for `undefined`.  (For the keys
of `objectPrototypeKeys` the read is not a number.) -/
def simulationVolatilityLookup (volatilityLevel : Option String) : Option ℚ :=
  match volatilityLevel with
  | none => none
  | some level =>
    if level = "low" then some GAME_CONFIG.simulationVolatility.low
    else if level = "medium" then some GAME_CONFIG.simulationVolatility.medium
    else if level = "high" then some GAME_CONFIG.simulationVolatility.high
    else none

/-- The record that the simulator keeps for a market. -/
structure SimulatedPrice where
  current : ℚ
  startPrice : ℚ
  volatility : ℚ
  aiConfidence : ℚ
  trend : ℤ
  momentum : ℤ
  tickCount : ℕ
  highPrice : ℚ
  lowPrice : ℚ
deriving DecidableEq, Repr

/-- State of a `PriceSimulator`: the map `prices`. -/
structure PriceSimulator where
  prices : String → Option SimulatedPrice

/-- The simulator built by the constructor: an empty map. -/
def newSimulator : PriceSimulator where
  prices := fun _ => none

/-- `initializePrice(marketId, startPrice, volatilityLevel, aiConfidence)`. -/
def PriceSimulator.initializePrice (sim : PriceSimulator) (marketId : String)
    (startPrice : ℚ) (volatilityLevel : Option String) (aiConfidence : ℚ) : PriceSimulator :=
  let record : SimulatedPrice :=
    { current := startPrice
      startPrice := startPrice
      volatility := jsOr (simulationVolatilityLookup volatilityLevel) (1 / 100)
      aiConfidence := aiConfidence
      trend := 1
      momentum := 0
      tickCount := 0
      highPrice := startPrice
      lowPrice := startPrice }
  { sim with prices := Function.update sim.prices marketId (some record) }

/-- `updatePrice(marketId)` of the simulator, with `random` the value returned by
`Math.random()`: the returned price (`none` for `null`) and the simulator after the
call. -/
def PriceSimulator.updatePrice (sim : PriceSimulator) (marketId : String) (random : ℚ) :
    Option ℚ × PriceSimulator :=
  match sim.prices marketId with
  | none => (none, sim)
  | some priceData =>
    let randomBase := (random - 1 / 2) * 2
    let change := randomBase * priceData.volatility
    let newPrice := max (1 / 100) (min (99 / 100) (priceData.current + change))
    let momentum : ℤ :=
      if (newPrice > priceData.current ∧ priceData.momentum ≥ 0) ∨
          (newPrice < priceData.current ∧ priceData.momentum ≤ 0) then
        priceData.momentum + (if newPrice > priceData.current then 1 else -1)
      else (if newPrice > priceData.current then 1 else -1)
    let record : SimulatedPrice :=
      { priceData with
        tickCount := priceData.tickCount + 1
        momentum := momentum
        current := newPrice
        highPrice := max priceData.highPrice newPrice
        lowPrice := min priceData.lowPrice newPrice }
    (some newPrice, { sim with prices := Function.update sim.prices marketId (some record) })

/-! ## Live readiness (`TradeValidator`, `src/api.js`) -/

/-- A JavaScript number that may be `Infinity`. -/
inductive JsNumber where
  | finite (value : ℚ)
  | infinity
deriving DecidableEq, Repr

/-- The comparison `x >= bound` for a possibly infinite `x`. -/
def JsNumber.ge (x : JsNumber) (bound : ℚ) : Bool :=
  match x with
  | JsNumber.finite value => decide (value ≥ bound)
  | JsNumber.infinity => true

/-- An element of `results.checks`; `actual` is the number before it is formatted for
display, and the field `required`, a constant of the configuration, is left out. -/
structure ReadinessCheck where
  name : String
  actual : JsNumber
  passed : Bool
deriving DecidableEq, Repr

/-- The object returned by `checkLiveReadiness`. -/
structure ReadinessResult where
  ready : Bool
  checks : List ReadinessCheck
deriving DecidableEq, Repr

/-- `wins / totalTrades`, or 0 for the empty history. -/
def winRate (tradeHistory : List TradeData) : ℚ :=
  let totalTrades := tradeHistory.length
  let wins := (tradeHistory.filter (fun t => decide (t.pnl > 0))).length
  if totalTrades > 0 then (wins : ℚ) / (totalTrades : ℚ) else 0

/-- The sum `tradeHistory.filter(t => t.pnl > 0).reduce((sum, t) => sum + t.pnl, 0)`. -/
def grossProfit (tradeHistory : List TradeData) : ℚ :=
  (tradeHistory.filter (fun t => decide (t.pnl > 0))).foldl (fun sum t => sum + t.pnl) 0

/-- `Math.abs(tradeHistory.filter(t => t.pnl < 0).reduce((sum, t) => sum + t.pnl, 0))`. -/
def grossLoss (tradeHistory : List TradeData) : ℚ :=
  |(tradeHistory.filter (fun t => decide (t.pnl < 0))).foldl (fun sum t => sum + t.pnl) 0|

/-- `grossLoss > 0 ? grossProfit / grossLoss : grossProfit > 0 ? Infinity : 0`. -/
def profitFactor (tradeHistory : List TradeData) : JsNumber :=
  if grossLoss tradeHistory > 0 then
    JsNumber.finite (grossProfit tradeHistory / grossLoss tradeHistory)
  else if grossProfit tradeHistory > 0 then JsNumber.infinity
  else JsNumber.finite 0

/-- The variables `peak`, `maxDrawdown` and `running` of the drawdown loop. -/
structure DrawdownState where
  peak : ℚ
  maxDrawdown : ℚ
  running : ℚ
deriving DecidableEq, Repr

/-- One iteration of the drawdown loop. -/
def drawdownStep (d : DrawdownState) (trade : TradeData) : DrawdownState :=
  let running := d.running + trade.pnl
  let peak := max d.peak running
  let drawdown := if peak > 0 then (peak - running) / peak else 0
  { peak := peak, maxDrawdown := max d.maxDrawdown drawdown, running := running }

/-- The drawdown loop over the history, from `peak = 0`, `maxDrawdown = 0`,
`running = 0`. -/
def drawdownScan (tradeHistory : List TradeData) : DrawdownState :=
  tradeHistory.foldl drawdownStep { peak := 0, maxDrawdown := 0, running := 0 }

/-- `checkLiveReadiness(tradeHistory)`. -/
def checkLiveReadiness (tradeHistory : List TradeData) : ReadinessResult :=
  let requirements := GAME_CONFIG.warnings.liveTradeRequirements
  let totalTrades := tradeHistory.length
  let passedMinTrades := decide (totalTrades ≥ requirements.minPaperTrades)
  let passedWinRate := decide (winRate tradeHistory ≥ requirements.minWinRate)
  let passedPF := (profitFactor tradeHistory).ge requirements.minProfitFactor
  let maxDrawdown := (drawdownScan tradeHistory).maxDrawdown
  let passedDrawdown := decide (maxDrawdown ≤ requirements.maxDrawdown)
  { ready := passedMinTrades && passedWinRate && passedPF && passedDrawdown
    checks :=
      [{ name := "Minimum Paper Trades"
         actual := JsNumber.finite (totalTrades : ℚ)
         passed := passedMinTrades },
       { name := "Win Rate"
         actual := JsNumber.finite (winRate tradeHistory)
         passed := passedWinRate },
       { name := "Profit Factor"
         actual := profitFactor tradeHistory
         passed := passedPF },
       { name := "Max Drawdown"
         actual := JsNumber.finite maxDrawdown
         passed := passedDrawdown }] }

/-! ## Definitions used to state the theorems: concrete inputs, effects, invariants -/

/-- A market at price 0.50 in the medium tier with confidence 75. -/
def sampleMarket : Market where
  id := "m1"
  question := "Will it happen?"
  yesPrice := 1 / 2
  volatilityLevel := some "medium"
  aiProbability := some 75

/-- The trade object after the three "store for later" assignments of
`updateTradePnL` (used to state its effect). -/
def storePnL (trade : Trade) : Trade :=
  { trade with
    grossPnl := some ((trade.currentPrice - trade.entryPrice) * trade.shares)
    fees := some (calculateFees trade.buyPrice trade.market.volatilityLevel
      (decide ((trade.currentPrice - trade.entryPrice) * trade.shares > 0)))
    netPnl := some ((trade.currentPrice - trade.entryPrice) * trade.shares -
      (calculateFees trade.buyPrice trade.market.volatilityLevel
        (decide ((trade.currentPrice - trade.entryPrice) * trade.shares > 0))).total) }

/-- The constructor state after `startSession()`. -/
def sessionState : GameState := startSession initialState

/-- The session state after `enterTrade(sampleMarket, 5)`: a Pending trade. -/
def pendingState : GameState := (enterTrade sessionState sampleMarket 5).2

/-- The Pending trade after `startTrade()`: a Started trade. -/
def startedState : GameState := startTrade pendingState

/-- The trade object held by `pendingState` and `startedState`. -/
def sampleTrade : Trade where
  market := sampleMarket
  entryPrice := 1 / 2
  currentPrice := 1 / 2
  buyPrice := 5
  shares := 15
  timeRemaining := 20
  takeProfitTarget := 3 / 4
  stopLossTarget := -(3 / 5)
  aiConfidence := 75
  priceSource := PriceSource.real
  entryValidation := validateEntry sampleMarket 75 5 (some "medium")
  grossPnl := some 0
  fees := some (calculateFees 5 (some "medium") false)
  netPnl := some (-(19 / 200))

/-- The object literal assigned to `state.activeTrade` by `enterTrade` (used to state
its effect). -/
def openedTrade (s : GameState) (market : Market) (buyPrice : ℚ) : Trade where
  market := market
  entryPrice := market.yesPrice
  currentPrice := market.yesPrice
  buyPrice := buyPrice
  shares := Int.floor (buyPrice / market.yesPrice *
    (match market.aiProbability with
     | none => 1
     | some a => if a = 0 then 1 else a / 75) * (3 / 2))
  timeRemaining := s.timerDuration
  takeProfitTarget := buyPrice * (15 / 100)
  stopLossTarget := -(buyPrice * (12 / 100))
  aiConfidence := jsOr market.aiProbability 75
  priceSource := s.priceSource
  entryValidation := validateEntry market (jsOr market.aiProbability 75) buyPrice
    (some (jsOrStr market.volatilityLevel "medium"))
  grossPnl := none
  fees := none
  netPnl := none

/-- No interval handle is set while no trade is open. -/
def TimersIdle (s : GameState) : Prop :=
  s.activeTrade = none → s.tradeTimer = false ∧ s.priceUpdateTimer = false

/-- The operations that run between the opening and the close of one trade:
`startTrade` and the firings of the two intervals. -/
def isStartOrTick : Action → Bool
  | Action.startTrade => true
  | Action.priceTick _ => true
  | Action.countdownTick => true
  | _ => false

/-- State `s'` is state `s` after an automatic close, for reason `reason`, of the
trade `trade` at exit price `p` with gross P&L `g`, fees `f` and net P&L `n`: no
trade is open, the countdown handle is cleared, and exactly one outcome record, with
these figures and this reason, has been handed to the trade logger. -/
def ClosedWith (s s' : GameState) (trade : Trade) (p g : ℚ) (f : FeeResult) (n : ℚ)
    (reason : AutoExitReason) : Prop :=
  s'.activeTrade = none ∧ s'.tradeTimer = false ∧
  s'.logged = s.logged ++
    [{ market := trade.market
       entryPrice := trade.entryPrice
       exitPrice := p
       shares := trade.shares
       buyPrice := trade.buyPrice
       grossPnl := g
       fees := f
       netPnl := n
       exitReason := ExitReason.auto reason
       priceSource := trade.priceSource
       aiConfidence := trade.aiConfidence }]

/-- The example of the specification: a Started trade of stake 5 entered at 0.50 with
10 shares in the medium tier, targets +0.75 and -0.60. -/
def specExampleState : GameState :=
  { startedState with activeTrade := some { sampleTrade with shares := 10 } }

/-- The P&L fields stored on every open trade are those computed from its current
price. -/
def PnLStored (s : GameState) : Prop :=
  ∀ trade, s.activeTrade = some trade → storePnL trade = trade

/-- The sample trade after a tick at price 0.513, where the gross P&L 0.195 equals
the fees of a winning trade, so that the stored net P&L is 0. -/
def breakEvenTrade : Trade :=
  storePnL { sampleTrade with currentPrice := 513 / 1000 }

/-- The sample market with an AI probability of 0. -/
def zeroConfidenceMarket : Market :=
  { sampleMarket with aiProbability := some 0 }

/-- Every open trade has the targets `tp` and `sl`. -/
def TargetsAre (tp sl : ℚ) (s : GameState) : Prop :=
  ∀ trade, s.activeTrade = some trade →
    trade.takeProfitTarget = tp ∧ trade.stopLossTarget = sl

/-- The fresh session after opening the sample market with the whole bankroll
(stake 1000, 3000 shares), starting the trade and one price tick at 0.47: the stored
net P&L is -105.02, above the stop-loss target -120, so the trade is still Started. -/
def losingStartedState : GameState :=
  priceTick (startTrade (enterTrade sessionState sampleMarket 1000).2) (some (47 / 100))

/-- The trade object held by `losingStartedState`. -/
def losingTrade : Trade where
  market := sampleMarket
  entryPrice := 1 / 2
  currentPrice := 47 / 100
  buyPrice := 1000
  shares := 3000
  timeRemaining := 20
  takeProfitTarget := 150
  stopLossTarget := -120
  aiConfidence := 75
  priceSource := PriceSource.real
  entryValidation := validateEntry sampleMarket 75 1000 (some "medium")
  grossPnl := some (-90)
  fees := some (calculateFees 1000 (some "medium") false)
  netPnl := some (-(5251 / 50))

/-! ## Real-time price feed (`RealTimePriceFeed`, `src/api.js`) -/

/-- Entry `{ price, timestamp }` of a price history. -/
structure PricePoint where
  price : ℚ
  timestamp : ℕ
deriving DecidableEq, Repr

/-- The value of a field of an inbound message, as far as `handleMessage` reads it:
`absent` is `undefined` or `null`; `number` is a JSON number; `text s parsed` is the
string `s` together with the result `parsed` of `parseFloat(s)` (`none` for `NaN`),
the string parser being a primitive of the platform. -/
inductive RawValue where
  | absent
  | number (value : ℚ)
  | text (s : String) (parsed : Option ℚ)
deriving DecidableEq, Repr

/-- JavaScript truthiness of a field value: `undefined`, `null`, `0` and the empty
string are falsy. -/
def RawValue.truthy : RawValue → Bool
  | RawValue.absent => false
  | RawValue.number value => decide (value ≠ 0)
  | RawValue.text s _ => decide (s ≠ "")

/-- JavaScript `a || b` on field values. -/
def RawValue.or (a b : RawValue) : RawValue :=
  if a.truthy then a else b

/-- JavaScript `parseFloat(v)`: `none` stands for `NaN`. -/
def parseFloat : RawValue → Option ℚ
  | RawValue.absent => none
  | RawValue.number value => some value
  | RawValue.text s parsed => if s = "" then none else parsed

/-- JavaScript `a || b` on possibly undefined strings. -/
def jsOrOptStr (a b : Option String) : Option String :=
  match a with
  | none => b
  | some v => if v = "" then b else some v

/-- A parsed inbound message `data` (the fields read by `handleMessage`). -/
structure FeedMessage where
  type : Option String
  market : Option String
  asset_id : Option String
  price : RawValue
  yes_price : RawValue
deriving DecidableEq, Repr

/-- Value `{ price, timestamp, raw }` of the map `prices`. -/
structure PriceRecord where
  price : ℚ
  timestamp : ℕ
  raw : FeedMessage
deriving DecidableEq, Repr

/-- A control message handed to `ws.send`: `{ type, channel: 'market', market }`. -/
structure ControlMessage where
  type : String
  channel : String
  market : String
deriving DecidableEq, Repr

/-- One call `callback(price, { oldPrice, change, history, isReal })` made by
`updatePrice`; `callback` identifies the function that was registered. -/
structure CallbackCall where
  callback : ℕ
  price : ℚ
  oldPrice : Option ℚ
  change : ℚ
  history : List PricePoint
  isReal : Bool
deriving DecidableEq, Repr

/-- The transport object held in `this.ws`: `live` while the connection is being
opened or is open, `closed` once the connection has closed. -/
inductive Transport where
  | live
  | closed
deriving DecidableEq, Repr

/-- The state of a `RealTimePriceFeed`.  `ws` is `none` when `this.ws` is `null`; the
four maps are functions on market identifiers.  The effects of the
methods on their environment are recorded in the state: `sent` are the messages
handed to `ws.send`, `scheduledReconnects` the delays (ms) of the reconnect timers set
by `attemptReconnect` that have not fired yet, `connectCalls` the number of calls of
`connect()`, `closeEventsPending` the number of transports on which `close()` was
called and whose `close` event is still to be delivered, and `invocations` the calls
made to subscriber callbacks. -/
structure FeedState where
  ws : Option Transport
  subscriptions : String → Bool
  prices : String → Option PriceRecord
  priceHistory : String → Option (List PricePoint)
  connected : Bool
  reconnectAttempts : ℕ
  maxReconnectAttempts : ℕ
  callbacks : String → Option ℕ
  sent : List ControlMessage
  scheduledReconnects : List ℕ
  connectCalls : ℕ
  closeEventsPending : ℕ
  invocations : List CallbackCall

/-- The state built by the constructor of `RealTimePriceFeed`. -/
def newFeed : FeedState where
  ws := none
  subscriptions := fun _ => false
  prices := fun _ => none
  priceHistory := fun _ => none
  connected := false
  reconnectAttempts := 0
  maxReconnectAttempts := 5
  callbacks := fun _ => none
  sent := []
  scheduledReconnects := []
  connectCalls := 0
  closeEventsPending := 0
  invocations := []

/-- The synchronous part of `connect()`: a new transport is created and stored in
`this.ws`, with the four handlers `onOpen`, `handleMessage`, `onError`, `onClose`
below attached to it. -/
def connect (f : FeedState) : FeedState :=
  { f with ws := some Transport.live, connectCalls := f.connectCalls + 1 }

/-- Handler `ws.onopen` set by `connect`. -/
def onOpen (f : FeedState) : FeedState :=
  { f with connected := true, reconnectAttempts := 0 }

/-- Handler `ws.onerror` set by `connect`. -/
def onError (f : FeedState) : FeedState :=
  { f with connected := false }

/-- `attemptReconnect()`: the timer it sets is recorded by its delay. -/
def attemptReconnect (f : FeedState) : FeedState :=
  if f.reconnectAttempts ≥ f.maxReconnectAttempts then f
  else
    let attempts := f.reconnectAttempts + 1
    let delay := min (1000 * 2 ^ attempts) 30000
    { f with reconnectAttempts := attempts
             scheduledReconnects := f.scheduledReconnects ++ [delay] }

/-- Handler `ws.onclose` set by `connect`. -/
def onClose (f : FeedState) : FeedState :=
  attemptReconnect { f with connected := false }

/-- The oldest reconnect timer set by `attemptReconnect` fires: its callback is
`() => this.connect()`, without any test. -/
def reconnectTimerFires (f : FeedState) : FeedState :=
  match f.scheduledReconnects with
  | [] => f
  | _ :: rest => connect { f with scheduledReconnects := rest }

/-- `disconnect()`.  `this.ws.close()` on a live transport is recorded as a `close`
event to come (the handlers set by `connect` are not removed from the transport); on
a transport that has already closed it does nothing. -/
def disconnect (f : FeedState) : FeedState :=
  let f1 : FeedState :=
    match f.ws with
    | some Transport.live => { f with ws := none, closeEventsPending := f.closeEventsPending + 1 }
    | some Transport.closed => { f with ws := none }
    | none => f
  { f1 with connected := false, subscriptions := fun _ => false, callbacks := fun _ => none }

/-- The connection held in `this.ws` fails or is closed by the other side: the
transport is closed and its `onclose` handler runs. -/
def connectionLost (f : FeedState) : FeedState :=
  match f.ws with
  | some Transport.live => onClose { f with ws := some Transport.closed }
  | _ => f

/-- The transport delivers the `close` event of a transport that was closed by
`close()`: the `onclose` handler of `connect` runs. -/
def deliverCloseEvent (f : FeedState) : FeedState :=
  if f.closeEventsPending = 0 then f
  else onClose { f with closeEventsPending := f.closeEventsPending - 1 }

/-- The three ways `subscribe` ends: `return false`, `return true`, or the
`TypeError` of `this.ws.send` when `this.ws` is `null`. -/
inductive SubscribeResult where
  | notConnected
  | subscribed
  | threw
deriving DecidableEq, Repr

/-- `subscribe(marketId, callback)`. -/
def subscribe (f : FeedState) (marketId : String) (callback : ℕ) : SubscribeResult × FeedState :=
  if !f.connected then (SubscribeResult.notConnected, f)
  else
    let f1 : FeedState := { f with callbacks := Function.update f.callbacks marketId (some callback) }
    if f1.ws.isNone then (SubscribeResult.threw, f1)
    else
      let subscribeMsg : ControlMessage :=
        { type := "subscribe", channel := "market", market := marketId }
      let f2 : FeedState := { f1 with sent := f1.sent ++ [subscribeMsg] }
      (SubscribeResult.subscribed,
        { f2 with subscriptions := Function.update f2.subscriptions marketId true })

/-- The array method `slice(-n)`: the last `n` elements (`slice(-0)` is the whole
array). -/
def sliceLast (n : ℕ) (l : List PricePoint) : List PricePoint :=
  if n = 0 then l else l.drop (l.length - n)

/-- `updatePrice(marketId, price, rawData)`, with `now` the value of `Date.now()`. -/
def updatePrice (f : FeedState) (marketId : String) (price : ℚ) (rawData : FeedMessage)
    (now : ℕ) : FeedState :=
  let oldPrice := f.prices marketId
  let record : PriceRecord := { price := price, timestamp := now, raw := rawData }
  let f1 : FeedState := { f with prices := Function.update f.prices marketId (some record) }
  let pushed := (f1.priceHistory marketId).getD [] ++ [{ price := price, timestamp := now }]
  let limit := if GAME_CONFIG.priceHistoryLength = 0 then 60 else GAME_CONFIG.priceHistoryLength
  let history :=
    if pushed.length > limit then sliceLast GAME_CONFIG.priceHistoryLength pushed else pushed
  let f2 : FeedState :=
    { f1 with priceHistory := Function.update f1.priceHistory marketId (some history) }
  match f2.callbacks marketId with
  | none => f2
  | some callback =>
    let call : CallbackCall :=
      { callback := callback
        price := price
        oldPrice := oldPrice.map (fun r => r.price)
        change := (match oldPrice with
          | some r => price - r.price
          | none => 0)
        history := history
        isReal := true }
    { f2 with invocations := f2.invocations ++ [call] }

/-- `handleMessage(data)`, with `now` the value of `Date.now()`.  The test
`marketId && !isNaN(price)` passes for a non-empty identifier and a parsed number. -/
def handleMessage (f : FeedState) (data : FeedMessage) (now : ℕ) : FeedState :=
  if data.type = some "price_update" ∨ data.type = some "trade" then
    let marketId := jsOrOptStr data.market data.asset_id
    let price := parseFloat (data.price.or data.yes_price)
    match jsOrOptStr marketId none, price with
    | some m, some p => updatePrice f m p data now
    | _, _ => f
  else f

/-- `getPrice(marketId)`. -/
def getPrice (f : FeedState) (marketId : String) : Option ℚ :=
  (f.prices marketId).map (fun r => r.price)

/-- The contribution of one loop step of `calculateMomentum`, comparing
`history[i].price` (`later`) with `history[i-1].price` (`earlier`). -/
def momentumStep (later earlier : ℚ) : ℤ :=
  if later > earlier then 1 else if later < earlier then -1 else 0

/-- The loop `for (i = start; i > lower; i--)` of `calculateMomentum`, with `momentum`
the value accumulated so far. -/
def momentumLoop (history : List PricePoint) (lower : ℕ) : ℕ → ℤ → ℤ
  | 0, momentum => momentum
  | i + 1, momentum =>
    if i + 1 > lower then
      momentumLoop history lower i
        (momentum + momentumStep ((history.getD (i + 1) ⟨0, 0⟩).price)
          ((history.getD i ⟨0, 0⟩).price))
    else momentum

/-- `calculateMomentum(history)`.  The loop runs `i` from `length - 1` down while
`i > Math.max(0, length - 5)`; on natural numbers `length - 5` is that maximum. -/
def calculateMomentum (history : List PricePoint) : ℤ :=
  if history.length < 3 then 0
  else momentumLoop history (history.length - 5) (history.length - 1) 0

/-! ## Price source policy (`initializePriceFeed` and the price interval, `src/game.js`) -/

/-- The assignments made by `initializePriceFeed()` under the configuration `cfg`, with
`connects` telling whether `realTimePriceFeed.connect()` resolves (`true`) or rejects
(`false`).  With the price source 'real' they are made when the awaited promise
settles, which is some time after the constructor has returned. -/
def initializePriceFeed (cfg : Config) (connects : Bool) (s : GameState) : GameState :=
  if cfg.priceSource = PriceSource.real then
    if connects then
      { s with wsConnected := true, priceSource := PriceSource.real, tradingEnabled := true }
    else
      let s1 : GameState :=
        { s with wsConnected := false, priceSource := PriceSource.unavailable }
      if cfg.requireRealPrices then { s1 with tradingEnabled := false }
      else if cfg.fallbackToSimulation then
        { s1 with priceSource := PriceSource.simulated, tradingEnabled := true }
      else s1
  else
    { s with priceSource := PriceSource.simulated, tradingEnabled := !cfg.requireRealPrices }

/-- The engine together with the simulator object it uses; `simulatedApplied` records
the effect "a price returned by the simulator was written to the open trade". -/
structure Session where
  game : GameState
  simulator : PriceSimulator
  simulatedApplied : List ℚ

/-- `enterTrade(market, buyPrice)` together with its call of
`priceSimulator.initializePrice`, which is made under `cfg.enablePriceSimulation` once
the guards and the validator have been passed. -/
def enterTradeWithSimulator (cfg : Config) (ss : Session) (market : Market) (buyPrice : ℚ) :
    Session :=
  let r := enterTrade ss.game market buyPrice
  { ss with
    game := r.2
    simulator :=
      if r.1 = EnterOutcome.opened ∧ cfg.enablePriceSimulation = true then
        ss.simulator.initializePrice market.id market.yesPrice market.volatilityLevel
          (jsOr market.aiProbability 75)
      else ss.simulator }

/-- One firing of the price interval set by `startTradeTimers`, with `feed` the state
of the real-time feed and `random` the value of `Math.random()`: the price comes from
the feed when `state.priceSource === 'real' && state.wsConnected`, else from
`priceSimulator.updatePrice`. -/
def priceIntervalFires (ss : Session) (feed : FeedState) (random : ℚ) : Session :=
  if !ss.game.priceUpdateTimer then ss
  else
    match ss.game.activeTrade with
    | none => ss
    | some trade =>
      if ss.game.priceSource = PriceSource.real ∧ ss.game.wsConnected = true then
        { ss with game := priceTick ss.game (getPrice feed trade.market.id) }
      else
        let r := ss.simulator.updatePrice trade.market.id random
        { game := priceTick ss.game r.1
          simulator := r.2
          simulatedApplied :=
            match r.1 with
            | none => ss.simulatedApplied
            | some p => if p = 0 then ss.simulatedApplied else ss.simulatedApplied ++ [p] }

/-- The operations of the engine, the price tick being a firing of the price
interval, and the settling of the connection awaited by `initializePriceFeed()`, which
the constructor starts without waiting for it. -/
inductive SessionAction where
  | connectSettles (connects : Bool)
  | startSession
  | enterTrade (market : Market) (buyPrice : ℚ)
  | startTrade
  | priceInterval (feed : FeedState) (random : ℚ)
  | countdownTick
  | exitTrade
  | cancelTrade

/-- The effect of one operation under the configuration `cfg`. -/
def sessionStep (cfg : Config) (ss : Session) : SessionAction → Session
  | SessionAction.connectSettles connects =>
    { ss with game := initializePriceFeed cfg connects ss.game }
  | SessionAction.startSession => { ss with game := startSession ss.game }
  | SessionAction.enterTrade market buyPrice => enterTradeWithSimulator cfg ss market buyPrice
  | SessionAction.startTrade => { ss with game := startTrade ss.game }
  | SessionAction.priceInterval feed random => priceIntervalFires ss feed random
  | SessionAction.countdownTick => { ss with game := countdownTick ss.game }
  | SessionAction.exitTrade => { ss with game := exitTrade ss.game }
  | SessionAction.cancelTrade => { ss with game := cancelTrade ss.game }

/-- A sequence of operations applied from left to right. -/
def sessionRun (cfg : Config) (ss : Session) (actions : List SessionAction) : Session :=
  actions.foldl (sessionStep cfg) ss

/-- The signs of the consecutive pairs of a list of prices, oldest pair first: `+1`
for an increase, `-1` for a decrease, `0` for a flat pair. -/
def consecutiveSteps : List ℚ → List ℤ
  | earlier :: later :: rest => momentumStep later earlier :: consecutiveSteps (later :: rest)
  | _ => []

/-- Momentum as the specification words it: the sum of the signs of the last `k`
consecutive pairs of the history. -/
def momentumOverLastPairs (k : ℕ) (history : List PricePoint) : ℤ :=
  (((consecutiveSteps (history.map (fun h => h.price))).reverse).take k).sum

/-- A history with the given prices (time stamps 0). -/
def historyOf (prices : List ℚ) : List PricePoint :=
  prices.map (fun p => { price := p, timestamp := 0 })

/-- What can happen to the feed while no connection attempt succeeds: a run of the
`onclose` handler, a run of the `onerror` handler, or the firing of a reconnect
timer. -/
inductive FailureEvent where
  | close
  | error
  | timer
deriving DecidableEq, Repr

/-- The effect of one failure event. -/
def failureStep (f : FeedState) : FailureEvent → FeedState
  | FailureEvent.close => onClose f
  | FailureEvent.error => onError f
  | FailureEvent.timer => reconnectTimerFires f

/-- A feed that has connected: `connect()` followed by the `open` event. -/
def connectedFeed : FeedState := onOpen (connect newFeed)

/-- A connected feed whose connection was lost: one reconnect timer (2000 ms) is
pending. -/
def droppedFeed : FeedState := connectionLost connectedFeed

/-- The message has one of the two kinds that carry a price. -/
def hasPriceType (data : FeedMessage) : Prop :=
  data.type = some "price_update" ∨ data.type = some "trade"

instance hasPriceTypeDecidable (data : FeedMessage) : Decidable (hasPriceType data) :=
  inferInstanceAs (Decidable (data.type = some "price_update" ∨ data.type = some "trade"))

/-- The market identifier a message carries: `market` when it is a non-empty string,
otherwise `asset_id` when that is a non-empty string. -/
def carriedMarketId (data : FeedMessage) : Option String :=
  match data.market, data.asset_id with
  | some m, some a => if m ≠ "" then some m else if a ≠ "" then some a else none
  | some m, none => if m ≠ "" then some m else none
  | none, some a => if a ≠ "" then some a else none
  | none, none => none

/-- The numeric price a message carries: the number read from `price` when that field
is truthy, otherwise from `yes_price`. -/
def carriedPrice (data : FeedMessage) : Option ℚ :=
  if data.price.truthy then parseFloat data.price else parseFloat data.yes_price

/-- The last `n` elements of a list, in their order. -/
def lastN {α : Type} (n : ℕ) (l : List α) : List α :=
  l.drop (l.length - n)

/-- One call `updatePrice(marketId, price, raw)` made at time `now`. -/
structure PriceUpdate where
  marketId : String
  price : ℚ
  raw : FeedMessage
  now : ℕ

/-- A sequence of price updates delivered to the feed in order. -/
def deliverUpdates (f : FeedState) (updates : List PriceUpdate) : FeedState :=
  updates.foldl (fun g u => updatePrice g u.marketId u.price u.raw u.now) f

/-- The history entries of the updates addressed to market `m`, in arrival order. -/
def pointsFor (m : String) (updates : List PriceUpdate) : List PricePoint :=
  (updates.filter (fun u => decide (u.marketId = m))).map
    (fun u => { price := u.price, timestamp := u.now })

/-- A `price_update` message for market `m1` with the price as a number. -/
def sampleMessage (p : ℚ) : FeedMessage where
  type := some "price_update"
  market := some "m1"
  asset_id := none
  price := RawValue.number p
  yes_price := RawValue.absent

/-- A message of an unknown kind. -/
def heartbeatMessage : FeedMessage where
  type := some "heartbeat"
  market := none
  asset_id := none
  price := RawValue.absent
  yes_price := RawValue.absent

/-- The history that `updatePrice` stores for a market whose stored history is `old`
when the point `point` arrives (used to state its effect). -/
def pushBounded (old : List PricePoint) (point : PricePoint) : List PricePoint :=
  lastN 60 (old ++ [point])

/-- The connected feed after `subscribe('m1', callback 1)`. -/
def subscribedFeed : FeedState := (subscribe connectedFeed "m1" 1).2

/-- Sixty-one updates for market `m1`, the `i`-th (from 0) with price `i` at time
`i`. -/
def sixtyOneUpdates : List PriceUpdate :=
  (List.range 61).map
    (fun (i : ℕ) =>
      { marketId := "m1", price := (i : ℚ), raw := sampleMessage (i : ℚ), now := i })

/-- Every open trade has the exit targets that `enterTrade` computes from the stake
under the default configuration: take-profit `stake * 0.15`, stop-loss
`-(stake * 0.12)`. -/
def TargetsFromStake (s : GameState) : Prop :=
  ∀ trade, s.activeTrade = some trade →
    trade.takeProfitTarget = trade.buyPrice * (15 / 100) ∧
    trade.stopLossTarget = -(trade.buyPrice * (12 / 100))

/-- The trade object on which `updateTradePnL` runs its exit checks after a price
tick at `p`: the new current price and the P&L fields stored from it. -/
def tickedTrade (trade : Trade) (p : ℚ) : Trade :=
  storePnL { trade with currentPrice := p }

/-- A closed trade of the sample market with net P&L `pnl`. -/
def pnlTrade (pnl : ℚ) : TradeData where
  question := "Will it happen?"
  entryPrice := 1 / 2
  exitPrice := 1 / 2
  shares := 15
  buyPrice := 5
  pnl := pnl
  exitType := ExitType.manual
  marketId := "m1"
  volatilityLevel := some "medium"

/-- The history with the net P&L values +10, -5, +20, -30, +5. -/
def exampleHistory : List TradeData :=
  [pnlTrade 10, pnlTrade (-5), pnlTrade 20, pnlTrade (-30), pnlTrade 5]

/-- In the words of the specification: the sum of the positive P&Ls of a history. -/
def sumOfPositivePnLs (tradeHistory : List TradeData) : ℚ :=
  ((tradeHistory.map (fun t => t.pnl)).filter (fun x => decide (0 < x))).sum

/-- In the words of the specification: the absolute sum of the negative P&Ls of a
history, the sum of their absolute values. -/
def absSumOfNegativePnLs (tradeHistory : List TradeData) : ℚ :=
  (((tradeHistory.map (fun t => t.pnl)).filter (fun x => decide (x < 0))).map
    (fun x => |x|)).sum

/-- In the words of the configuration comment ("at least one 3-win streak"): the
length of the current and of the longest run of consecutive winning trades. -/
def winStreaks (tradeHistory : List TradeData) : ℕ × ℕ :=
  tradeHistory.foldl
    (fun (acc : ℕ × ℕ) t => if t.pnl > 0 then (acc.1 + 1, max acc.2 (acc.1 + 1)) else (0, acc.2))
    (0, 0)

/-- The length of the longest run of consecutive winning trades of a history. -/
def longestWinStreak (tradeHistory : List TradeData) : ℕ :=
  (winStreaks tradeHistory).2

/-- Two wins of +10 followed by a loss of -1. -/
def twoWinsOneLoss : List TradeData :=
  [pnlTrade 10, pnlTrade 10, pnlTrade (-1)]

/-- A history of 51 trades: `twoWinsOneLoss` repeated 17 times. -/
def streaklessHistory : List TradeData :=
  (List.replicate 17 twoWinsOneLoss).flatten

/-- The engine and the simulator as the constructors leave them: trading enabled, the
price source 'real', not connected, no simulator record. -/
def newSession : Session where
  game := initialState
  simulator := newSimulator
  simulatedApplied := []

/-- The configuration of `src/config.js` with `requireRealPrices` switched off and
`enablePriceSimulation` switched on; `fallbackToSimulation` stays `false` and
`priceSource` stays `'real'`. -/
def simulationWithoutFallbackConfig : Config :=
  { GAME_CONFIG with requireRealPrices := false, enablePriceSimulation := true }

/-- The configuration of `src/config.js` with `enablePriceSimulation` switched on;
`requireRealPrices` stays `true`, `fallbackToSimulation` stays `false` and
`priceSource` stays `'real'`. -/
def simulationWithRealRequiredConfig : Config :=
  { GAME_CONFIG with enablePriceSimulation := true }

/-- The simulator holds no record and no simulated price has been applied. -/
def SimulatorEmpty (ss : Session) : Prop :=
  (∀ marketId, ss.simulator.prices marketId = none) ∧ ss.simulatedApplied = []

/-- The fresh session after a failed connection under a configuration that does not
require real prices and does not fall back: the price source is 'unavailable' and
trading stays enabled. -/
def unavailableSessionState : GameState :=
  { sessionState with priceSource := PriceSource.unavailable }

/-- The sample trade opened while the price source is 'unavailable'. -/
def unavailableSampleTrade : Trade :=
  { sampleTrade with priceSource := PriceSource.unavailable }

/-- The connection fails; then the session is started, the sample market is opened
with stake 5, the trade is started, and the price interval fires once with
`Math.random()` returning 0.75. -/
def failedConnectThenTrade : List SessionAction :=
  [SessionAction.connectSettles false, SessionAction.startSession,
   SessionAction.enterTrade sampleMarket 5, SessionAction.startTrade,
   SessionAction.priceInterval newFeed (3 / 4)]

/-- The session is started, the sample market is opened with stake 5 and the trade is
started while the connection is still pending; then the connection fails and the
price interval fires once with `Math.random()` returning 0.75. -/
def tradeThenFailedConnect : List SessionAction :=
  [SessionAction.startSession, SessionAction.enterTrade sampleMarket 5,
   SessionAction.startTrade, SessionAction.connectSettles false,
   SessionAction.priceInterval newFeed (3 / 4)]

/-! ## Fee model: theorems -/

theorem jsOr_some_of_ne_zero (v b : ℚ) (h : v ≠ 0) : jsOr (some v) b = v := by
  simp [jsOr, h]

theorem jsOr_some_self (v : ℚ) : jsOr (some v) v = v := by
  by_cases h : v = 0
  · simp [jsOr, h]
  · simp [jsOr, h]

/-- The rate selected by `calculateFees` is the table entry of a configured tier and
the medium entry for every other key. -/
theorem slippage_rate_cases (level : String) :
    jsOr (slippageLookup level) GAME_CONFIG.fees.slippage.medium =
      if level = "low" then 5 / 1000
      else if level = "high" then 2 / 100
      else 1 / 100 := by
  unfold slippageLookup
  by_cases h1 : level = "low"
  · subst h1; simp [jsOr, GAME_CONFIG]
  · by_cases h2 : level = "medium"
    · subst h2; simp [jsOr, GAME_CONFIG]
    · by_cases h3 : level = "high"
      · subst h3; simp [jsOr, GAME_CONFIG]
      · simp [jsOr, GAME_CONFIG, h1, h2, h3]

theorem slippageRead_of_not_inherited (level : String) (h : level ∉ objectPrototypeKeys) :
    slippageRead level =
      match slippageLookup level with
      | some value => TableRead.rate value
      | none => TableRead.undefined := by
  unfold slippageRead slippageLookup
  split_ifs <;> rfl

/-- The fee components for every tier that does not name an inherited property: with
fees enabled (as configured), for every stake `s > 0`, such a tier `t` (`none` for an
omitted tier) and flag `w`, `calculateFees s t w` has slippage `s * rate`, where the
rate is 0.005 for `low`, 0.02 for `high`, 0.01 for `medium` and for every other such key;
spread `s * (typicalSpread / 2)`; trading fee `s * takerFee` when `w` is true and `0`
when it is false; gas `2 * estimatedGasUSD`; total the sum of the four; and percentage
`total / s * 100`; the slippage and the total are the numbers `slippageCharge` and
`calculateFeesTotal`. -/
theorem calculateFees_components (s : ℚ) (t : Option String) (w : Bool) (hs : 0 < s)
    (hkey : t.getD "medium" ∉ objectPrototypeKeys) :
    GAME_CONFIG.includeFees = true ∧
    ∃ b : FeeBreakdown,
      (calculateFees s t w).breakdown = some b ∧
      b.slippage = s * (if t = some "low" then GAME_CONFIG.fees.slippage.low
                        else if t = some "high" then GAME_CONFIG.fees.slippage.high
                        else GAME_CONFIG.fees.slippage.medium) ∧
      b.spread = s * (GAME_CONFIG.fees.typicalSpread / 2) ∧
      b.tradingFee = (if w = true then s * GAME_CONFIG.fees.takerFee else 0) ∧
      b.gas = 2 * GAME_CONFIG.fees.estimatedGasUSD ∧
      (calculateFees s t w).total = b.slippage + b.spread + b.tradingFee + b.gas ∧
      (calculateFees s t w).percentage = some ((calculateFees s t w).total / s * 100) ∧
      slippageCharge s t = some b.slippage ∧
      calculateFeesTotal s t w = some (calculateFees s t w).total := by
  have hs0 : s ≠ 0 := ne_of_gt hs
  refine ⟨rfl, ?_⟩
  have hrate : jsOr (slippageLookup (t.getD "medium")) GAME_CONFIG.fees.slippage.medium =
      (if t = some "low" then GAME_CONFIG.fees.slippage.low
       else if t = some "high" then GAME_CONFIG.fees.slippage.high
       else GAME_CONFIG.fees.slippage.medium) := by
    rw [slippage_rate_cases]
    cases t with
    | none => simp [GAME_CONFIG]
    | some l => simp [GAME_CONFIG]
  have hcharge : slippageCharge s t =
      some (s * jsOr (slippageLookup (t.getD "medium")) GAME_CONFIG.fees.slippage.medium) := by
    unfold slippageCharge
    rw [slippageRead_of_not_inherited _ hkey]
    cases slippageLookup (t.getD "medium") with
    | none => rfl
    | some value => rfl
  refine ⟨{ slippage := s * jsOr (slippageLookup (t.getD "medium")) GAME_CONFIG.fees.slippage.medium
            spread := s * (GAME_CONFIG.fees.typicalSpread / 2)
            tradingFee := if w = true then s * GAME_CONFIG.fees.takerFee else 0
            gas := GAME_CONFIG.fees.estimatedGasUSD * 2 }, ?_, ?_, rfl, rfl, ?_, ?_, ?_, hcharge, ?_⟩
  · simp [calculateFees, GAME_CONFIG]
  · simp only [hrate]
  · simp only []; ring
  · simp [calculateFees, GAME_CONFIG]
  · simp [calculateFees, GAME_CONFIG, hs0]
  · unfold calculateFeesTotal
    rw [hcharge]
    simp [calculateFees, GAME_CONFIG]

/-- Instance of `calculateFees_components` at stake 5, tier medium, winning. -/
theorem calculateFees_components_witness :
    (0 : ℚ) < 5 ∧
    ∃ b : FeeBreakdown,
      (calculateFees 5 (some "medium") true).breakdown = some b ∧
      b.slippage = 5 / 100 ∧ b.spread = 25 / 1000 ∧ b.tradingFee = 1 / 10 ∧ b.gas = 2 / 100 ∧
      (calculateFees 5 (some "medium") true).total = 195 / 1000 ∧
      (calculateFees 5 (some "medium") true).percentage = some (39 / 10) := by
  refine ⟨by norm_num, ?_⟩
  obtain ⟨_, b, hb, h1, h2, h3, h4, h5, h6, _, _⟩ :=
    calculateFees_components 5 (some "medium") true (by norm_num) (by decide)
  refine ⟨b, hb, ?_, ?_, ?_, ?_, ?_, ?_⟩
  · rw [h1]; simp [GAME_CONFIG]; norm_num
  · rw [h2]; simp [GAME_CONFIG]; norm_num
  · rw [h3]; simp [GAME_CONFIG]; norm_num
  · rw [h4]; simp [GAME_CONFIG]; norm_num
  · rw [h5, h1, h2, h3, h4]; simp [GAME_CONFIG]; norm_num
  · rw [h6, h5, h1, h2, h3, h4]; simp [GAME_CONFIG]; norm_num

/-- C4 (the code at the failing input): `calculateFees(100, 'constructor', false)`.
The tier `'constructor'` is not a configured tier, but the read
`fees.slippage['constructor']` is the inherited constructor function, which is truthy,
so `|| fees.slippage.medium` keeps it: the slippage and the total are `NaN`, and so for
every stake, flag and key of `objectPrototypeKeys`; a key such as `'extreme'`, which
names no property at all, is charged the medium rate. -/
theorem calculateFees_inherited_key :
    slippageRead "constructor" = TableRead.inherited ∧
    slippageCharge 100 (some "constructor") = none ∧
    calculateFeesTotal 100 (some "constructor") false = none ∧
    (∀ (s : ℚ) (w : Bool) (key : String), key ∈ objectPrototypeKeys →
      slippageCharge s (some key) = none ∧ calculateFeesTotal s (some key) w = none) ∧
    slippageCharge 100 (some "extreme") = some (100 * GAME_CONFIG.fees.slippage.medium) ∧
    calculateFeesTotal 100 (some "extreme") false =
      some (calculateFees 100 (some "medium") false).total := by
  have hall : ∀ (s : ℚ) (key : String), key ∈ objectPrototypeKeys →
      slippageCharge s (some key) = none := by
    intro s key hkey
    have h1 : key ≠ "low" := by rintro rfl; revert hkey; decide
    have h2 : key ≠ "medium" := by rintro rfl; revert hkey; decide
    have h3 : key ≠ "high" := by rintro rfl; revert hkey; decide
    simp [slippageCharge, slippageRead, h1, h2, h3, hkey]
  have hc : "constructor" ∈ objectPrototypeKeys := by decide
  have hextreme : slippageCharge 100 (some "extreme") =
      some (100 * GAME_CONFIG.fees.slippage.medium) := by
    have hnot : "extreme" ∉ objectPrototypeKeys := by decide
    simp [slippageCharge, slippageRead, hnot]
  refine ⟨?_, hall 100 _ hc, ?_, ?_, hextreme, ?_⟩
  · simp [slippageRead, hc]
  · simp [calculateFeesTotal, hall 100 _ hc]
  · intro s w key hkey
    exact ⟨hall s key hkey, by simp [calculateFeesTotal, hall s key hkey]⟩
  · simp [calculateFeesTotal, hextreme, calculateFees, GAME_CONFIG, slippageLookup, jsOr]

/-! ## Entry validator: theorems -/

theorem validateEntry_expectedProfit (m : Market) (c s : ℚ) (t : Option String) :
    (validateEntry m c s t).expectedProfit =
      c / 100 * (s * GAME_CONFIG.smartTrading.takeProfitLevels.standard) -
        (1 - c / 100) * (s * GAME_CONFIG.smartTrading.stopLoss) := rfl

theorem validateEntry_feeCost (m : Market) (c s : ℚ) (t : Option String) :
    (validateEntry m c s t).feeCost = (calculateFees s t true).total := rfl

theorem validateEntry_edgeAfterFees (m : Market) (c s : ℚ) (t : Option String) :
    (validateEntry m c s t).edgeAfterFees =
      (validateEntry m c s t).expectedProfit - (validateEntry m c s t).feeCost := rfl

/-- The reasons of `validateEntry`, one optional entry per check, in the order of the
checks; the two money thresholds are the stake times the configured fraction. -/
theorem validateEntry_reasons (m : Market) (c s : ℚ) (t : Option String) :
    (validateEntry m c s t).reasons =
      (if (validateEntry m c s t).expectedProfit < s * GAME_CONFIG.smartTrading.minExpectedProfit
        then [RejectReason.expectedProfitBelowMinimum (validateEntry m c s t).expectedProfit
                (s * GAME_CONFIG.smartTrading.minExpectedProfit)]
        else []) ++
      (if (validateEntry m c s t).edgeAfterFees < s * GAME_CONFIG.smartTrading.minEdgeOverFees
        then [RejectReason.edgeBelowMinimum (validateEntry m c s t).edgeAfterFees
                (s * GAME_CONFIG.smartTrading.minEdgeOverFees)]
        else []) ++
      (if c < GAME_CONFIG.aiWinThreshold
        then [RejectReason.confidenceBelowThreshold c GAME_CONFIG.aiWinThreshold]
        else []) := by
  have h1 : jsOr (some GAME_CONFIG.smartTrading.minExpectedProfit) (5 / 100) =
      GAME_CONFIG.smartTrading.minExpectedProfit := by
    simp [jsOr, GAME_CONFIG]
  have h2 : jsOr (some GAME_CONFIG.smartTrading.minEdgeOverFees) (3 / 100) =
      GAME_CONFIG.smartTrading.minEdgeOverFees := by
    simp [jsOr, GAME_CONFIG]
  simp only [validateEntry, h1, h2]
  split_ifs <;> simp

theorem validateEntry_valid_iff_reasons (m : Market) (c s : ℚ) (t : Option String) :
    (validateEntry m c s t).valid = true ↔ (validateEntry m c s t).reasons = [] := by
  simp [validateEntry, List.length_eq_zero]

theorem validateEntry_valid_iff (m : Market) (c s : ℚ) (t : Option String) :
    (validateEntry m c s t).valid = true ↔
      ¬ (validateEntry m c s t).expectedProfit < s * (5 / 100) ∧
      ¬ (validateEntry m c s t).edgeAfterFees < s * (3 / 100) ∧
      ¬ c < 75 := by
  have hr := validateEntry_reasons m c s t
  have e1 : GAME_CONFIG.smartTrading.minExpectedProfit = 5 / 100 := rfl
  have e2 : GAME_CONFIG.smartTrading.minEdgeOverFees = 3 / 100 := rfl
  have e3 : GAME_CONFIG.aiWinThreshold = 75 := rfl
  rw [e1, e2, e3] at hr
  rw [validateEntry_valid_iff_reasons, hr]
  split_ifs <;> simp_all

/-- C3 (amended): for every confidence `c`, stake `s` and tier `t`, `validateEntry`
returns `expectedProfit = (c/100) * potentialWin - (1 - c/100) * potentialLoss` with
`potentialWin = s * 0.15` and `potentialLoss = s * 0.12`, `feeCost` the total of
`calculateFees s t true`, and `edgeAfterFees = expectedProfit - feeCost`; the reasons
are, in order and without short-circuit, one entry for each failing check among
`expectedProfit < s * minExpectedProfit` (the stake times the configured fraction
0.05), `edgeAfterFees < s * minEdgeOverFees` (the stake times 0.03) and
`c < aiWinThreshold` (75); `valid` is true iff the list of reasons is empty, i.e. iff
none of the three checks fails. -/
theorem validateEntry_spec (m : Market) (c s : ℚ) (t : Option String) :
    (validateEntry m c s t).expectedProfit =
        c / 100 * (s * (15 / 100)) - (1 - c / 100) * (s * (12 / 100)) ∧
    (validateEntry m c s t).feeCost = (calculateFees s t true).total ∧
    (validateEntry m c s t).edgeAfterFees =
        (validateEntry m c s t).expectedProfit - (validateEntry m c s t).feeCost ∧
    (validateEntry m c s t).reasons =
      (if (validateEntry m c s t).expectedProfit < s * (5 / 100)
        then [RejectReason.expectedProfitBelowMinimum (validateEntry m c s t).expectedProfit
                (s * (5 / 100))]
        else []) ++
      (if (validateEntry m c s t).edgeAfterFees < s * (3 / 100)
        then [RejectReason.edgeBelowMinimum (validateEntry m c s t).edgeAfterFees
                (s * (3 / 100))]
        else []) ++
      (if c < 75 then [RejectReason.confidenceBelowThreshold c 75] else []) ∧
    ((validateEntry m c s t).valid = true ↔ (validateEntry m c s t).reasons = []) ∧
    ((validateEntry m c s t).valid = true ↔
      ¬ (validateEntry m c s t).expectedProfit < s * (5 / 100) ∧
      ¬ (validateEntry m c s t).edgeAfterFees < s * (3 / 100) ∧
      ¬ c < 75) := by
  have hr := validateEntry_reasons m c s t
  have hv := validateEntry_valid_iff_reasons m c s t
  have e1 : GAME_CONFIG.smartTrading.minExpectedProfit = 5 / 100 := rfl
  have e2 : GAME_CONFIG.smartTrading.minEdgeOverFees = 3 / 100 := rfl
  have e3 : GAME_CONFIG.aiWinThreshold = 75 := rfl
  have e4 : GAME_CONFIG.smartTrading.takeProfitLevels.standard = 15 / 100 := rfl
  have e5 : GAME_CONFIG.smartTrading.stopLoss = 12 / 100 := rfl
  rw [e1, e2, e3] at hr
  refine ⟨?_, rfl, rfl, hr, hv, validateEntry_valid_iff m c s t⟩
  rw [validateEntry_expectedProfit, e4, e5]

/-- C3 (as stated, refuted): at confidence 75, stake 1.10 and tier medium the expected
profit (0.09075) is not below the configured minimum expected profit (0.05), the edge
after fees (0.03225) is not below the configured minimum edge (0.03) and the
confidence is not below the threshold (75), yet the entry is not valid: the edge is
compared with 0.03 times the stake (0.033). -/
theorem validateEntry_absolute_thresholds_counterexample :
    ¬ ((validateEntry sampleMarket 75 (11 / 10) (some "medium")).expectedProfit <
        GAME_CONFIG.smartTrading.minExpectedProfit) ∧
    ¬ ((validateEntry sampleMarket 75 (11 / 10) (some "medium")).edgeAfterFees <
        GAME_CONFIG.smartTrading.minEdgeOverFees) ∧
    ¬ ((75 : ℚ) < GAME_CONFIG.aiWinThreshold) ∧
    (validateEntry sampleMarket 75 (11 / 10) (some "medium")).valid = false ∧
    (validateEntry sampleMarket 75 (11 / 10) (some "medium")).reasons =
      [RejectReason.edgeBelowMinimum (129 / 4000) (33 / 1000)] := by
  have hep : (validateEntry sampleMarket 75 (11 / 10) (some "medium")).expectedProfit =
      363 / 4000 := by
    rw [validateEntry_expectedProfit]; simp [GAME_CONFIG]; norm_num
  have hfee : (validateEntry sampleMarket 75 (11 / 10) (some "medium")).feeCost =
      117 / 2000 := by
    rw [validateEntry_feeCost]
    simp [calculateFees, GAME_CONFIG, slippageLookup, jsOr]; norm_num
  have hedge : (validateEntry sampleMarket 75 (11 / 10) (some "medium")).edgeAfterFees =
      129 / 4000 := by
    rw [validateEntry_edgeAfterFees, hep, hfee]; norm_num
  have hr := validateEntry_reasons sampleMarket 75 (11 / 10) (some "medium")
  rw [hep, hedge] at hr
  have hr2 : (validateEntry sampleMarket 75 (11 / 10) (some "medium")).reasons =
      [RejectReason.edgeBelowMinimum (129 / 4000) (33 / 1000)] := by
    rw [hr]; simp [GAME_CONFIG]; norm_num
  refine ⟨?_, ?_, ?_, ?_, hr2⟩
  · rw [hep]; simp [GAME_CONFIG]; norm_num
  · rw [hedge]; simp [GAME_CONFIG]; norm_num
  · simp [GAME_CONFIG]
  · have hv := validateEntry_valid_iff_reasons sampleMarket 75 (11 / 10) (some "medium")
    rw [hr2] at hv
    cases h : (validateEntry sampleMarket 75 (11 / 10) (some "medium")).valid
    · rfl
    · exact absurd (hv.mp h) (by simp)

/-! ## Trade state machine: basic facts -/

/-- The red-zone check of `updateStats` never fires: the key it reads is not in the
configuration. -/
theorem updateStats_eq (s : GameState) : updateStats s = s := by
  simp [updateStats, statsRedZone, GAME_CONFIG]

theorem triggerRedZone_of_no_trade (s : GameState) (h : s.activeTrade = none) :
    triggerRedZone s = { s with sessionActive := false } := by
  simp [triggerRedZone, h]

/-- The state after the shared closing sequence of `exitTrade` and `autoExitTrade`. -/
theorem settleTrade_eq (s : GameState) (trade : Trade) (exitType : ExitType)
    (reason : ExitReason) :
    settleTrade s trade exitType reason =
      { s with
        trades := s.trades ++
          [{ question := trade.market.question
             entryPrice := trade.entryPrice
             exitPrice := trade.currentPrice
             shares := trade.shares
             buyPrice := trade.buyPrice
             pnl := exitNetPnL trade
             exitType := exitType
             marketId := trade.market.id
             volatilityLevel := trade.market.volatilityLevel }]
        logged := s.logged ++
          [{ market := trade.market
             entryPrice := trade.entryPrice
             exitPrice := trade.currentPrice
             shares := trade.shares
             buyPrice := trade.buyPrice
             grossPnl := exitGrossPnL trade
             fees := exitFees trade
             netPnl := exitNetPnL trade
             exitReason := reason
             priceSource := trade.priceSource
             aiConfidence := trade.aiConfidence }]
        bankroll := s.bankroll + (trade.buyPrice + exitNetPnL trade)
        totalPnL := s.totalPnL + exitNetPnL trade
        totalFeesPaid := s.totalFeesPaid + (exitFees trade).total
        consecutiveWins := if exitNetPnL trade ≥ 0 then s.consecutiveWins + 1 else 0
        consecutiveLosses := if exitNetPnL trade ≥ 0 then 0 else s.consecutiveLosses + 1
        activeTrade := none
        tradeTimer := false
        priceUpdateTimer := false } := by
  simp only [settleTrade, updateStats_eq, closeActiveTrade, stopTradeTimers, recordTrade]
  split_ifs <;> rfl

theorem exitTrade_eq (s : GameState) (trade : Trade) (h : s.activeTrade = some trade) :
    exitTrade s = settleTrade s trade ExitType.manual ExitReason.manual := by
  simp [exitTrade, h]

/-- After `autoExitTrade` the state is that of the shared closing sequence, except
that the session may have been locked. -/
theorem autoExitTrade_eq (s : GameState) (trade : Trade) (h : s.activeTrade = some trade)
    (reason : AutoExitReason) :
    autoExitTrade s reason =
      { settleTrade s trade ExitType.auto (ExitReason.auto reason) with
        sessionActive :=
          if s.totalPnL + exitNetPnL trade ≤ GAME_CONFIG.riskManagement.redZoneThreshold
          then false else s.sessionActive } := by
  have hj : jsOr (some GAME_CONFIG.riskManagement.redZoneThreshold) (-100) =
      GAME_CONFIG.riskManagement.redZoneThreshold := by
    simp [jsOr, GAME_CONFIG]
  have h1 : (settleTrade s trade ExitType.auto (ExitReason.auto reason)).totalPnL =
      s.totalPnL + exitNetPnL trade := by rw [settleTrade_eq]
  have h2 : (settleTrade s trade ExitType.auto (ExitReason.auto reason)).activeTrade = none := by
    rw [settleTrade_eq]
  have h3 : (settleTrade s trade ExitType.auto (ExitReason.auto reason)).sessionActive =
      s.sessionActive := by rw [settleTrade_eq]
  simp only [autoExitTrade, h, hj]
  by_cases hc : (settleTrade s trade ExitType.auto (ExitReason.auto reason)).totalPnL ≤
      GAME_CONFIG.riskManagement.redZoneThreshold
  · have hc2 : s.totalPnL + exitNetPnL trade ≤ GAME_CONFIG.riskManagement.redZoneThreshold :=
      h1 ▸ hc
    rw [if_pos hc, if_pos hc2, triggerRedZone_of_no_trade _ h2]
  · have hc2 : ¬ s.totalPnL + exitNetPnL trade ≤ GAME_CONFIG.riskManagement.redZoneThreshold :=
      h1 ▸ hc
    rw [if_neg hc, if_neg hc2, ← h3]

theorem updateTradePnL_idle (s : GameState) (trade : Trade) (h : s.activeTrade = some trade)
    (ht : s.tradeTimer = false) :
    updateTradePnL s = { s with activeTrade := some (storePnL trade) } := by
  simp [updateTradePnL, h, ht, storePnL]

/-- The stored net P&L is the net P&L used at close: `a || b` selects `b` only when
`a` is `0`, and then `b` is the same difference, again `0`. -/
theorem exitNetPnL_storePnL (trade : Trade) :
    exitNetPnL (storePnL trade) =
      (trade.currentPrice - trade.entryPrice) * trade.shares -
        (calculateFees trade.buyPrice trade.market.volatilityLevel
          (decide ((trade.currentPrice - trade.entryPrice) * trade.shares > 0))).total := by
  have hg : exitGrossPnL (storePnL trade) =
      (trade.currentPrice - trade.entryPrice) * trade.shares := by
    simp only [exitGrossPnL, storePnL]
    exact jsOr_some_self _
  simp only [exitNetPnL, exitFees, hg]
  simp only [storePnL]
  exact jsOr_some_self _

theorem sessionState_eq :
    sessionState = { initialState with sessionActive := true } := by
  simp [sessionState, startSession, updateStats_eq, initialState]

theorem validateEntry_sample_valid :
    (validateEntry sampleMarket 75 5 (some "medium")).valid = true := by
  rw [validateEntry_valid_iff]
  have hep := validateEntry_expectedProfit sampleMarket 75 5 (some "medium")
  have hfee : (validateEntry sampleMarket 75 5 (some "medium")).feeCost = 195 / 1000 := by
    rw [validateEntry_feeCost]
    simp [calculateFees, GAME_CONFIG, slippageLookup, jsOr]; norm_num
  have hedge := validateEntry_edgeAfterFees sampleMarket 75 5 (some "medium")
  rw [hfee, hep] at hedge
  rw [hedge, hep]
  simp [GAME_CONFIG]; norm_num

/-- `enterTrade` reaches its end exactly when all five guards pass. -/
theorem enterTrade_opened_iff (s : GameState) (m : Market) (stake : ℚ) :
    (enterTrade s m stake).1 = EnterOutcome.opened ↔
      s.sessionActive = true ∧ s.tradingEnabled = true ∧ s.activeTrade = none ∧
      ¬ s.bankroll < stake ∧
      (validateEntry m (jsOr m.aiProbability 75) stake
        (some (jsOrStr m.volatilityLevel "medium"))).valid = true := by
  unfold enterTrade
  cases h1 : s.sessionActive <;> cases h2 : s.tradingEnabled <;>
    cases h3 : s.activeTrade <;>
    cases h5 : (validateEntry m (jsOr m.aiProbability 75) stake
        (some (jsOrStr m.volatilityLevel "medium"))).valid <;>
    by_cases h4 : s.bankroll < stake <;> simp [h4, h5]

/-- Every `return` of `enterTrade` before its end leaves the state untouched. -/
theorem enterTrade_rejected_state (s : GameState) (m : Market) (stake : ℚ)
    (h : (enterTrade s m stake).1 ≠ EnterOutcome.opened) :
    (enterTrade s m stake).2 = s := by
  revert h
  unfold enterTrade
  cases h1 : s.sessionActive <;> cases h2 : s.tradingEnabled <;>
    cases h3 : s.activeTrade <;>
    cases h5 : (validateEntry m (jsOr m.aiProbability 75) stake
        (some (jsOrStr m.volatilityLevel "medium"))).valid <;>
    by_cases h4 : s.bankroll < stake <;> simp [h4, h5]

/-- The state after a successful `enterTrade` from a state whose countdown handle is
not set. -/
theorem enterTrade_opened_state (s : GameState) (m : Market) (stake : ℚ)
    (h : (enterTrade s m stake).1 = EnterOutcome.opened) (ht : s.tradeTimer = false) :
    (enterTrade s m stake).2 =
      { s with bankroll := s.bankroll - stake
               activeTrade := some (storePnL (openedTrade s m stake)) } := by
  obtain ⟨h1, h2, h3, h4, h5⟩ := (enterTrade_opened_iff s m stake).mp h
  have j1 : jsOr (some GAME_CONFIG.smartTrading.takeProfitLevels.standard) (30 / 100) = 15 / 100 := by
    simp [jsOr, GAME_CONFIG]
  have j2 : jsOr (some GAME_CONFIG.smartTrading.stopLoss) (25 / 100) = 12 / 100 := by
    simp [jsOr, GAME_CONFIG]
  unfold enterTrade
  simp only [h1, h2, h3, h4, h5, j1, j2, updateStats_eq, showActiveTrade]
  simp [updateTradePnL, ht, storePnL, openedTrade]

theorem storePnL_openedTrade_sample :
    storePnL (openedTrade sessionState sampleMarket 5) = sampleTrade := by
  have hs : sessionState.timerDuration = 20 := by rw [sessionState_eq]; rfl
  have hp : sessionState.priceSource = PriceSource.real := by rw [sessionState_eq]; rfl
  have hfl : Int.floor ((5 : ℚ) / (1 / 2) * (75 / 75) * (3 / 2)) = 15 := by
    rw [Int.floor_eq_iff]; norm_num
  have hfl2 : Int.floor ((5 : ℚ) * 2 * (3 / 2)) = 15 := by
    rw [Int.floor_eq_iff]; norm_num
  have hfee : (calculateFees 5 (some "medium") false).total = 19 / 200 := by
    simp [calculateFees, GAME_CONFIG, slippageLookup, jsOr]; norm_num
  simp [storePnL, openedTrade, sampleTrade, sampleMarket, hs, hp, jsOr, jsOrStr, hfl2, hfee]
  norm_num

theorem enterTrade_sample_opened :
    (enterTrade sessionState sampleMarket 5).1 = EnterOutcome.opened := by
  rw [enterTrade_opened_iff]
  refine ⟨by rw [sessionState_eq], by rw [sessionState_eq]; rfl, by rw [sessionState_eq]; rfl,
    ?_, ?_⟩
  · rw [sessionState_eq]; simp [initialState, GAME_CONFIG]; norm_num
  · have : jsOr sampleMarket.aiProbability 75 = 75 := by simp [jsOr, sampleMarket]
    have h2 : jsOrStr sampleMarket.volatilityLevel "medium" = "medium" := by
      simp [jsOrStr, sampleMarket]
    rw [this, h2]
    exact validateEntry_sample_valid

theorem pendingState_eq :
    pendingState =
      { sessionState with bankroll := 995, activeTrade := some sampleTrade } := by
  have ht : sessionState.tradeTimer = false := by rw [sessionState_eq]; rfl
  have hb : sessionState.bankroll - 5 = 995 := by
    rw [sessionState_eq]; simp [initialState, GAME_CONFIG]; norm_num
  rw [pendingState, enterTrade_opened_state _ _ _ enterTrade_sample_opened ht,
    storePnL_openedTrade_sample, hb]

theorem startedState_eq :
    startedState =
      { sessionState with bankroll := 995, activeTrade := some sampleTrade,
                          tradeTimer := true, priceUpdateTimer := true } := by
  rw [startedState, pendingState_eq]
  rfl

/-! ## Opening while a trade is open -/

/-- C2: in every state in which a trade is already open (Pending or Started), a call
of `enterTrade` with any market and stake does not open a trade and returns the state
it was given, so the existing trade, the bankroll, the cumulative P&L and the streak
counters are exactly as they were; when the session is active and trading enabled the
guard that fires is the already-active one. -/
theorem enterTrade_while_trade_open (s : GameState) (m : Market) (stake : ℚ)
    (hopen : s.activeTrade.isSome = true) :
    (enterTrade s m stake).1 ≠ EnterOutcome.opened ∧
    (enterTrade s m stake).2 = s ∧
    (enterTrade s m stake).2.activeTrade = s.activeTrade ∧
    (enterTrade s m stake).2.bankroll = s.bankroll ∧
    (enterTrade s m stake).2.totalPnL = s.totalPnL ∧
    (enterTrade s m stake).2.consecutiveWins = s.consecutiveWins ∧
    (enterTrade s m stake).2.consecutiveLosses = s.consecutiveLosses ∧
    (s.sessionActive = true → s.tradingEnabled = true →
      (enterTrade s m stake).1 = EnterOutcome.alreadyActive) := by
  have hne : (enterTrade s m stake).1 ≠ EnterOutcome.opened := by
    intro h
    have h3 := ((enterTrade_opened_iff s m stake).mp h).2.2.1
    rw [h3] at hopen
    exact absurd hopen (by simp)
  have hst := enterTrade_rejected_state s m stake hne
  refine ⟨hne, hst, by rw [hst], by rw [hst], by rw [hst], by rw [hst], by rw [hst], ?_⟩
  intro h1 h2
  simp [enterTrade, h1, h2, hopen]

/-- Instance of `enterTrade_while_trade_open`: a second open on the Pending sample
trade, and the state it leaves. -/
theorem enterTrade_while_trade_open_witness :
    pendingState.activeTrade.isSome = true ∧
    (enterTrade pendingState sampleMarket 5).1 = EnterOutcome.alreadyActive ∧
    (enterTrade pendingState sampleMarket 5).2 = pendingState := by
  have hopen : pendingState.activeTrade.isSome = true := by rw [pendingState_eq]; rfl
  have h := enterTrade_while_trade_open pendingState sampleMarket 5 hopen
  refine ⟨hopen, h.2.2.2.2.2.2.2 ?_ ?_, h.2.1⟩
  · rw [pendingState_eq, sessionState_eq]
  · rw [pendingState_eq, sessionState_eq]; rfl

/-! ## Closing a trade -/

/-- C5: every close of a started trade, by `exitTrade` (manual) or by `autoExitTrade`
(any reason), with net P&L `n` (the value recorded for the trade) credits the bankroll
with `stake + n`, adds `n` to the cumulative P&L, and updates the streak counters:
`n >= 0` (zero included) increments `consecutiveWins` and sets `consecutiveLosses` to
0, `n < 0` increments `consecutiveLosses` and sets `consecutiveWins` to 0. -/
theorem close_credits_bankroll_and_streaks (s : GameState) (trade : Trade)
    (reason : AutoExitReason) (s' : GameState)
    (hopen : s.activeTrade = some trade) (_hstarted : s.tradeTimer = true)
    (hclose : s' = exitTrade s ∨ s' = autoExitTrade s reason) :
    (∃ record : TradeData, s'.trades = s.trades ++ [record] ∧ record.pnl = exitNetPnL trade) ∧
    s'.activeTrade = none ∧
    s'.bankroll = s.bankroll + (trade.buyPrice + exitNetPnL trade) ∧
    s'.totalPnL = s.totalPnL + exitNetPnL trade ∧
    (exitNetPnL trade ≥ 0 →
      s'.consecutiveWins = s.consecutiveWins + 1 ∧ s'.consecutiveLosses = 0) ∧
    (exitNetPnL trade < 0 →
      s'.consecutiveLosses = s.consecutiveLosses + 1 ∧ s'.consecutiveWins = 0) := by
  rcases hclose with h | h
  · rw [h, exitTrade_eq s trade hopen, settleTrade_eq]
    refine ⟨⟨_, rfl, rfl⟩, rfl, rfl, rfl, ?_, ?_⟩
    · intro hn; simp [hn]
    · intro hn; simp [not_le.mpr hn]
  · rw [h, autoExitTrade_eq s trade hopen, settleTrade_eq]
    refine ⟨⟨_, rfl, rfl⟩, rfl, rfl, rfl, ?_, ?_⟩
    · intro hn; simp [hn]
    · intro hn; simp [not_le.mpr hn]

/-- Instance of `close_credits_bankroll_and_streaks`: the manual exit of the started
sample trade (stake 5, stored net P&L -0.095) leaves bankroll 999.905, cumulative
P&L -0.095, no win streak and a loss streak of 1. -/
theorem close_credits_bankroll_and_streaks_witness :
    startedState.activeTrade = some sampleTrade ∧ startedState.tradeTimer = true ∧
    (exitTrade startedState).bankroll = 199981 / 200 ∧
    (exitTrade startedState).totalPnL = -(19 / 200) ∧
    (exitTrade startedState).consecutiveWins = 0 ∧
    (exitTrade startedState).consecutiveLosses = 1 := by
  have hopen : startedState.activeTrade = some sampleTrade := by rw [startedState_eq]
  have hst : startedState.tradeTimer = true := by rw [startedState_eq]
  have hn : exitNetPnL sampleTrade = -(19 / 200) := by
    simp [exitNetPnL, sampleTrade, jsOr]
  have hneg : exitNetPnL sampleTrade < 0 := by rw [hn]; norm_num
  obtain ⟨_, _, hb, hp, _, hl⟩ :=
    close_credits_bankroll_and_streaks startedState sampleTrade AutoExitReason.takeProfit
      (exitTrade startedState) hopen hst (Or.inl rfl)
  have hl2 := hl hneg
  refine ⟨hopen, hst, ?_, ?_, hl2.2, ?_⟩
  · rw [hb, hn, startedState_eq]; simp [sampleTrade]; norm_num
  · rw [hp, hn, startedState_eq, sessionState_eq]; simp [initialState]
  · rw [hl2.1, startedState_eq, sessionState_eq]; rfl

/-! ## Cancelling a trade -/

theorem cancelTrade_eq (s : GameState) (trade : Trade) (h : s.activeTrade = some trade) :
    cancelTrade s =
      { s with bankroll := s.bankroll + trade.buyPrice, activeTrade := none,
               tradeTimer := false, priceUpdateTimer := false } := by
  simp [cancelTrade, h, updateStats_eq, closeActiveTrade, stopTradeTimers]

/-- C6: in every state with a Pending trade of stake `s`, `cancelTrade` increases the
bankroll by exactly `s`, clears the active trade, and leaves `consecutiveWins`,
`consecutiveLosses`, the cumulative P&L, the fees-paid total and the recorded trades
unchanged; and an `enterTrade` that opened a trade followed by `cancelTrade` restores
the bankroll it had before the open (in a state whose countdown handle was not set, as
in every reachable state without a trade). -/
theorem cancelTrade_refunds_stake :
    (∀ (s : GameState) (trade : Trade), s.activeTrade = some trade → IsPending s →
      (cancelTrade s).bankroll = s.bankroll + trade.buyPrice ∧
      (cancelTrade s).activeTrade = none ∧
      (cancelTrade s).consecutiveWins = s.consecutiveWins ∧
      (cancelTrade s).consecutiveLosses = s.consecutiveLosses ∧
      (cancelTrade s).totalPnL = s.totalPnL ∧
      (cancelTrade s).totalFeesPaid = s.totalFeesPaid ∧
      (cancelTrade s).trades = s.trades) ∧
    (∀ (s0 : GameState) (m : Market) (stake : ℚ), s0.tradeTimer = false →
      (enterTrade s0 m stake).1 = EnterOutcome.opened →
      IsPending (enterTrade s0 m stake).2 ∧
      (enterTrade s0 m stake).2.bankroll = s0.bankroll - stake ∧
      (cancelTrade (enterTrade s0 m stake).2).bankroll = s0.bankroll) := by
  constructor
  · intro s trade h _
    rw [cancelTrade_eq s trade h]
    exact ⟨rfl, rfl, rfl, rfl, rfl, rfl, rfl⟩
  · intro s0 m stake ht hop
    have hst := enterTrade_opened_state s0 m stake hop ht
    have hact : (enterTrade s0 m stake).2.activeTrade =
        some (storePnL (openedTrade s0 m stake)) := by rw [hst]
    refine ⟨⟨by rw [hact]; rfl, by rw [hst]; exact ht⟩, by rw [hst], ?_⟩
    rw [cancelTrade_eq _ _ hact, hst]
    simp [storePnL, openedTrade]

/-- Instance of `cancelTrade_refunds_stake`: cancelling the Pending sample trade
(stake 5, bankroll 995) gives bankroll 1000, the bankroll before the open. -/
theorem cancelTrade_refunds_stake_witness :
    pendingState.activeTrade = some sampleTrade ∧ IsPending pendingState ∧
    sessionState.tradeTimer = false ∧
    (enterTrade sessionState sampleMarket 5).1 = EnterOutcome.opened ∧
    (cancelTrade pendingState).bankroll = 1000 ∧
    (cancelTrade pendingState).activeTrade = none ∧
    (cancelTrade (enterTrade sessionState sampleMarket 5).2).bankroll =
      sessionState.bankroll := by
  have hact : pendingState.activeTrade = some sampleTrade := by rw [pendingState_eq]
  have hpen : IsPending pendingState := by
    constructor
    · rw [hact]; rfl
    · rw [pendingState_eq, sessionState_eq]; rfl
  have ht : sessionState.tradeTimer = false := by rw [sessionState_eq]; rfl
  have h1 := cancelTrade_refunds_stake.1 pendingState sampleTrade hact hpen
  have h2 := cancelTrade_refunds_stake.2 sessionState sampleMarket 5 ht enterTrade_sample_opened
  refine ⟨hact, hpen, ht, enterTrade_sample_opened, ?_, h1.2.1, h2.2.2⟩
  rw [h1.1, pendingState_eq]; simp [sampleTrade]; norm_num

/-! ## Rejected opens -/

/-- C10: in every state with no open trade, `enterTrade` does not open a trade when
the stake exceeds the bankroll (the insufficient-bankroll guard, when the session is
active and trading enabled), and does not open a trade when `validateEntry` on the
market, the confidence `aiProbability || 75`, the stake and the tier
`volatilityLevel || 'medium'` is not valid (the outcome carrying its reasons); every
call that does not open a trade returns the state it was given (bankroll, cumulative
P&L, streak counters and the absent active trade unchanged); and a bankroll that is
not negative is not negative after the call. -/
theorem enterTrade_rejections_leave_state (s : GameState) (m : Market) (stake : ℚ)
    (hnone : s.activeTrade = none) :
    (s.bankroll < stake →
      (enterTrade s m stake).1 ≠ EnterOutcome.opened ∧
      (s.sessionActive = true → s.tradingEnabled = true →
        (enterTrade s m stake).1 = EnterOutcome.insufficientBankroll)) ∧
    ((validateEntry m (jsOr m.aiProbability 75) stake
        (some (jsOrStr m.volatilityLevel "medium"))).valid = false →
      (enterTrade s m stake).1 ≠ EnterOutcome.opened ∧
      (s.sessionActive = true → s.tradingEnabled = true → ¬ s.bankroll < stake →
        (enterTrade s m stake).1 = EnterOutcome.rejectedByValidator
          (validateEntry m (jsOr m.aiProbability 75) stake
            (some (jsOrStr m.volatilityLevel "medium"))).reasons)) ∧
    ((enterTrade s m stake).1 ≠ EnterOutcome.opened →
      (enterTrade s m stake).2 = s ∧
      (enterTrade s m stake).2.bankroll = s.bankroll ∧
      (enterTrade s m stake).2.totalPnL = s.totalPnL ∧
      (enterTrade s m stake).2.consecutiveWins = s.consecutiveWins ∧
      (enterTrade s m stake).2.consecutiveLosses = s.consecutiveLosses ∧
      (enterTrade s m stake).2.activeTrade = none) ∧
    (s.tradeTimer = false → 0 ≤ s.bankroll → 0 ≤ (enterTrade s m stake).2.bankroll) := by
  refine ⟨?_, ?_, ?_, ?_⟩
  · intro hlt
    refine ⟨?_, ?_⟩
    · intro h
      exact ((enterTrade_opened_iff s m stake).mp h).2.2.2.1 hlt
    · intro h1 h2
      simp [enterTrade, h1, h2, hnone, hlt]
  · intro hv
    refine ⟨?_, ?_⟩
    · intro h
      have := ((enterTrade_opened_iff s m stake).mp h).2.2.2.2
      rw [hv] at this
      exact absurd this (by simp)
    · intro h1 h2 h4
      simp [enterTrade, h1, h2, hnone, h4, hv]
  · intro hne
    have hst := enterTrade_rejected_state s m stake hne
    refine ⟨hst, by rw [hst], by rw [hst], by rw [hst], by rw [hst], by rw [hst]; exact hnone⟩
  · intro ht hb
    by_cases hop : (enterTrade s m stake).1 = EnterOutcome.opened
    · rw [enterTrade_opened_state s m stake hop ht]
      have := ((enterTrade_opened_iff s m stake).mp hop).2.2.2.1
      show 0 ≤ s.bankroll - stake
      linarith [not_lt.mp this]
    · rw [enterTrade_rejected_state s m stake hop]
      exact hb

/-- Instance of `enterTrade_rejections_leave_state`: in the fresh session (bankroll
1000) a stake of 2000 is refused for insufficient bankroll, a stake of 5 at confidence
50 is refused by the validator, and both calls return the session state. -/
theorem enterTrade_rejections_leave_state_witness :
    sessionState.activeTrade = none ∧
    (enterTrade sessionState sampleMarket 2000).1 = EnterOutcome.insufficientBankroll ∧
    (enterTrade sessionState sampleMarket 2000).2 = sessionState ∧
    (enterTrade sessionState { sampleMarket with aiProbability := some 50 } 5).1 ≠
      EnterOutcome.opened ∧
    (enterTrade sessionState { sampleMarket with aiProbability := some 50 } 5).2 =
      sessionState := by
  have hnone : sessionState.activeTrade = none := by rw [sessionState_eq]; rfl
  have hsa : sessionState.sessionActive = true := by rw [sessionState_eq]
  have hte : sessionState.tradingEnabled = true := by rw [sessionState_eq]; rfl
  have hlt : sessionState.bankroll < 2000 := by
    rw [sessionState_eq]; simp [initialState, GAME_CONFIG]; norm_num
  have h := enterTrade_rejections_leave_state sessionState sampleMarket 2000 hnone
  have h1 := h.1 hlt
  have g := enterTrade_rejections_leave_state sessionState
    { sampleMarket with aiProbability := some 50 } 5 hnone
  have hinv : (validateEntry { sampleMarket with aiProbability := some 50 }
      (jsOr (some 50) 75) 5 (some (jsOrStr sampleMarket.volatilityLevel "medium"))).valid =
      false := by
    cases hv : (validateEntry { sampleMarket with aiProbability := some 50 }
      (jsOr (some 50) 75) 5 (some (jsOrStr sampleMarket.volatilityLevel "medium"))).valid
    · rfl
    · rw [validateEntry_valid_iff] at hv
      have : jsOr (some 50) 75 = 50 := by simp [jsOr]
      rw [this] at hv
      exact absurd (by norm_num : (50 : ℚ) < 75) hv.2.2
  have g2 := (g.2.1 hinv).1
  exact ⟨hnone, h1.2 hsa hte, (h.2.2.1 h1.1).1, g2, (g.2.2.1 g2).1⟩

/-! ## Interval handles and the open trade -/

theorem autoExitTrade_of_no_trade (s : GameState) (reason : AutoExitReason)
    (h : s.activeTrade = none) : autoExitTrade s reason = s := by
  simp [autoExitTrade, h]

theorem autoExitTrade_closes (s : GameState) (trade : Trade) (reason : AutoExitReason)
    (h : s.activeTrade = some trade) :
    (autoExitTrade s reason).activeTrade = none ∧
    (autoExitTrade s reason).tradeTimer = false ∧
    (autoExitTrade s reason).priceUpdateTimer = false := by
  rw [autoExitTrade_eq s trade h, settleTrade_eq]
  exact ⟨rfl, rfl, rfl⟩

/-- The effect of `updateTradePnL` on a state with an open trade: the P&L fields are
stored and, when the countdown handle is set, the first exit check that holds closes
the trade. -/
theorem updateTradePnL_eq (s : GameState) (trade : Trade) (h : s.activeTrade = some trade) :
    updateTradePnL s =
      if s.tradeTimer = true then
        if exitNetPnL (storePnL trade) ≥ trade.takeProfitTarget then
          autoExitTrade { s with activeTrade := some (storePnL trade) } AutoExitReason.takeProfit
        else if exitNetPnL (storePnL trade) ≤ trade.stopLossTarget then
          autoExitTrade { s with activeTrade := some (storePnL trade) } AutoExitReason.stopLoss
        else if exitNetPnL (storePnL trade) ≤ -trade.buyPrice then
          autoExitTrade { s with activeTrade := some (storePnL trade) } AutoExitReason.maxLoss
        else { s with activeTrade := some (storePnL trade) }
      else { s with activeTrade := some (storePnL trade) } := by
  rw [exitNetPnL_storePnL]
  simp only [updateTradePnL, h]
  cases ht : s.tradeTimer
  · simp [storePnL]
  · simp [storePnL, GAME_CONFIG]

/-- After `updateTradePnL` either no trade is open or the open trade is the stored
form of the trade that was open before. -/
theorem updateTradePnL_cases (s : GameState) (trade : Trade) (h : s.activeTrade = some trade) :
    ((updateTradePnL s).activeTrade = none ∧ (updateTradePnL s).tradeTimer = false ∧
      (updateTradePnL s).priceUpdateTimer = false) ∨
    updateTradePnL s = { s with activeTrade := some (storePnL trade) } := by
  rw [updateTradePnL_eq s trade h]
  have hc := fun r => autoExitTrade_closes { s with activeTrade := some (storePnL trade) }
    (storePnL trade) r rfl
  split_ifs
  · exact Or.inl (hc _)
  · exact Or.inl (hc _)
  · exact Or.inl (hc _)
  · exact Or.inr rfl
  · exact Or.inr rfl

theorem countdownTick_eq (s : GameState) (trade : Trade) (h : s.activeTrade = some trade)
    (ht : s.tradeTimer = true) :
    countdownTick s =
      if trade.timeRemaining - 1 ≤ 0 then
        autoExitTrade
          { s with activeTrade := some { trade with timeRemaining := trade.timeRemaining - 1 } }
          AutoExitReason.timerExpired
      else
        { s with activeTrade := some { trade with timeRemaining := trade.timeRemaining - 1 } } := by
  simp [countdownTick, h, ht]

theorem countdownTick_cases (s : GameState) :
    countdownTick s = s ∨
    ((countdownTick s).activeTrade = none ∧ (countdownTick s).tradeTimer = false ∧
      (countdownTick s).priceUpdateTimer = false) ∨
    ∃ trade, s.activeTrade = some trade ∧
      countdownTick s =
        { s with activeTrade := some { trade with timeRemaining := trade.timeRemaining - 1 } } := by
  by_cases ht : s.tradeTimer = true
  · by_cases ha : s.activeTrade = none
    · left; simp [countdownTick, ha]
    · obtain ⟨trade, ha⟩ := Option.ne_none_iff_exists'.mp ha
      rw [countdownTick_eq s trade ha ht]
      split_ifs
      · right; left
        exact autoExitTrade_closes _ _ _ rfl
      · right; right
        exact ⟨trade, ha, rfl⟩
  · left; simp [countdownTick, ht]

theorem priceTick_eq (s : GameState) (trade : Trade) (p : ℚ) (h : s.activeTrade = some trade)
    (ht : s.priceUpdateTimer = true) (hp : p ≠ 0) :
    priceTick s (some p) =
      updateTradePnL { s with activeTrade := some { trade with currentPrice := p } } := by
  simp [priceTick, h, ht, hp]

theorem priceTick_cases (s : GameState) (newPrice : Option ℚ) :
    priceTick s newPrice = s ∨
    ((priceTick s newPrice).activeTrade = none ∧ (priceTick s newPrice).tradeTimer = false ∧
      (priceTick s newPrice).priceUpdateTimer = false) ∨
    ∃ trade p, s.activeTrade = some trade ∧ newPrice = some p ∧ p ≠ 0 ∧
      priceTick s newPrice =
        { s with activeTrade := some (storePnL { trade with currentPrice := p }) } := by
  by_cases ht : s.priceUpdateTimer = true
  · by_cases ha : s.activeTrade = none
    · left; simp [priceTick, ha]
    · obtain ⟨trade, ha⟩ := Option.ne_none_iff_exists'.mp ha
      cases newPrice with
      | none => left; simp [priceTick, ha]
      | some p =>
        by_cases hp : p = 0
        · left; simp [priceTick, ha, hp]
        · rw [priceTick_eq s trade p ha ht hp]
          rcases updateTradePnL_cases
            { s with activeTrade := some { trade with currentPrice := p } }
            { trade with currentPrice := p } rfl with hc | hc
          · right; left; exact hc
          · right; right
            exact ⟨trade, p, ha, rfl, hp, hc⟩
  · left; simp [priceTick, ht]

theorem step_timersIdle (s : GameState) (a : Action) (h : TimersIdle s) :
    TimersIdle (step s a) := by
  cases a with
  | startSession =>
    simp only [step, startSession, updateStats_eq]
    exact h
  | enterTrade market buyPrice =>
    simp only [step]
    by_cases hop : (enterTrade s market buyPrice).1 = EnterOutcome.opened
    · have hnone := ((enterTrade_opened_iff s market buyPrice).mp hop).2.2.1
      rw [enterTrade_opened_state s market buyPrice hop (h hnone).1]
      intro hc
      exact absurd hc (by simp)
    · rw [enterTrade_rejected_state s market buyPrice hop]
      exact h
  | startTrade =>
    simp only [step, startTrade]
    cases ha : s.activeTrade with
    | none => simpa using h
    | some t =>
      intro hc
      simp [ha] at hc
  | priceTick newPrice =>
    simp only [step]
    rcases priceTick_cases s newPrice with hc | hc | ⟨t, p, _, _, _, hc⟩
    · rw [hc]; exact h
    · intro _; exact hc.2
    · rw [hc]; intro hn; exact absurd hn (by simp)
  | countdownTick =>
    simp only [step]
    rcases countdownTick_cases s with hc | hc | ⟨t, _, hc⟩
    · rw [hc]; exact h
    · intro _; exact hc.2
    · rw [hc]; intro hn; exact absurd hn (by simp)
  | exitTrade =>
    simp only [step, exitTrade]
    cases ha : s.activeTrade with
    | none => simpa using h
    | some t =>
      simp only []
      rw [settleTrade_eq]
      intro _; exact ⟨rfl, rfl⟩
  | cancelTrade =>
    simp only [step]
    cases ha : s.activeTrade with
    | none =>
      have : cancelTrade s = s := by simp [cancelTrade, ha]
      rw [this]; exact h
    | some t =>
      rw [cancelTrade_eq s t ha]
      intro _; exact ⟨rfl, rfl⟩

theorem run_timersIdle (actions : List Action) (s : GameState) (h : TimersIdle s) :
    TimersIdle (run s actions) := by
  induction actions generalizing s with
  | nil => exact h
  | cons a rest ih => exact ih (step s a) (step_timersIdle s a h)

/-- In every reachable state without an open trade no interval handle is set. -/
theorem reachable_timersIdle (s : GameState) (h : Reachable s) : TimersIdle s := by
  obtain ⟨actions, rfl⟩ := h
  exact run_timersIdle actions initialState (fun _ => ⟨rfl, rfl⟩)

/-! ## Price ticks -/

theorem exitGrossPnL_storePnL (trade : Trade) :
    exitGrossPnL (storePnL trade) = (trade.currentPrice - trade.entryPrice) * trade.shares := by
  simp only [exitGrossPnL, storePnL]
  exact jsOr_some_self _

theorem exitFees_storePnL (trade : Trade) :
    exitFees (storePnL trade) =
      calculateFees trade.buyPrice trade.market.volatilityLevel
        (decide ((trade.currentPrice - trade.entryPrice) * trade.shares > 0)) := by
  simp [exitFees, storePnL]

/-- An automatic close of a trade whose P&L fields have just been stored. -/
theorem autoExitTrade_stored_closedWith (s : GameState) (trade : Trade)
    (reason : AutoExitReason) :
    ClosedWith s (autoExitTrade { s with activeTrade := some (storePnL trade) } reason) trade
      trade.currentPrice
      ((trade.currentPrice - trade.entryPrice) * trade.shares)
      (calculateFees trade.buyPrice trade.market.volatilityLevel
        (decide ((trade.currentPrice - trade.entryPrice) * trade.shares > 0)))
      ((trade.currentPrice - trade.entryPrice) * trade.shares -
        (calculateFees trade.buyPrice trade.market.volatilityLevel
          (decide ((trade.currentPrice - trade.entryPrice) * trade.shares > 0))).total)
      reason := by
  rw [autoExitTrade_eq _ (storePnL trade) rfl, settleTrade_eq]
  refine ⟨rfl, rfl, ?_⟩
  simp only [exitGrossPnL_storePnL, exitFees_storePnL, exitNetPnL_storePnL]
  rfl

/-- An automatic close right after a price tick has stored the P&L at price `p`. -/
theorem autoExitTrade_after_tick_closedWith (s : GameState) (trade : Trade) (p : ℚ)
    (reason : AutoExitReason) :
    ClosedWith s
      (autoExitTrade
        { s with activeTrade := some (storePnL { trade with currentPrice := p }) } reason)
      trade p
      ((p - trade.entryPrice) * trade.shares)
      (calculateFees trade.buyPrice trade.market.volatilityLevel
        (decide ((p - trade.entryPrice) * trade.shares > 0)))
      ((p - trade.entryPrice) * trade.shares -
        (calculateFees trade.buyPrice trade.market.volatilityLevel
          (decide ((p - trade.entryPrice) * trade.shares > 0))).total)
      reason := by
  have h := autoExitTrade_stored_closedWith s { trade with currentPrice := p } reason
  unfold ClosedWith at h ⊢
  exact h

/-- C1: for every trade in the Started state (both intervals running) and every price
tick with a new price `p` (a price the tick accepts: not `0`), the engine sets
`currentPrice = p`, `grossPnl = (p - entryPrice) * shares`,
`fees = calculateFees(stake, tier, grossPnl > 0)`, `netPnl = grossPnl - fees.total`,
and then closes the trade with take-profit if `netPnl >= takeProfitTarget`; otherwise
with stop-loss if `netPnl <= stopLossTarget`; otherwise with max-loss if
`netPnl <= -stake`; otherwise the trade remains Started with the updated fields and
nothing else changes.  The four cases are exclusive and exhaustive, so each close
happens iff its condition is the first to hold, and one outcome record at most is
emitted. -/
theorem priceTick_recomputes_and_triggers (s : GameState) (trade : Trade) (p : ℚ)
    (hopen : s.activeTrade = some trade) (hstarted : s.tradeTimer = true)
    (hticking : s.priceUpdateTimer = true) (hp : p ≠ 0) :
    ∃ (grossPnl netPnl : ℚ) (fees : FeeResult) (updated : Trade),
      grossPnl = (p - trade.entryPrice) * trade.shares ∧
      fees = calculateFees trade.buyPrice trade.market.volatilityLevel (decide (grossPnl > 0)) ∧
      netPnl = grossPnl - fees.total ∧
      updated = { trade with currentPrice := p, grossPnl := some grossPnl, fees := some fees,
                             netPnl := some netPnl } ∧
      (netPnl ≥ trade.takeProfitTarget →
        ClosedWith s (priceTick s (some p)) trade p grossPnl fees netPnl
          AutoExitReason.takeProfit) ∧
      (netPnl < trade.takeProfitTarget → netPnl ≤ trade.stopLossTarget →
        ClosedWith s (priceTick s (some p)) trade p grossPnl fees netPnl
          AutoExitReason.stopLoss) ∧
      (netPnl < trade.takeProfitTarget → trade.stopLossTarget < netPnl →
        netPnl ≤ -trade.buyPrice →
        ClosedWith s (priceTick s (some p)) trade p grossPnl fees netPnl
          AutoExitReason.maxLoss) ∧
      (netPnl < trade.takeProfitTarget → trade.stopLossTarget < netPnl →
        -trade.buyPrice < netPnl →
        priceTick s (some p) = { s with activeTrade := some updated } ∧
        IsStarted (priceTick s (some p))) := by
  refine ⟨_, _, _, _, rfl, rfl, rfl, rfl, ?_⟩
  have hc := fun r => autoExitTrade_after_tick_closedWith s trade p r
  have hn := exitNetPnL_storePnL { trade with currentPrice := p }
  simp only [] at hn
  rw [priceTick_eq s trade p hopen hticking hp, updateTradePnL_eq _ _ rfl]
  simp only []
  rw [if_pos hstarted, hn]
  refine ⟨?_, ?_, ?_, ?_⟩
  · intro h1
    rw [if_pos h1]
    exact hc _
  · intro h1 h2
    rw [if_neg (not_le.mpr h1), if_pos h2]
    exact hc _
  · intro h1 h2 h3
    rw [if_neg (not_le.mpr h1), if_neg (not_le.mpr h2), if_pos h3]
    exact hc _
  · intro h1 h2 h3
    rw [if_neg (not_le.mpr h1), if_neg (not_le.mpr h2), if_neg (not_le.mpr h3)]
    exact ⟨rfl, rfl, hstarted⟩

/-- Instance of `priceTick_recomputes_and_triggers` at the example of the
specification: stake 5, entry 0.50, new price 0.60, 10 shares, tier medium give gross
P&L 1.00 and net P&L `1.00 - calculateFees(5, medium, true).total = 0.805`, which is
at least the take-profit target 0.75, so the tick closes the trade with take-profit. -/
theorem priceTick_recomputes_and_triggers_witness :
    specExampleState.activeTrade = some { sampleTrade with shares := 10 } ∧
    specExampleState.tradeTimer = true ∧ specExampleState.priceUpdateTimer = true ∧
    (3 / 5 : ℚ) ≠ 0 ∧
    (1 : ℚ) - (calculateFees 5 (some "medium") true).total = 161 / 200 ∧
    ClosedWith specExampleState (priceTick specExampleState (some (3 / 5)))
      { sampleTrade with shares := 10 } (3 / 5) 1 (calculateFees 5 (some "medium") true)
      (1 - (calculateFees 5 (some "medium") true).total) AutoExitReason.takeProfit := by
  have hopen : specExampleState.activeTrade = some { sampleTrade with shares := 10 } := rfl
  have hst : specExampleState.tradeTimer = true := by
    simp [specExampleState, startedState_eq]
  have hti : specExampleState.priceUpdateTimer = true := by
    simp [specExampleState, startedState_eq]
  have hp : (3 / 5 : ℚ) ≠ 0 := by norm_num
  have hfee : (calculateFees 5 (some "medium") true).total = 195 / 1000 := by
    simp [calculateFees, GAME_CONFIG, slippageLookup, jsOr]; norm_num
  obtain ⟨g, n, f, u, hg, hf, hn, _, h1, _⟩ :=
    priceTick_recomputes_and_triggers specExampleState { sampleTrade with shares := 10 }
      (3 / 5) hopen hst hti hp
  have hg1 : g = 1 := by
    rw [hg]; simp [sampleTrade]; norm_num
  have hf1 : f = calculateFees 5 (some "medium") true := by
    rw [hf, hg1]; simp [sampleTrade, sampleMarket]
  have hn1 : n = 1 - (calculateFees 5 (some "medium") true).total := by
    rw [hn, hg1, hf1]
  have htp : n ≥ ({ sampleTrade with shares := 10 } : Trade).takeProfitTarget := by
    rw [hn1, hfee]; simp [sampleTrade]; norm_num
  have hclosed := h1 htp
  rw [hg1, hf1, hn1] at hclosed
  refine ⟨hopen, hst, hti, hp, ?_, hclosed⟩
  rw [hfee]; norm_num

/-! ## Manual exit after price ticks -/

theorem storePnL_idem (trade : Trade) : storePnL (storePnL trade) = storePnL trade := rfl

theorem updateTradePnL_pnLStored (s : GameState) : PnLStored (updateTradePnL s) := by
  intro t ht
  by_cases ha : s.activeTrade = none
  · have : updateTradePnL s = s := by simp [updateTradePnL, ha]
    rw [this, ha] at ht
    exact absurd ht (by simp)
  · obtain ⟨trade, ha⟩ := Option.ne_none_iff_exists'.mp ha
    rcases updateTradePnL_cases s trade ha with hc | hc
    · rw [hc.1] at ht
      exact absurd ht (by simp)
    · rw [hc] at ht
      have : storePnL trade = t := Option.some.inj ht
      rw [← this]
      exact storePnL_idem trade

/-- A successful `enterTrade` ends with `updateTradePnL` on the state holding the new
trade. -/
theorem enterTrade_opened_eq_update (s : GameState) (m : Market) (stake : ℚ)
    (h : (enterTrade s m stake).1 = EnterOutcome.opened) :
    (enterTrade s m stake).2 =
      updateTradePnL { s with bankroll := s.bankroll - stake
                              activeTrade := some (openedTrade s m stake) } := by
  obtain ⟨h1, h2, h3, h4, h5⟩ := (enterTrade_opened_iff s m stake).mp h
  have j1 : jsOr (some GAME_CONFIG.smartTrading.takeProfitLevels.standard) (30 / 100) = 15 / 100 := by
    simp [jsOr, GAME_CONFIG]
  have j2 : jsOr (some GAME_CONFIG.smartTrading.stopLoss) (25 / 100) = 12 / 100 := by
    simp [jsOr, GAME_CONFIG]
  unfold enterTrade
  simp only [h1, h2, h3, h4, h5, j1, j2, updateStats_eq, showActiveTrade]
  simp [openedTrade]

theorem priceTick_pnLStored (s : GameState) (newPrice : Option ℚ) (h : PnLStored s) :
    PnLStored (priceTick s newPrice) := by
  rcases priceTick_cases s newPrice with hc | hc | ⟨t, p, _, _, _, hc⟩
  · rw [hc]; exact h
  · intro t ht
    rw [hc.1] at ht
    exact absurd ht (by simp)
  · rw [hc]
    intro t' ht'
    have : storePnL { t with currentPrice := p } = t' := Option.some.inj ht'
    rw [← this]
    exact storePnL_idem _

theorem foldl_priceTick_pnLStored (prices : List (Option ℚ)) (s : GameState)
    (h : PnLStored s) : PnLStored (prices.foldl priceTick s) := by
  induction prices generalizing s with
  | nil => exact h
  | cons p rest ih => exact ih (priceTick s p) (priceTick_pnLStored s p h)

theorem startTrade_activeTrade (s : GameState) :
    (startTrade s).activeTrade = s.activeTrade := by
  unfold startTrade
  split <;> rfl

/-- C7: for every trade that is opened (`enterTrade` succeeds), started, driven
through any sequence of N >= 0 price ticks none of which triggers an automatic exit
(the trade is still open after them), and then closed manually, the net P&L recorded
for the closed trade, handed to the logger, credited to the bankroll and added to the
cumulative P&L is exactly the `netPnl` stored by the last P&L computation before the
close, also when that stored value or the stored gross P&L is 0. -/
theorem manual_exit_uses_stored_netPnl (s0 : GameState) (m : Market) (stake : ℚ)
    (prices : List (Option ℚ)) (trade : Trade)
    (hopened : (enterTrade s0 m stake).1 = EnterOutcome.opened)
    (hstill : (prices.foldl priceTick (startTrade (enterTrade s0 m stake).2)).activeTrade =
      some trade) :
    ∃ n : ℚ,
      trade.netPnl = some n ∧
      (∃ record : TradeData,
        (exitTrade (prices.foldl priceTick (startTrade (enterTrade s0 m stake).2))).trades =
          (prices.foldl priceTick (startTrade (enterTrade s0 m stake).2)).trades ++ [record] ∧
        record.pnl = n ∧ record.exitType = ExitType.manual) ∧
      (∃ outcome : TradeOutcome,
        (exitTrade (prices.foldl priceTick (startTrade (enterTrade s0 m stake).2))).logged =
          (prices.foldl priceTick (startTrade (enterTrade s0 m stake).2)).logged ++ [outcome] ∧
        outcome.netPnl = n ∧ outcome.exitReason = ExitReason.manual) ∧
      (exitTrade (prices.foldl priceTick (startTrade (enterTrade s0 m stake).2))).bankroll =
        (prices.foldl priceTick (startTrade (enterTrade s0 m stake).2)).bankroll +
          (trade.buyPrice + n) ∧
      (exitTrade (prices.foldl priceTick (startTrade (enterTrade s0 m stake).2))).totalPnL =
        (prices.foldl priceTick (startTrade (enterTrade s0 m stake).2)).totalPnL + n := by
  have h1 : PnLStored (enterTrade s0 m stake).2 := by
    rw [enterTrade_opened_eq_update s0 m stake hopened]
    exact updateTradePnL_pnLStored _
  have h2 : PnLStored (startTrade (enterTrade s0 m stake).2) := by
    intro t ht
    rw [startTrade_activeTrade] at ht
    exact h1 t ht
  have h3 := foldl_priceTick_pnLStored prices _ h2 trade hstill
  have hn := exitNetPnL_storePnL trade
  rw [h3] at hn
  refine ⟨exitNetPnL trade, ?_, ?_⟩
  · rw [hn, ← h3]; rfl
  · rw [exitTrade_eq _ trade hstill, settleTrade_eq]
    exact ⟨⟨_, rfl, rfl, rfl⟩, ⟨_, rfl, rfl, rfl⟩, rfl, rfl⟩

theorem breakEvenTrade_netPnl : breakEvenTrade.netPnl = some 0 := by
  have hfee : (calculateFees 5 (some "medium") true).total = 195 / 1000 := by
    simp [calculateFees, GAME_CONFIG, slippageLookup, jsOr]; norm_num
  have hg : ((513 / 1000 : ℚ) - 1 / 2) * ((15 : ℤ) : ℚ) = 195 / 1000 := by norm_num
  have hpos : ((195 / 1000 : ℚ) > 0) = True := by norm_num
  simp only [breakEvenTrade, storePnL, sampleTrade, sampleMarket, hg, hpos, decide_True, hfee]
  norm_num

theorem priceTick_startedState_breakEven :
    priceTick startedState (some (513 / 1000)) =
      { startedState with activeTrade := some breakEvenTrade } := by
  have hact : startedState.activeTrade = some sampleTrade := by rw [startedState_eq]
  have hti : startedState.priceUpdateTimer = true := by rw [startedState_eq]
  have hst : startedState.tradeTimer = true := by rw [startedState_eq]
  have hn : exitNetPnL breakEvenTrade = 0 := by
    have := breakEvenTrade_netPnl
    have h2 : storePnL breakEvenTrade = breakEvenTrade := storePnL_idem _
    have h3 := exitNetPnL_storePnL breakEvenTrade
    rw [h2] at h3
    have h4 : breakEvenTrade.netPnl = some ((breakEvenTrade.currentPrice - breakEvenTrade.entryPrice) *
        breakEvenTrade.shares - (calculateFees breakEvenTrade.buyPrice
          breakEvenTrade.market.volatilityLevel
          (decide ((breakEvenTrade.currentPrice - breakEvenTrade.entryPrice) *
            breakEvenTrade.shares > 0))).total) := by
      rw [← h2]; rfl
    rw [this] at h4
    rw [h3]
    exact (Option.some.inj h4).symm
  rw [priceTick_eq startedState sampleTrade _ hact hti (by norm_num), updateTradePnL_eq _ _ rfl]
  simp only []
  rw [if_pos hst]
  change (if exitNetPnL breakEvenTrade ≥ _ then _ else if exitNetPnL breakEvenTrade ≤ _ then _
    else if exitNetPnL breakEvenTrade ≤ _ then _ else _) = _
  rw [hn]
  have c1 : ¬ ((0 : ℚ) ≥ sampleTrade.takeProfitTarget) := by simp [sampleTrade]
  have c2 : ¬ ((0 : ℚ) ≤ sampleTrade.stopLossTarget) := by simp [sampleTrade]
  have c3 : ¬ ((0 : ℚ) ≤ -sampleTrade.buyPrice) := by simp [sampleTrade]
  rw [if_neg c1, if_neg c2, if_neg c3]
  rfl

/-- Instance of `manual_exit_uses_stored_netPnl` with a stored net P&L of exactly 0:
the sample trade is opened, started, ticked once at 0.513 (no exit fires) and closed
manually; the recorded P&L is the stored 0 and the bankroll is back at 1000. -/
theorem manual_exit_uses_stored_netPnl_witness :
    (enterTrade sessionState sampleMarket 5).1 = EnterOutcome.opened ∧
    ([some (513 / 1000)].foldl priceTick
      (startTrade (enterTrade sessionState sampleMarket 5).2)).activeTrade =
        some breakEvenTrade ∧
    breakEvenTrade.netPnl = some 0 ∧
    (∃ record : TradeData,
      (exitTrade ([some (513 / 1000)].foldl priceTick
        (startTrade (enterTrade sessionState sampleMarket 5).2))).trades = [record] ∧
      record.pnl = 0) ∧
    (exitTrade ([some (513 / 1000)].foldl priceTick
      (startTrade (enterTrade sessionState sampleMarket 5).2))).bankroll = 1000 ∧
    (exitTrade ([some (513 / 1000)].foldl priceTick
      (startTrade (enterTrade sessionState sampleMarket 5).2))).totalPnL = 0 := by
  have hrun : [some (513 / 1000)].foldl priceTick
      (startTrade (enterTrade sessionState sampleMarket 5).2) =
      { startedState with activeTrade := some breakEvenTrade } :=
    priceTick_startedState_breakEven
  have hstill : ([some (513 / 1000)].foldl priceTick
      (startTrade (enterTrade sessionState sampleMarket 5).2)).activeTrade =
        some breakEvenTrade := by rw [hrun]
  obtain ⟨n, hn, ⟨record, hrec, hpnl, _⟩, _, hb, ht⟩ :=
    manual_exit_uses_stored_netPnl sessionState sampleMarket 5 [some (513 / 1000)]
      breakEvenTrade enterTrade_sample_opened hstill
  have hn0 : n = 0 := by
    rw [breakEvenTrade_netPnl] at hn
    exact (Option.some.inj hn).symm
  subst hn0
  refine ⟨enterTrade_sample_opened, hstill, breakEvenTrade_netPnl, ⟨record, ?_, hpnl⟩, ?_, ?_⟩
  · rw [hrec, hrun, startedState_eq, sessionState_eq]; rfl
  · rw [hb, hrun, startedState_eq]
    simp [breakEvenTrade, storePnL, sampleTrade]; norm_num
  · rw [ht, hrun, startedState_eq, sessionState_eq]
    simp [initialState]

/-! ## Opening a trade -/

theorem step_targetsAre (tp sl : ℚ) (s : GameState) (a : Action)
    (ha : isStartOrTick a = true) (h : TargetsAre tp sl s) : TargetsAre tp sl (step s a) := by
  cases a with
  | startTrade =>
    intro t ht
    simp only [step] at ht
    rw [startTrade_activeTrade] at ht
    exact h t ht
  | priceTick newPrice =>
    simp only [step]
    rcases priceTick_cases s newPrice with hc | hc | ⟨t, p, hs, _, _, hc⟩
    · rw [hc]; exact h
    · intro t ht
      rw [hc.1] at ht
      exact absurd ht (by simp)
    · rw [hc]
      intro t' ht'
      have : storePnL { t with currentPrice := p } = t' := Option.some.inj ht'
      rw [← this]
      exact h t hs
  | countdownTick =>
    simp only [step]
    rcases countdownTick_cases s with hc | hc | ⟨t, hs, hc⟩
    · rw [hc]; exact h
    · intro t ht
      rw [hc.1] at ht
      exact absurd ht (by simp)
    · rw [hc]
      intro t' ht'
      have : ({ t with timeRemaining := t.timeRemaining - 1 } : Trade) = t' :=
        Option.some.inj ht'
      rw [← this]
      exact h t hs
  | startSession => simp [isStartOrTick] at ha
  | enterTrade market buyPrice => simp [isStartOrTick] at ha
  | exitTrade => simp [isStartOrTick] at ha
  | cancelTrade => simp [isStartOrTick] at ha

theorem run_targetsAre (tp sl : ℚ) (actions : List Action) (s : GameState)
    (ha : ∀ a ∈ actions, isStartOrTick a = true) (h : TargetsAre tp sl s) :
    TargetsAre tp sl (run s actions) := by
  induction actions generalizing s with
  | nil => exact h
  | cons a rest ih =>
    exact ih (step s a) (fun b hb => ha b (List.mem_cons_of_mem a hb))
      (step_targetsAre tp sl s a (ha a (List.mem_cons_self a rest)) h)

/-- The trade created by a successful `enterTrade(market, stake)` from a state whose
countdown handle is not set: `takeProfitTarget = stake * 0.15`,
`stopLossTarget = -(stake * 0.12)`, `entryPrice = currentPrice = market.yesPrice`; it is
Pending; the stake is subtracted from the bankroll; and the two targets are not
changed by `startTrade` or by any later price tick or countdown tick. -/
theorem enterTrade_sets_targets (s : GameState) (m : Market) (stake : ℚ)
    (hopened : (enterTrade s m stake).1 = EnterOutcome.opened)
    (hidle : s.tradeTimer = false) :
    ∃ trade : Trade,
      (enterTrade s m stake).2.activeTrade = some trade ∧
      trade.takeProfitTarget = stake * (15 / 100) ∧
      trade.stopLossTarget = -(stake * (12 / 100)) ∧
      trade.entryPrice = m.yesPrice ∧
      trade.currentPrice = m.yesPrice ∧
      IsPending (enterTrade s m stake).2 ∧
      (enterTrade s m stake).2.bankroll = s.bankroll - stake ∧
      (∀ (actions : List Action) (later : Trade),
        (∀ a ∈ actions, isStartOrTick a = true) →
        (run (enterTrade s m stake).2 actions).activeTrade = some later →
        later.takeProfitTarget = stake * (15 / 100) ∧
        later.stopLossTarget = -(stake * (12 / 100))) := by
  have hst := enterTrade_opened_state s m stake hopened hidle
  have hact : (enterTrade s m stake).2.activeTrade =
      some (storePnL (openedTrade s m stake)) := by rw [hst]
  refine ⟨storePnL (openedTrade s m stake), hact, rfl, rfl, rfl, rfl, ?_, ?_, ?_⟩
  · exact ⟨by rw [hact]; rfl, by rw [hst]; exact hidle⟩
  · rw [hst]
  · intro actions later hacts hlater
    have h0 : TargetsAre (stake * (15 / 100)) (-(stake * (12 / 100)))
        (enterTrade s m stake).2 := by
      intro t ht
      rw [hact] at ht
      have : storePnL (openedTrade s m stake) = t := Option.some.inj ht
      rw [← this]
      exact ⟨rfl, rfl⟩
    exact run_targetsAre _ _ actions _ hacts h0 later hlater

theorem validateEntry_market_irrelevant (m1 m2 : Market) (c s : ℚ) (t : Option String) :
    validateEntry m1 c s t = validateEntry m2 c s t := rfl

/-- C9 (the code at the failing input): `enterTrade` on a market with AI probability
0, price 0.50 and the medium tier, with stake 5 in the fresh session.  A confidence of
0 is below the threshold 75 and the validator rejects it when it is given that
confidence; but `market.aiProbability || 75` hands the validator 75 and
`market.aiProbability ? market.aiProbability / 75 : 1` makes the multiplier 1, so the
open succeeds and the trade has 15 shares, `floor((5 / 0.5) * 1 * 1.5)`, with recorded
confidence 75, whereas the formula of the claim with `c = market.aiProbability = 0`
gives `floor((5 / 0.5) * (0 / 75) * 1.5) = 0`. -/
theorem enterTrade_zero_confidence_opens :
    zeroConfidenceMarket.aiProbability = some 0 ∧
    (0 : ℚ) < GAME_CONFIG.aiWinThreshold ∧
    (validateEntry zeroConfidenceMarket 0 5 (some "medium")).valid = false ∧
    (enterTrade sessionState zeroConfidenceMarket 5).1 = EnterOutcome.opened ∧
    Int.floor ((5 : ℚ) / zeroConfidenceMarket.yesPrice * (0 / 75) * (3 / 2)) = 0 ∧
    ∃ trade : Trade,
      (enterTrade sessionState zeroConfidenceMarket 5).2.activeTrade = some trade ∧
      trade.shares = 15 ∧
      trade.aiConfidence = 75 ∧
      trade.shares ≠ Int.floor ((5 : ℚ) / zeroConfidenceMarket.yesPrice * (0 / 75) * (3 / 2)) := by
  have hop : (enterTrade sessionState zeroConfidenceMarket 5).1 = EnterOutcome.opened := by
    rw [enterTrade_opened_iff]
    refine ⟨by rw [sessionState_eq], by rw [sessionState_eq]; rfl,
      by rw [sessionState_eq]; rfl, ?_, ?_⟩
    · rw [sessionState_eq]; simp [initialState, GAME_CONFIG]; norm_num
    · have h1 : jsOr zeroConfidenceMarket.aiProbability 75 = 75 := by
        simp [jsOr, zeroConfidenceMarket]
      have h2 : jsOrStr zeroConfidenceMarket.volatilityLevel "medium" = "medium" := by
        simp [jsOrStr, zeroConfidenceMarket, sampleMarket]
      rw [h1, h2, validateEntry_market_irrelevant zeroConfidenceMarket sampleMarket]
      exact validateEntry_sample_valid
  have hidle : sessionState.tradeTimer = false := by rw [sessionState_eq]; rfl
  have hst := enterTrade_opened_state sessionState zeroConfidenceMarket 5 hop hidle
  have hfl0 : Int.floor ((5 : ℚ) / zeroConfidenceMarket.yesPrice * (0 / 75) * (3 / 2)) = 0 := by
    simp
  have hsh : (storePnL (openedTrade sessionState zeroConfidenceMarket 5)).shares = 15 := by
    have hfl : Int.floor ((5 : ℚ) / (1 / 2) * 1 * (3 / 2)) = 15 := by
      rw [Int.floor_eq_iff]; norm_num
    simpa [storePnL, openedTrade, zeroConfidenceMarket, sampleMarket] using hfl
  have hconf : (storePnL (openedTrade sessionState zeroConfidenceMarket 5)).aiConfidence = 75 := by
    simp [storePnL, openedTrade, zeroConfidenceMarket, jsOr]
  have hinvalid : (validateEntry zeroConfidenceMarket 0 5 (some "medium")).valid = false := by
    have h := validateEntry_valid_iff zeroConfidenceMarket 0 5 (some "medium")
    cases hv : (validateEntry zeroConfidenceMarket 0 5 (some "medium")).valid with
    | false => rfl
    | true =>
      have := (h.mp hv).2.2
      norm_num at this
  refine ⟨rfl, by simp [GAME_CONFIG], hinvalid, hop, hfl0,
    storePnL (openedTrade sessionState zeroConfidenceMarket 5), by rw [hst], hsh, hconf, ?_⟩
  rw [hsh, hfl0]
  decide

/-! ## Red zone -/

theorem validateEntry_75_medium_valid (m : Market) (stake : ℚ) (h : 8 / 7 ≤ stake) :
    (validateEntry m 75 stake (some "medium")).valid = true := by
  rw [validateEntry_valid_iff]
  have hep := validateEntry_expectedProfit m 75 stake (some "medium")
  have hfee : (validateEntry m 75 stake (some "medium")).feeCost =
      stake * (35 / 1000) + 2 / 100 := by
    rw [validateEntry_feeCost]
    simp [calculateFees, GAME_CONFIG, slippageLookup, jsOr]; ring
  have hedge := validateEntry_edgeAfterFees m 75 stake (some "medium")
  rw [hfee, hep] at hedge
  have e4 : GAME_CONFIG.smartTrading.takeProfitLevels.standard = 15 / 100 := rfl
  have e5 : GAME_CONFIG.smartTrading.stopLoss = 12 / 100 := rfl
  rw [e4, e5] at hep hedge
  rw [hedge, hep]
  refine ⟨?_, ?_, by norm_num⟩
  · rw [not_lt]; linarith
  · rw [not_lt]; linarith

theorem losingStartedState_eq :
    losingStartedState =
      { sessionState with bankroll := 0, activeTrade := some losingTrade,
                          tradeTimer := true, priceUpdateTimer := true } := by
  have hsa : sessionState.sessionActive = true := by rw [sessionState_eq]
  have hte : sessionState.tradingEnabled = true := by rw [sessionState_eq]; rfl
  have hno : sessionState.activeTrade = none := by rw [sessionState_eq]; rfl
  have hidle : sessionState.tradeTimer = false := by rw [sessionState_eq]; rfl
  have hbank : sessionState.bankroll = 1000 := by rw [sessionState_eq]; rfl
  have hdur : sessionState.timerDuration = 20 := by rw [sessionState_eq]; rfl
  have hsrc : sessionState.priceSource = PriceSource.real := by rw [sessionState_eq]; rfl
  have hop : (enterTrade sessionState sampleMarket 1000).1 = EnterOutcome.opened := by
    rw [enterTrade_opened_iff]
    refine ⟨hsa, hte, hno, by rw [hbank]; norm_num, ?_⟩
    have h1 : jsOr sampleMarket.aiProbability 75 = 75 := by simp [jsOr, sampleMarket]
    have h2 : jsOrStr sampleMarket.volatilityLevel "medium" = "medium" := by
      simp [jsOrStr, sampleMarket]
    rw [h1, h2]
    exact validateEntry_75_medium_valid sampleMarket 1000 (by norm_num)
  have hfl : Int.floor ((1000 : ℚ) * 2 * (3 / 2)) = 3000 := by
    rw [Int.floor_eq_iff]; norm_num
  have hfee : (calculateFees 1000 (some "medium") false).total = 751 / 50 := by
    simp [calculateFees, GAME_CONFIG, slippageLookup, jsOr]; norm_num
  have hg : ((47 / 100 : ℚ) - 1 / 2) * ((3000 : ℤ) : ℚ) = -90 := by norm_num
  have hneg : ((-90 : ℚ) > 0) = False := by norm_num
  have htrade : storePnL { storePnL (openedTrade sessionState sampleMarket 1000) with
      currentPrice := 47 / 100 } = losingTrade := by
    simp only [storePnL, openedTrade, losingTrade, sampleMarket, hdur, hsrc, jsOr, jsOrStr]
    simp [hfl, hfee]
    norm_num
    rw [hfee]
    norm_num
  simp only [] at htrade
  have hn : exitNetPnL losingTrade = -(5251 / 50) := by
    simp [exitNetPnL, losingTrade, jsOr]
  have hs1 := enterTrade_opened_state sessionState sampleMarket 1000 hop hidle
  have hs2 : startTrade (enterTrade sessionState sampleMarket 1000).2 =
      { sessionState with bankroll := sessionState.bankroll - 1000
                          activeTrade := some (storePnL (openedTrade sessionState sampleMarket 1000))
                          tradeTimer := true, priceUpdateTimer := true } := by
    rw [hs1]; rfl
  unfold losingStartedState
  rw [hs2, priceTick_eq _ (storePnL (openedTrade sessionState sampleMarket 1000)) _ rfl rfl
    (by norm_num), updateTradePnL_eq _ _ rfl]
  simp only [if_true]
  rw [htrade, hn]
  have c1 : ¬ ((-(5251 / 50) : ℚ) ≥
      (storePnL (openedTrade sessionState sampleMarket 1000)).takeProfitTarget) := by
    simp [storePnL, openedTrade]; norm_num
  have c2 : ¬ ((-(5251 / 50) : ℚ) ≤
      (storePnL (openedTrade sessionState sampleMarket 1000)).stopLossTarget) := by
    simp [storePnL, openedTrade]; norm_num
  have c3 : ¬ ((-(5251 / 50) : ℚ) ≤
      -(storePnL (openedTrade sessionState sampleMarket 1000)).buyPrice) := by
    simp [storePnL, openedTrade]; norm_num
  rw [if_neg c1, if_neg c2, if_neg c3, hbank]
  norm_num

/-- C8 (the code at the failing input): the Started trade of `losingStartedState`
carries a stored net P&L of -105.02.  Closed manually, the cumulative P&L becomes
-105.02, at or below the red-zone threshold -100, yet the session stays active and
the next `enterTrade` opens a trade.  Closed automatically (countdown expiry) from the
same state, the cumulative P&L is the same, the session is locked and the next
`enterTrade` is refused. -/
theorem manual_exit_in_red_zone_keeps_session_open :
    IsStarted losingStartedState ∧
    (exitTrade losingStartedState).totalPnL = -(5251 / 50) ∧
    (exitTrade losingStartedState).totalPnL ≤ GAME_CONFIG.riskManagement.redZoneThreshold ∧
    (exitTrade losingStartedState).sessionActive = true ∧
    (enterTrade (exitTrade losingStartedState) sampleMarket 5).1 = EnterOutcome.opened ∧
    (autoExitTrade losingStartedState AutoExitReason.timerExpired).totalPnL = -(5251 / 50) ∧
    (autoExitTrade losingStartedState AutoExitReason.timerExpired).sessionActive = false ∧
    (enterTrade (autoExitTrade losingStartedState AutoExitReason.timerExpired)
      sampleMarket 5).1 = EnterOutcome.sessionNotActive := by
  have hact : losingStartedState.activeTrade = some losingTrade := by
    rw [losingStartedState_eq]
  have hn : exitNetPnL losingTrade = -(5251 / 50) := by
    simp [exitNetPnL, losingTrade, jsOr]
  have hsa : sessionState.sessionActive = true := by rw [sessionState_eq]
  have hte : sessionState.tradingEnabled = true := by rw [sessionState_eq]; rfl
  have hpnl : sessionState.totalPnL = 0 := by rw [sessionState_eq]; rfl
  have hthr : GAME_CONFIG.riskManagement.redZoneThreshold = -100 := rfl
  have hexit : exitTrade losingStartedState =
      settleTrade losingStartedState losingTrade ExitType.manual ExitReason.manual :=
    exitTrade_eq _ _ hact
  have hauto := autoExitTrade_eq losingStartedState losingTrade hact AutoExitReason.timerExpired
  have htot : (exitTrade losingStartedState).totalPnL = -(5251 / 50) := by
    rw [hexit, settleTrade_eq, hn, losingStartedState_eq]
    simp [hpnl]
  have hses : (exitTrade losingStartedState).sessionActive = true := by
    rw [hexit, settleTrade_eq, losingStartedState_eq]
    exact hsa
  have htot2 : (autoExitTrade losingStartedState AutoExitReason.timerExpired).totalPnL =
      -(5251 / 50) := by
    rw [hauto, settleTrade_eq, hn, losingStartedState_eq]
    simp [hpnl]
  have hses2 : (autoExitTrade losingStartedState AutoExitReason.timerExpired).sessionActive =
      false := by
    rw [hauto, hn, hthr]
    have : losingStartedState.totalPnL = 0 := by rw [losingStartedState_eq]; exact hpnl
    simp only [this]
    norm_num
  refine ⟨⟨by rw [hact]; rfl, by rw [losingStartedState_eq]⟩, htot, ?_, hses, ?_, htot2,
    hses2, ?_⟩
  · rw [htot, hthr]; norm_num
  · rw [enterTrade_opened_iff]
    refine ⟨hses, ?_, ?_, ?_, ?_⟩
    · rw [hexit, settleTrade_eq, losingStartedState_eq]; exact hte
    · rw [hexit, settleTrade_eq]
    · rw [hexit, settleTrade_eq, hn, losingStartedState_eq]
      simp [losingTrade]; norm_num
    · have h1 : jsOr sampleMarket.aiProbability 75 = 75 := by simp [jsOr, sampleMarket]
      have h2 : jsOrStr sampleMarket.volatilityLevel "medium" = "medium" := by
        simp [jsOrStr, sampleMarket]
      rw [h1, h2]
      exact validateEntry_sample_valid
  · simp [enterTrade, hses2]

/-! ## Countdown -/

theorem exitNetPnL_timeRemaining (trade : Trade) (r : ℤ) :
    exitNetPnL { trade with timeRemaining := r } = exitNetPnL trade := rfl

theorem exitGrossPnL_timeRemaining (trade : Trade) (r : ℤ) :
    exitGrossPnL { trade with timeRemaining := r } = exitGrossPnL trade := rfl

theorem exitFees_timeRemaining (trade : Trade) (r : ℤ) :
    exitFees { trade with timeRemaining := r } = exitFees trade := rfl

/-- The automatic close by the countdown, in terms of the trade before the tick. -/
theorem autoExitTrade_timerExpired_closedWith (s : GameState) (trade : Trade) (r : ℤ) :
    ClosedWith s
      (autoExitTrade { s with activeTrade := some { trade with timeRemaining := r } }
        AutoExitReason.timerExpired)
      trade trade.currentPrice (exitGrossPnL trade) (exitFees trade) (exitNetPnL trade)
      AutoExitReason.timerExpired := by
  rw [autoExitTrade_eq _ { trade with timeRemaining := r } rfl, settleTrade_eq]
  exact ⟨rfl, rfl, rfl⟩

theorem autoExitTrade_timerExpired_bankroll (s : GameState) (trade : Trade) (r : ℤ) :
    (autoExitTrade { s with activeTrade := some { trade with timeRemaining := r } }
        AutoExitReason.timerExpired).bankroll =
      s.bankroll + (trade.buyPrice + exitNetPnL trade) := by
  rw [autoExitTrade_eq _ { trade with timeRemaining := r } rfl, settleTrade_eq]
  rfl

theorem countdownTick_running_step (s : GameState) (trade : Trade) (r : ℤ)
    (hstarted : s.tradeTimer = true) :
    countdownTick { s with activeTrade := some { trade with timeRemaining := r } } =
      if r - 1 ≤ 0 then
        autoExitTrade { s with activeTrade := some { trade with timeRemaining := r - 1 } }
          AutoExitReason.timerExpired
      else { s with activeTrade := some { trade with timeRemaining := r - 1 } } :=
  countdownTick_eq { s with activeTrade := some { trade with timeRemaining := r } }
    { trade with timeRemaining := r } rfl hstarted

theorem iterate_countdownTick_running (s : GameState) (trade : Trade) (n : ℕ)
    (hopen : s.activeTrade = some trade) (hstarted : s.tradeTimer = true)
    (hn : trade.timeRemaining = n) (k : ℕ) (hk : k < n) :
    countdownTick^[k] s =
      { s with activeTrade := some { trade with timeRemaining := (n : ℤ) - k } } := by
  induction k with
  | zero =>
    obtain ⟨⟩ := trade
    obtain ⟨⟩ := s
    simp only at hopen hn
    subst hopen hn
    simp
  | succ k ih =>
    rw [Function.iterate_succ_apply', ih (Nat.lt_of_succ_lt hk),
      countdownTick_running_step s trade _ hstarted]
    have hlt : ¬ ((n : ℤ) - k - 1 ≤ 0) := by
      have : ((k + 1 : ℕ) : ℤ) < n := by exact_mod_cast hk
      push_cast at this
      linarith
    rw [if_neg hlt]
    have : (n : ℤ) - ((k + 1 : ℕ) : ℤ) = (n : ℤ) - k - 1 := by push_cast; ring
    rw [this]

/-- C11: for every Started trade with `timeRemaining = n >= 1`, as long as only
countdown ticks act on it (no price trigger fires), each countdown tick decrements
`timeRemaining` by exactly 1 and changes nothing else, the trade is Started after each
of the first `n - 1` ticks, and the `n`-th tick, which brings `timeRemaining` to 0,
closes the trade with reason timer-expired: one outcome record with that reason and
with the net P&L `trade.netPnl || (grossPnL - fees.total)`, which is the net P&L
stored by the last P&L computation, and the bankroll is credited with the stake plus
that net P&L.  A price tick that leaves the trade open leaves `timeRemaining` and the
countdown as they are. -/
theorem countdown_closes_at_zero (s : GameState) (trade : Trade) (n : ℕ)
    (hopen : s.activeTrade = some trade) (hstarted : s.tradeTimer = true)
    (hn : trade.timeRemaining = n) (hpos : 1 ≤ n) :
    (∀ k : ℕ, k < n →
      countdownTick^[k] s =
        { s with activeTrade := some { trade with timeRemaining := (n : ℤ) - k } } ∧
      IsStarted (countdownTick^[k] s)) ∧
    ClosedWith s (countdownTick^[n] s) trade trade.currentPrice (exitGrossPnL trade)
      (exitFees trade) (exitNetPnL trade) AutoExitReason.timerExpired ∧
    (countdownTick^[n] s).bankroll = s.bankroll + (trade.buyPrice + exitNetPnL trade) ∧
    (storePnL trade = trade → trade.netPnl = some (exitNetPnL trade)) ∧
    (∀ (p : Option ℚ) (later : Trade), (priceTick s p).activeTrade = some later →
      later.timeRemaining = trade.timeRemaining ∧ (priceTick s p).tradeTimer = true) := by
  have hrun := iterate_countdownTick_running s trade n hopen hstarted hn
  obtain ⟨m, rfl⟩ : ∃ m, n = m + 1 := ⟨n - 1, by omega⟩
  have hlast : countdownTick^[m + 1] s =
      autoExitTrade
        { s with activeTrade := some { trade with timeRemaining := ((m + 1 : ℕ) : ℤ) - m - 1 } }
        AutoExitReason.timerExpired := by
    rw [Function.iterate_succ_apply', hrun m (Nat.lt_succ_self m),
      countdownTick_running_step s trade _ hstarted]
    have hle : ((m + 1 : ℕ) : ℤ) - m - 1 ≤ 0 := by push_cast; linarith
    rw [if_pos hle]
  refine ⟨?_, ?_, ?_, ?_, ?_⟩
  · intro k hk
    rw [hrun k hk]
    exact ⟨rfl, rfl, hstarted⟩
  · rw [hlast]
    exact autoExitTrade_timerExpired_closedWith s trade _
  · rw [hlast]
    exact autoExitTrade_timerExpired_bankroll s trade _
  · intro hst
    have h := exitNetPnL_storePnL trade
    rw [hst] at h
    rw [h, ← hst]
    rfl
  · intro p later hlater
    rcases priceTick_cases s p with hc | hc | ⟨t, q, hs, _, _, hc⟩
    · rw [hc] at hlater ⊢
      rw [hopen] at hlater
      exact ⟨by rw [← Option.some.inj hlater], hstarted⟩
    · rw [hc.1] at hlater
      exact absurd hlater (by simp)
    · rw [hc] at hlater ⊢
      rw [hopen] at hs
      have ht : trade = t := Option.some.inj hs
      have : storePnL { t with currentPrice := q } = later := Option.some.inj hlater
      rw [← this, ht]
      exact ⟨rfl, hstarted⟩

/-- Instance of `countdown_closes_at_zero`: the started sample trade has 20 seconds;
after 19 countdown ticks it is still open with 1 second left, and the 20th tick closes
it with reason timer-expired and net P&L -0.095. -/
theorem countdown_closes_at_zero_witness :
    startedState.activeTrade = some sampleTrade ∧ startedState.tradeTimer = true ∧
    sampleTrade.timeRemaining = ((20 : ℕ) : ℤ) ∧ 1 ≤ 20 ∧
    (countdownTick^[19] startedState).activeTrade =
      some { sampleTrade with timeRemaining := 1 } ∧
    IsStarted (countdownTick^[19] startedState) ∧
    (countdownTick^[20] startedState).activeTrade = none ∧
    ClosedWith startedState (countdownTick^[20] startedState) sampleTrade (1 / 2)
      (exitGrossPnL sampleTrade) (exitFees sampleTrade) (-(19 / 200))
      AutoExitReason.timerExpired := by
  have hopen : startedState.activeTrade = some sampleTrade := by rw [startedState_eq]
  have hst : startedState.tradeTimer = true := by rw [startedState_eq]
  have hn : sampleTrade.timeRemaining = ((20 : ℕ) : ℤ) := rfl
  have hnet : exitNetPnL sampleTrade = -(19 / 200) := by
    simp [exitNetPnL, sampleTrade, jsOr]
  obtain ⟨h1, h2, _, _, _⟩ :=
    countdown_closes_at_zero startedState sampleTrade 20 hopen hst hn (by norm_num)
  have h19 := h1 19 (by norm_num)
  have hc : sampleTrade.currentPrice = 1 / 2 := rfl
  rw [hnet, hc] at h2
  refine ⟨hopen, hst, hn, by norm_num, ?_, h19.2, h2.1, h2⟩
  rw [h19.1]
  norm_num

/-! ## Cancelling a started trade -/

/-- C12 (amended): `cancelTrade` acts on every open trade, Started as well as Pending:
in every state whose trade is Started it refunds the stake in full, closes the trade
and clears both interval handles, whatever the trade's current net P&L, and it leaves
the cumulative P&L, the fees-paid total, the streak counters and the recorded trades
unchanged. -/
theorem cancelTrade_on_started_trade (s : GameState) (trade : Trade)
    (hopen : s.activeTrade = some trade) (_hstarted : IsStarted s) :
    (cancelTrade s).bankroll = s.bankroll + trade.buyPrice ∧
    (cancelTrade s).activeTrade = none ∧
    (cancelTrade s).tradeTimer = false ∧
    (cancelTrade s).priceUpdateTimer = false ∧
    (cancelTrade s).totalPnL = s.totalPnL ∧
    (cancelTrade s).totalFeesPaid = s.totalFeesPaid ∧
    (cancelTrade s).consecutiveWins = s.consecutiveWins ∧
    (cancelTrade s).consecutiveLosses = s.consecutiveLosses ∧
    (cancelTrade s).trades = s.trades ∧
    (cancelTrade s).logged = s.logged := by
  rw [cancelTrade_eq s trade hopen]
  exact ⟨rfl, rfl, rfl, rfl, rfl, rfl, rfl, rfl, rfl, rfl⟩

/-- Instance of `cancelTrade_on_started_trade`: cancelling the started sample trade
(stake 5, bankroll 995) gives bankroll 1000 and no open trade. -/
theorem cancelTrade_on_started_trade_witness :
    startedState.activeTrade = some sampleTrade ∧ IsStarted startedState ∧
    (cancelTrade startedState).bankroll = 1000 ∧
    (cancelTrade startedState).activeTrade = none := by
  have hopen : startedState.activeTrade = some sampleTrade := by rw [startedState_eq]
  have hst : IsStarted startedState :=
    ⟨by rw [hopen]; rfl, by rw [startedState_eq]⟩
  have h := cancelTrade_on_started_trade startedState sampleTrade hopen hst
  refine ⟨hopen, hst, ?_, h.2.1⟩
  rw [h.1, startedState_eq]
  simp [sampleTrade]; norm_num

/-- C12 (as stated, refuted): the trade of `losingStartedState` is Started (stake
1000, bankroll 0, stored net P&L -105.02); `cancelTrade` refunds the stake, so the
bankroll is 1000 and not the unchanged 0, and it closes the trade. -/
theorem cancelTrade_started_counterexample :
    IsStarted losingStartedState ∧
    losingStartedState.activeTrade = some losingTrade ∧
    losingTrade.netPnl = some (-(5251 / 50)) ∧
    losingStartedState.bankroll = 0 ∧
    (cancelTrade losingStartedState).bankroll = 1000 ∧
    (cancelTrade losingStartedState).bankroll ≠ losingStartedState.bankroll ∧
    (cancelTrade losingStartedState).activeTrade = none := by
  have hopen : losingStartedState.activeTrade = some losingTrade := by
    rw [losingStartedState_eq]
  have hb : losingStartedState.bankroll = 0 := by rw [losingStartedState_eq]
  have hc : (cancelTrade losingStartedState).bankroll = 1000 := by
    rw [cancelTrade_eq _ _ hopen]
    simp [hb, losingTrade]
  refine ⟨⟨by rw [hopen]; rfl, by rw [losingStartedState_eq]⟩, hopen, rfl, hb, hc, ?_, ?_⟩
  · rw [hc, hb]; norm_num
  · rw [cancelTrade_eq _ _ hopen]

/-! ## Momentum -/

/-- The loop of `calculateMomentum` adds, for `t = 0, 1, ..., i - lower - 1`, the sign
of the pair `(history[i - t - 1], history[i - t])`. -/
theorem momentumLoop_eq_sum (history : List PricePoint) (lower i : ℕ) (momentum : ℤ) :
    momentumLoop history lower i momentum =
      momentum + ((List.range (i - lower)).map (fun t =>
        momentumStep ((history.getD (i - t) ⟨0, 0⟩).price)
          ((history.getD (i - t - 1) ⟨0, 0⟩).price))).sum := by
  induction i generalizing momentum with
  | zero => simp [momentumLoop]
  | succ i ih =>
    by_cases h : i + 1 > lower
    · have hd : i + 1 - lower = (i - lower) + 1 := by omega
      rw [momentumLoop, if_pos h, ih, hd, List.range_succ_eq_map]
      simp only [List.map_cons, List.sum_cons, List.map_map, Nat.sub_zero]
      have : ((fun t => momentumStep ((history.getD (i + 1 - t) ⟨0, 0⟩).price)
            ((history.getD (i + 1 - t - 1) ⟨0, 0⟩).price)) ∘ Nat.succ) =
          (fun t => momentumStep ((history.getD (i - t) ⟨0, 0⟩).price)
            ((history.getD (i - t - 1) ⟨0, 0⟩).price)) := by
        funext t
        simp only [Function.comp, Nat.succ_eq_add_one, Nat.add_sub_add_right]
      rw [this]
      simp only [Nat.add_sub_cancel]
      ring
    · have hd : i + 1 - lower = 0 := by omega
      rw [momentumLoop, if_neg h, hd]
      simp

theorem consecutiveSteps_length : ∀ l : List ℚ, (consecutiveSteps l).length = l.length - 1
  | [] => rfl
  | [_] => rfl
  | _ :: later :: rest => by
    simp [consecutiveSteps, consecutiveSteps_length (later :: rest)]

theorem consecutiveSteps_getD : ∀ (l : List ℚ) (j : ℕ), j + 1 < l.length →
    (consecutiveSteps l).getD j 0 = momentumStep (l.getD (j + 1) 0) (l.getD j 0)
  | [], _, h => by simp at h
  | [_], _, h => by simp at h
  | _ :: _ :: _, 0, _ => by simp [consecutiveSteps]
  | _ :: later :: rest, j + 1, h => by
    have h2 : j + 1 < (later :: rest).length := by simpa using h
    have ih := consecutiveSteps_getD (later :: rest) j h2
    simpa [consecutiveSteps] using ih

theorem sum_take_eq_sum_range : ∀ (l : List ℤ) (d : ℕ), d ≤ l.length →
    (l.take d).sum = ((List.range d).map (fun t => l.getD t 0)).sum
  | _, 0, _ => by simp
  | [], d + 1, h => by simp at h
  | a :: rest, d + 1, h => by
    have h2 : d ≤ rest.length := by simpa using h
    rw [List.take_succ_cons, List.sum_cons, sum_take_eq_sum_range rest d h2,
      List.range_succ_eq_map]
    simp only [List.map_cons, List.sum_cons, List.map_map, List.getD_cons_zero]
    have : ((fun t => (a :: rest).getD t 0) ∘ Nat.succ) = (fun t => rest.getD t 0) := by
      funext t
      simp only [Function.comp, Nat.succ_eq_add_one, List.getD_cons_succ]
    rw [this]

theorem getD_reverse_int (l : List ℤ) (t : ℕ) (h : t < l.length) :
    l.reverse.getD t 0 = l.getD (l.length - 1 - t) 0 := by
  have h1 : t < l.reverse.length := by simpa using h
  have h2 : l.length - 1 - t < l.length := by omega
  rw [List.getD_eq_getElem _ _ h1, List.getD_eq_getElem _ _ h2, List.getElem_reverse]

/-- The specification's sum over the last `d` pairs, written with indices. -/
theorem momentumOverLastPairs_eq_sum (history : List PricePoint) (d : ℕ)
    (hd : d ≤ history.length - 1) :
    momentumOverLastPairs d history =
      ((List.range d).map (fun t =>
        momentumStep ((history.getD (history.length - 1 - t) ⟨0, 0⟩).price)
          ((history.getD (history.length - 1 - t - 1) ⟨0, 0⟩).price))).sum := by
  have hlen : (consecutiveSteps (history.map (fun h => h.price))).length =
      history.length - 1 := by
    rw [consecutiveSteps_length, List.length_map]
  unfold momentumOverLastPairs
  rw [sum_take_eq_sum_range _ d (by rw [List.length_reverse, hlen]; exact hd)]
  apply congrArg
  apply List.map_congr_left
  intro t ht
  have htd : t < d := List.mem_range.mp ht
  have ht1 : t < (consecutiveSteps (history.map (fun h => h.price))).length := by
    rw [hlen]; omega
  rw [getD_reverse_int _ t ht1, hlen,
    consecutiveSteps_getD _ _ (by rw [List.length_map]; omega)]
  have e1 : history.length - 1 - 1 - t + 1 = history.length - 1 - t := by omega
  have e2 : history.length - 1 - 1 - t = history.length - 1 - t - 1 := by omega
  rw [e1, e2]
  have g : ∀ j, (history.map (fun h => h.price)).getD j 0 =
      (history.getD j ⟨0, 0⟩).price := fun j =>
    List.getD_map history (⟨0, 0⟩ : PricePoint) (fun h : PricePoint => h.price)
  rw [g, g]

/-- C13 (amended): for every price history with at least 3 samples,
`calculateMomentum` equals the sum over the last `min(4, length - 1)` consecutive
pairs (the pairs among the last 5 samples) of +1 for a price increase, -1 for a
decrease and 0 for a flat pair. -/
theorem calculateMomentum_last_four_pairs (history : List PricePoint)
    (hlen : 3 ≤ history.length) :
    calculateMomentum history =
      momentumOverLastPairs (min 4 (history.length - 1)) history := by
  have hd : history.length - 1 - (history.length - 5) = min 4 (history.length - 1) := by
    rw [Nat.min_def]
    split_ifs <;> omega
  rw [momentumOverLastPairs_eq_sum history _ (Nat.min_le_right _ _)]
  unfold calculateMomentum
  rw [if_neg (by omega), momentumLoop_eq_sum, hd, zero_add]

/-- Instance of `calculateMomentum_last_four_pairs`: on six rising prices the
momentum is 4, the number of pairs among the last five samples. -/
theorem calculateMomentum_last_four_pairs_witness :
    3 ≤ (historyOf [1, 2, 3, 4, 5, 6]).length ∧
    calculateMomentum (historyOf [1, 2, 3, 4, 5, 6]) = 4 ∧
    momentumOverLastPairs (min 4 ((historyOf [1, 2, 3, 4, 5, 6]).length - 1))
      (historyOf [1, 2, 3, 4, 5, 6]) = 4 := by
  have hlen : 3 ≤ (historyOf [1, 2, 3, 4, 5, 6]).length := by simp [historyOf]
  have h := calculateMomentum_last_four_pairs (historyOf [1, 2, 3, 4, 5, 6]) hlen
  have hv : momentumOverLastPairs (min 4 ((historyOf [1, 2, 3, 4, 5, 6]).length - 1))
      (historyOf [1, 2, 3, 4, 5, 6]) = 4 := by
    simp [momentumOverLastPairs, historyOf, consecutiveSteps, momentumStep]
    norm_num
  exact ⟨hlen, h.trans hv, hv⟩

/-- C13 (as stated, refuted): the history of six rising prices has at least 3
samples; the sum over its last `min(5, length - 1) = 5` pairs is 5, but
`calculateMomentum` returns 4. -/
theorem calculateMomentum_five_pairs_counterexample :
    3 ≤ (historyOf [1, 2, 3, 4, 5, 6]).length ∧
    momentumOverLastPairs (min 5 ((historyOf [1, 2, 3, 4, 5, 6]).length - 1))
      (historyOf [1, 2, 3, 4, 5, 6]) = 5 ∧
    calculateMomentum (historyOf [1, 2, 3, 4, 5, 6]) = 4 ∧
    calculateMomentum (historyOf [1, 2, 3, 4, 5, 6]) ≠
      momentumOverLastPairs (min 5 ((historyOf [1, 2, 3, 4, 5, 6]).length - 1))
        (historyOf [1, 2, 3, 4, 5, 6]) := by
  have h5 : momentumOverLastPairs (min 5 ((historyOf [1, 2, 3, 4, 5, 6]).length - 1))
      (historyOf [1, 2, 3, 4, 5, 6]) = 5 := by
    simp [momentumOverLastPairs, historyOf, consecutiveSteps, momentumStep]
    norm_num
  have h4 : calculateMomentum (historyOf [1, 2, 3, 4, 5, 6]) = 4 := by
    simp [calculateMomentum, historyOf, momentumLoop, momentumStep]
    norm_num
  refine ⟨by simp [historyOf], h5, h4, ?_⟩
  rw [h4, h5]
  decide

/-- C14: `calculateMomentum` returns 0 for every history of length less than 3, the
empty history included, and for the history with prices
`[0.5, 0.51, 0.52, 0.50, 0.53]` it returns +2, the signed count over its last 4
deltas (+1, +1, -1, +1). -/
theorem calculateMomentum_short_and_example :
    (∀ history : List PricePoint, history.length < 3 → calculateMomentum history = 0) ∧
    calculateMomentum [] = 0 ∧
    calculateMomentum (historyOf [1 / 2, 51 / 100, 52 / 100, 1 / 2, 53 / 100]) = 2 ∧
    consecutiveSteps [1 / 2, 51 / 100, 52 / 100, 1 / 2, 53 / 100] = [1, 1, -1, 1] ∧
    momentumOverLastPairs 4 (historyOf [1 / 2, 51 / 100, 52 / 100, 1 / 2, 53 / 100]) = 2 := by
  refine ⟨?_, ?_, ?_, ?_, ?_⟩
  · intro history h
    simp [calculateMomentum, h]
  · simp [calculateMomentum]
  · simp [calculateMomentum, historyOf, momentumLoop, momentumStep]
    norm_num
  · simp [consecutiveSteps, momentumStep]
    norm_num
  · simp [momentumOverLastPairs, historyOf, consecutiveSteps, momentumStep]
    norm_num

/-- Instance of `calculateMomentum_short_and_example`: a history of two samples. -/
theorem calculateMomentum_short_and_example_witness :
    (historyOf [1 / 2, 51 / 100]).length < 3 ∧
    calculateMomentum (historyOf [1 / 2, 51 / 100]) = 0 := by
  have hlen : (historyOf [1 / 2, 51 / 100]).length < 3 := by simp [historyOf]
  exact ⟨hlen, calculateMomentum_short_and_example.1 _ hlen⟩

/-! ## Reconnection -/

theorem attemptReconnect_at_limit (f : FeedState)
    (h : f.reconnectAttempts ≥ f.maxReconnectAttempts) : attemptReconnect f = f := by
  simp [attemptReconnect, h]

theorem attemptReconnect_below_limit (f : FeedState)
    (h : f.reconnectAttempts < f.maxReconnectAttempts) :
    attemptReconnect f =
      { f with reconnectAttempts := f.reconnectAttempts + 1
               scheduledReconnects := f.scheduledReconnects ++
                 [min (1000 * 2 ^ (f.reconnectAttempts + 1)) 30000] } := by
  simp [attemptReconnect, not_le.mpr h]

/-- The state after `k` calls of `attemptReconnect` from a reset counter. -/
theorem iterate_attemptReconnect (f : FeedState) (hreset : f.reconnectAttempts = 0)
    (hmax : f.maxReconnectAttempts = 5) (k : ℕ) :
    attemptReconnect^[k] f =
      { f with reconnectAttempts := min k 5
               scheduledReconnects := f.scheduledReconnects ++
                 (List.range (min k 5)).map (fun j => min (1000 * 2 ^ (j + 1)) 30000) } := by
  induction k with
  | zero =>
    obtain ⟨⟩ := f
    simp only at hreset
    subst hreset
    simp
  | succ k ih =>
    rw [Function.iterate_succ_apply', ih]
    by_cases hk : k < 5
    · have h1 : min k 5 = k := Nat.min_eq_left (le_of_lt hk)
      have h2 : min (k + 1) 5 = k + 1 := Nat.min_eq_left hk
      rw [attemptReconnect_below_limit _ (by simp only [h1, hmax]; exact hk)]
      simp only [h1, h2, List.range_succ, List.map_append, List.map_cons, List.map_nil,
        List.append_assoc]
    · have h1 : min k 5 = 5 := Nat.min_eq_right (by omega)
      have h2 : min (k + 1) 5 = 5 := Nat.min_eq_right (by omega)
      rw [attemptReconnect_at_limit _ (by simp only [h1, hmax]; exact le_refl 5)]
      simp only [h1, h2]

theorem failureStep_invariant (f : FeedState) (e : FailureEvent) (bound total : ℕ)
    (hmax : f.maxReconnectAttempts = bound) (hle : f.reconnectAttempts ≤ bound)
    (hsum : f.connectCalls + f.scheduledReconnects.length = total + f.reconnectAttempts) :
    (failureStep f e).maxReconnectAttempts = bound ∧
    (failureStep f e).reconnectAttempts ≤ bound ∧
    (failureStep f e).connectCalls + (failureStep f e).scheduledReconnects.length =
      total + (failureStep f e).reconnectAttempts := by
  cases e with
  | close =>
    simp only [failureStep, onClose]
    by_cases h : f.reconnectAttempts < f.maxReconnectAttempts
    · rw [attemptReconnect_below_limit { f with connected := false } h]
      simp only [List.length_append, List.length_singleton]
      refine ⟨hmax, by omega, by omega⟩
    · rw [attemptReconnect_at_limit { f with connected := false } (not_lt.mp h)]
      exact ⟨hmax, hle, hsum⟩
  | error => exact ⟨hmax, hle, hsum⟩
  | timer =>
    simp only [failureStep, reconnectTimerFires]
    cases hs : f.scheduledReconnects with
    | nil =>
      simp only []
      rw [hs] at hsum
      exact ⟨hmax, hle, by rw [hs]; exact hsum⟩
    | cons d rest =>
      rw [hs] at hsum
      simp only [connect, List.length_cons] at hsum ⊢
      exact ⟨hmax, hle, by omega⟩

theorem foldl_failureStep_invariant (events : List FailureEvent) (f : FeedState)
    (bound total : ℕ)
    (hmax : f.maxReconnectAttempts = bound) (hle : f.reconnectAttempts ≤ bound)
    (hsum : f.connectCalls + f.scheduledReconnects.length = total + f.reconnectAttempts) :
    (events.foldl failureStep f).reconnectAttempts ≤ bound ∧
    (events.foldl failureStep f).connectCalls +
        (events.foldl failureStep f).scheduledReconnects.length =
      total + (events.foldl failureStep f).reconnectAttempts := by
  induction events generalizing f with
  | nil => exact ⟨hle, hsum⟩
  | cons e rest ih =>
    obtain ⟨h1, h2, h3⟩ := failureStep_invariant f e bound total hmax hle hsum
    exact ih (failureStep f e) h1 h2 h3

/-- C15: starting from a reset attempt counter (with `maxReconnectAttempts = 5`),
`k` consecutive calls of `attemptReconnect` leave the counter at `min(k, 5)` and have
scheduled exactly `min(k, 5)` timers, the `j`-th with delay `min(1000 * 2^j, 30000)`
ms, i.e. 2000, 4000, 8000, 16000, 30000; from the 5th call on nothing changes, and a
call with the counter at its maximum schedules nothing and returns the same state.
Across any run of failure events (runs of the close handler, of the error handler,
and reconnect timers firing, in any order) without a successful open, the counter
never exceeds 5 and at most 5 reconnects are started or pending. -/
theorem attemptReconnect_backoff (f : FeedState) (hreset : f.reconnectAttempts = 0)
    (hmax : f.maxReconnectAttempts = 5) :
    (∀ k : ℕ,
      (attemptReconnect^[k] f).reconnectAttempts = min k 5 ∧
      (attemptReconnect^[k] f).scheduledReconnects =
        f.scheduledReconnects ++
          (List.range (min k 5)).map (fun j => min (1000 * 2 ^ (j + 1)) 30000)) ∧
    (List.range 5).map (fun j => min (1000 * 2 ^ (j + 1)) 30000) =
      [2000, 4000, 8000, 16000, 30000] ∧
    (∀ k : ℕ, 5 ≤ k → attemptReconnect (attemptReconnect^[k] f) = attemptReconnect^[k] f) ∧
    (∀ g : FeedState, g.reconnectAttempts ≥ g.maxReconnectAttempts → attemptReconnect g = g) ∧
    (∀ events : List FailureEvent,
      (events.foldl failureStep f).reconnectAttempts ≤ 5 ∧
      (events.foldl failureStep f).connectCalls +
          (events.foldl failureStep f).scheduledReconnects.length ≤
        f.connectCalls + f.scheduledReconnects.length + 5) := by
  have hit := iterate_attemptReconnect f hreset hmax
  refine ⟨?_, by decide, ?_, attemptReconnect_at_limit, ?_⟩
  · intro k
    rw [hit k]
    exact ⟨rfl, rfl⟩
  · intro k hk
    apply attemptReconnect_at_limit
    rw [hit k]
    simp only [hmax]
    exact le_of_eq (Nat.min_eq_right hk).symm
  · intro events
    obtain ⟨h1, h2⟩ := foldl_failureStep_invariant events f 5
      (f.connectCalls + f.scheduledReconnects.length) hmax (by rw [hreset]; exact Nat.zero_le 5)
      (by rw [hreset]; rfl)
    exact ⟨h1, by omega⟩

/-- Instance of `attemptReconnect_backoff` on a fresh feed: six calls of
`attemptReconnect` leave the counter at 5 and the five delays scheduled. -/
theorem attemptReconnect_backoff_witness :
    newFeed.reconnectAttempts = 0 ∧ newFeed.maxReconnectAttempts = 5 ∧
    (attemptReconnect^[6] newFeed).reconnectAttempts = 5 ∧
    (attemptReconnect^[6] newFeed).scheduledReconnects = [2000, 4000, 8000, 16000, 30000] ∧
    (attemptReconnect^[3] newFeed).scheduledReconnects = [2000, 4000, 8000] := by
  have h := attemptReconnect_backoff newFeed rfl rfl
  refine ⟨rfl, rfl, (h.1 6).1, ?_, ?_⟩
  · rw [(h.1 6).2]; decide
  · rw [(h.1 3).2]; decide

/-! ## Disconnecting -/

theorem connectedFeed_eq :
    connectedFeed =
      { newFeed with ws := some Transport.live, connected := true, connectCalls := 1 } := rfl

theorem droppedFeed_eq :
    droppedFeed =
      { newFeed with ws := some Transport.closed, connected := false, connectCalls := 1
                     reconnectAttempts := 1, scheduledReconnects := [2000] } := by
  simp [droppedFeed, connectionLost, connectedFeed_eq, onClose, attemptReconnect, newFeed]

/-- C16 (amended): `disconnect()` leaves the feed Disconnected with no transport and
with no subscription or callback, but it does not cancel reconnection: it leaves the
attempt counter and the pending reconnect timers as they are; the close event caused
by `disconnect` on a live transport runs the close handler, which schedules a
reconnect attempt whenever fewer than `maxReconnectAttempts` attempts have been made;
and a reconnect timer that was pending before `disconnect` and fires afterwards calls
`connect`, which gives the feed a new transport. -/
theorem disconnect_does_not_cancel_reconnect (f : FeedState) :
    ((disconnect f).ws = none ∧ (disconnect f).connected = false ∧
      (∀ m, (disconnect f).subscriptions m = false) ∧
      (∀ m, (disconnect f).callbacks m = none) ∧
      (disconnect f).scheduledReconnects = f.scheduledReconnects ∧
      (disconnect f).reconnectAttempts = f.reconnectAttempts) ∧
    (f.ws = some Transport.live → f.reconnectAttempts < f.maxReconnectAttempts →
      (deliverCloseEvent (disconnect f)).scheduledReconnects =
        f.scheduledReconnects ++ [min (1000 * 2 ^ (f.reconnectAttempts + 1)) 30000]) ∧
    (f.scheduledReconnects ≠ [] →
      (reconnectTimerFires (disconnect f)).ws = some Transport.live ∧
      (reconnectTimerFires (disconnect f)).connectCalls = f.connectCalls + 1) := by
  have hsched : (disconnect f).scheduledReconnects = f.scheduledReconnects := by
    unfold disconnect
    split <;> rfl
  have hcalls : (disconnect f).connectCalls = f.connectCalls := by
    unfold disconnect
    split <;> rfl
  refine ⟨⟨?_, rfl, fun _ => rfl, fun _ => rfl, hsched, ?_⟩, ?_, ?_⟩
  · cases hw : f.ws with
    | none => simp [disconnect, hw]
    | some t => cases t <;> simp [disconnect, hw]
  · unfold disconnect
    split <;> rfl
  · intro hlive hlt
    have hd : disconnect f =
        { f with ws := none, closeEventsPending := f.closeEventsPending + 1, connected := false
                 subscriptions := fun _ => false, callbacks := fun _ => none } := by
      simp [disconnect, hlive]
    rw [hd]
    simp only [deliverCloseEvent, Nat.add_one_ne_zero, if_false, onClose]
    simp [attemptReconnect, not_le.mpr hlt]
  · intro hne
    obtain ⟨d, rest, hs⟩ := List.exists_cons_of_ne_nil hne
    have h1 : (disconnect f).scheduledReconnects = d :: rest := by rw [hsched, hs]
    have hr : reconnectTimerFires (disconnect f) =
        connect { disconnect f with scheduledReconnects := rest } := by
      simp [reconnectTimerFires, h1]
    rw [hr]
    exact ⟨rfl, by simp [connect, hcalls]⟩

/-- Instance of `disconnect_does_not_cancel_reconnect`: disconnecting a connected
feed leads, with its close event, to a reconnect timer of 2000 ms; and a timer pending
on a feed whose connection was lost still calls `connect` after `disconnect`. -/
theorem disconnect_does_not_cancel_reconnect_witness :
    connectedFeed.ws = some Transport.live ∧
    connectedFeed.reconnectAttempts < connectedFeed.maxReconnectAttempts ∧
    droppedFeed.scheduledReconnects ≠ [] ∧
    (deliverCloseEvent (disconnect connectedFeed)).scheduledReconnects = [2000] ∧
    (reconnectTimerFires (disconnect droppedFeed)).ws = some Transport.live ∧
    (reconnectTimerFires (disconnect droppedFeed)).connectCalls = 2 := by
  have hlive : connectedFeed.ws = some Transport.live := rfl
  have hlt : connectedFeed.reconnectAttempts < connectedFeed.maxReconnectAttempts := by
    rw [connectedFeed_eq]; decide
  have hne : droppedFeed.scheduledReconnects ≠ [] := by
    rw [droppedFeed_eq]; simp
  have h1 := (disconnect_does_not_cancel_reconnect connectedFeed).2.1 hlive hlt
  have h2 := (disconnect_does_not_cancel_reconnect droppedFeed).2.2 hne
  refine ⟨hlive, hlt, hne, ?_, h2.1, ?_⟩
  · rw [h1, connectedFeed_eq]; decide
  · rw [h2.2, droppedFeed_eq]

/-- C16 (as stated, refuted): (1) `disconnect()` on the connected feed closes a live
transport; when its close event is delivered the close handler schedules a reconnect
attempt (delay 2000 ms).  (2) On the feed whose connection was lost a reconnect timer
is pending; after `disconnect()` the feed has no transport, and when the timer fires
`connect` is called (a second call) and the feed holds a live transport again. -/
theorem disconnect_reconnect_counterexample :
    (disconnect connectedFeed).ws = none ∧
    (disconnect connectedFeed).scheduledReconnects = [] ∧
    (deliverCloseEvent (disconnect connectedFeed)).scheduledReconnects = [2000] ∧
    droppedFeed.scheduledReconnects = [2000] ∧
    droppedFeed.connectCalls = 1 ∧
    (disconnect droppedFeed).ws = none ∧
    (reconnectTimerFires (disconnect droppedFeed)).connectCalls = 2 ∧
    (reconnectTimerFires (disconnect droppedFeed)).ws = some Transport.live := by
  have hd : disconnect droppedFeed =
      { droppedFeed with ws := none, subscriptions := fun _ => false,
                         callbacks := fun _ => none } := by
    rw [droppedFeed_eq]
    simp [disconnect, newFeed]
  refine ⟨rfl, rfl, ?_, ?_, ?_, ?_, ?_, ?_⟩
  · simp [deliverCloseEvent, disconnect, connectedFeed_eq, onClose, attemptReconnect, newFeed]
  · rw [droppedFeed_eq]
  · rw [droppedFeed_eq]
  · rw [hd]
  · rw [hd, droppedFeed_eq]
    simp [reconnectTimerFires, connect]
  · rw [hd, droppedFeed_eq]
    simp [reconnectTimerFires, connect]

/-! ## Inbound messages -/

theorem jsOrOptStr_carriedMarketId (data : FeedMessage) :
    jsOrOptStr (jsOrOptStr data.market data.asset_id) none = carriedMarketId data := by
  unfold carriedMarketId jsOrOptStr
  cases hm : data.market with
  | none =>
    cases ha : data.asset_id with
    | none => rfl
    | some a => by_cases h : a = "" <;> simp [h]
  | some m =>
    cases ha : data.asset_id with
    | none => by_cases h : m = "" <;> simp [h]
    | some a => by_cases h : m = "" <;> by_cases h2 : a = "" <;> simp [h, h2]

theorem parseFloat_or_carriedPrice (data : FeedMessage) :
    parseFloat (data.price.or data.yes_price) = carriedPrice data := by
  unfold carriedPrice RawValue.or
  split_ifs <;> rfl

/-- `handleMessage` in terms of what the message carries. -/
theorem handleMessage_eq (f : FeedState) (data : FeedMessage) (now : ℕ) :
    handleMessage f data now =
      if hasPriceType data then
        match carriedMarketId data, carriedPrice data with
        | some m, some p => updatePrice f m p data now
        | _, _ => f
      else f := by
  unfold handleMessage hasPriceType
  simp only [jsOrOptStr_carriedMarketId, parseFloat_or_carriedPrice]

/-- C17: for every inbound message that is malformed, i.e. whose type is neither
`price_update` nor `trade`, or that carries no market identifier, or whose price is
not numeric, `handleMessage` returns normally with the feed state it was given: the
stored current prices and every market's price history are unchanged and no subscriber
callback is invoked. -/
theorem handleMessage_drops_malformed (f : FeedState) (data : FeedMessage) (now : ℕ)
    (hbad : ¬ hasPriceType data ∨ carriedMarketId data = none ∨ carriedPrice data = none) :
    handleMessage f data now = f ∧
    (∀ m, (handleMessage f data now).prices m = f.prices m) ∧
    (∀ m, getPrice (handleMessage f data now) m = getPrice f m) ∧
    (∀ m, (handleMessage f data now).priceHistory m = f.priceHistory m) ∧
    (handleMessage f data now).invocations = f.invocations := by
  have h : handleMessage f data now = f := by
    rw [handleMessage_eq]
    rcases hbad with h | h | h
    · rw [if_neg h]
    · rw [h]; split_ifs <;> rfl
    · rw [h]
      split_ifs
      · cases carriedMarketId data <;> rfl
      · rfl
  rw [h]
  exact ⟨rfl, fun _ => rfl, fun _ => rfl, fun _ => rfl, rfl⟩

/-- Instance of `handleMessage_drops_malformed`: a message of kind `heartbeat`, and
a `price_update` for `m1` whose price is the text "n/a". -/
theorem handleMessage_drops_malformed_witness :
    ¬ hasPriceType heartbeatMessage ∧
    carriedPrice { sampleMessage 0 with price := RawValue.text "n/a" none } = none ∧
    handleMessage connectedFeed heartbeatMessage 7 = connectedFeed ∧
    handleMessage connectedFeed { sampleMessage 0 with price := RawValue.text "n/a" none } 7 =
      connectedFeed := by
  have h1 : ¬ hasPriceType heartbeatMessage := by
    simp [hasPriceType, heartbeatMessage]
  have h2 : carriedPrice { sampleMessage 0 with price := RawValue.text "n/a" none } = none := by
    simp [carriedPrice, sampleMessage, RawValue.truthy, parseFloat]
  exact ⟨h1, h2,
    (handleMessage_drops_malformed connectedFeed heartbeatMessage 7 (Or.inl h1)).1,
    (handleMessage_drops_malformed connectedFeed _ 7 (Or.inr (Or.inr h2))).1⟩

/-- The bounded push of `updatePrice`, with the configured length 60. -/
theorem bounded_push_eq (old : List PricePoint) (point : PricePoint) :
    (if (old ++ [point]).length >
        (if GAME_CONFIG.priceHistoryLength = 0 then 60 else GAME_CONFIG.priceHistoryLength)
      then sliceLast GAME_CONFIG.priceHistoryLength (old ++ [point])
      else old ++ [point]) = pushBounded old point := by
  have hc : GAME_CONFIG.priceHistoryLength = 60 := rfl
  have h60 : (if GAME_CONFIG.priceHistoryLength = 0 then 60
      else GAME_CONFIG.priceHistoryLength) = 60 := rfl
  rw [h60, hc]
  simp only [pushBounded, lastN, sliceLast]
  rw [if_neg (by decide : ¬ (60 = 0))]
  by_cases h : (old ++ [point]).length > 60
  · rw [if_pos h]
  · rw [if_neg h]
    have : (old ++ [point]).length - 60 = 0 := by omega
    rw [this, List.drop_zero]

theorem updatePrice_prices (f : FeedState) (m : String) (p : ℚ) (raw : FeedMessage)
    (now : ℕ) :
    (updatePrice f m p raw now).prices =
      Function.update f.prices m (some { price := p, timestamp := now, raw := raw }) := by
  unfold updatePrice
  simp only []
  split <;> rfl

theorem updatePrice_priceHistory (f : FeedState) (m : String) (p : ℚ) (raw : FeedMessage)
    (now : ℕ) :
    (updatePrice f m p raw now).priceHistory =
      Function.update f.priceHistory m
        (some (pushBounded ((f.priceHistory m).getD []) { price := p, timestamp := now })) := by
  rw [← bounded_push_eq]
  unfold updatePrice
  simp only []
  split <;> rfl

theorem updatePrice_callbacks (f : FeedState) (m : String) (p : ℚ) (raw : FeedMessage)
    (now : ℕ) : (updatePrice f m p raw now).callbacks = f.callbacks := by
  unfold updatePrice
  simp only []
  split <;> rfl

theorem updatePrice_invocations_none (f : FeedState) (m : String) (p : ℚ)
    (raw : FeedMessage) (now : ℕ) (h : f.callbacks m = none) :
    (updatePrice f m p raw now).invocations = f.invocations := by
  unfold updatePrice
  simp only [h]

theorem updatePrice_invocations_some (f : FeedState) (m : String) (p : ℚ)
    (raw : FeedMessage) (now : ℕ) (cb : ℕ) (h : f.callbacks m = some cb) :
    (updatePrice f m p raw now).invocations =
      f.invocations ++
        [{ callback := cb
           price := p
           oldPrice := getPrice f m
           change := (match getPrice f m with
             | some previous => p - previous
             | none => 0)
           history := pushBounded ((f.priceHistory m).getD []) { price := p, timestamp := now }
           isReal := true }] := by
  rw [← bounded_push_eq]
  unfold updatePrice getPrice
  simp only [h, Function.update_same]
  cases f.prices m <;> rfl

theorem pushBounded_eq_append (old : List PricePoint) (point : PricePoint) :
    pushBounded old point = lastN 59 old ++ [point] := by
  simp only [pushBounded, lastN, List.length_append, List.length_singleton]
  rw [List.drop_append_of_le_length (by omega)]
  have : old.length + 1 - 60 = old.length - 59 := by omega
  rw [this]

theorem handleMessage_wellFormed (f : FeedState) (data : FeedMessage) (now : ℕ)
    (m : String) (p : ℚ) (htype : hasPriceType data)
    (hid : carriedMarketId data = some m) (hprice : carriedPrice data = some p) :
    handleMessage f data now = updatePrice f m p data now := by
  rw [handleMessage_eq, if_pos htype, hid, hprice]

/-- C18: for every inbound message of kind `price_update` or `trade` that carries a
market identifier `m` (in `market`, or else in `asset_id`) and a numeric price `p`
(in `price`, or else in `yes_price`), after `handleMessage` the stored current price
of `m` is `p` (`getPrice(m) = p`), the history of `m` is the previous one with the new
point pushed (bounded to 60) and `p` is its newest entry, and the callback registered
for `m` is invoked exactly once, with price `p`, `change = p - previous stored price`
(0 when there was none), the updated history and `isReal = true`; without a
registered callback nothing is invoked. -/
theorem handleMessage_stores_and_notifies (f : FeedState) (data : FeedMessage) (now : ℕ)
    (m : String) (p : ℚ) (htype : hasPriceType data)
    (hid : carriedMarketId data = some m) (hprice : carriedPrice data = some p) :
    getPrice (handleMessage f data now) m = some p ∧
    (handleMessage f data now).priceHistory m =
      some (pushBounded ((f.priceHistory m).getD []) { price := p, timestamp := now }) ∧
    (pushBounded ((f.priceHistory m).getD []) { price := p, timestamp := now }).getLast? =
      some { price := p, timestamp := now } ∧
    (∀ cb : ℕ, f.callbacks m = some cb →
      (handleMessage f data now).invocations =
        f.invocations ++
          [{ callback := cb
             price := p
             oldPrice := getPrice f m
             change := (match getPrice f m with
               | some previous => p - previous
               | none => 0)
             history := pushBounded ((f.priceHistory m).getD []) { price := p, timestamp := now }
             isReal := true }]) ∧
    (f.callbacks m = none → (handleMessage f data now).invocations = f.invocations) := by
  rw [handleMessage_wellFormed f data now m p htype hid hprice]
  refine ⟨?_, ?_, ?_, ?_, ?_⟩
  · simp [getPrice, updatePrice_prices]
  · rw [updatePrice_priceHistory, Function.update_same]
  · rw [pushBounded_eq_append, List.getLast?_concat]
  · intro cb hcb
    exact updatePrice_invocations_some f m p data now cb hcb
  · intro hcb
    exact updatePrice_invocations_none f m p data now hcb

theorem subscribedFeed_eq :
    subscribedFeed =
      { connectedFeed with
        callbacks := Function.update connectedFeed.callbacks "m1" (some 1)
        sent := [{ type := "subscribe", channel := "market", market := "m1" }]
        subscriptions := Function.update connectedFeed.subscriptions "m1" true } := by
  simp [subscribedFeed, subscribe, connectedFeed_eq, newFeed]

/-- Instance of `handleMessage_stores_and_notifies`: on the feed subscribed to `m1`
with callback 1 and no stored price, the message `price_update` for `m1` with price
0.6 stores 0.6, makes it the only history entry and invokes callback 1 once with
change 0. -/
theorem handleMessage_stores_and_notifies_witness :
    hasPriceType (sampleMessage (3 / 5)) ∧
    carriedMarketId (sampleMessage (3 / 5)) = some "m1" ∧
    carriedPrice (sampleMessage (3 / 5)) = some (3 / 5) ∧
    getPrice (handleMessage subscribedFeed (sampleMessage (3 / 5)) 7) "m1" = some (3 / 5) ∧
    (handleMessage subscribedFeed (sampleMessage (3 / 5)) 7).priceHistory "m1" =
      some [{ price := 3 / 5, timestamp := 7 }] ∧
    (handleMessage subscribedFeed (sampleMessage (3 / 5)) 7).invocations =
      [{ callback := 1, price := 3 / 5, oldPrice := none, change := 0,
         history := [{ price := 3 / 5, timestamp := 7 }], isReal := true }] := by
  have h1 : hasPriceType (sampleMessage (3 / 5)) := Or.inl rfl
  have h2 : carriedMarketId (sampleMessage (3 / 5)) = some "m1" := by
    simp [carriedMarketId, sampleMessage]
  have h3 : carriedPrice (sampleMessage (3 / 5)) = some (3 / 5) := by
    simp [carriedPrice, sampleMessage, RawValue.truthy, parseFloat]
  have hcb : subscribedFeed.callbacks "m1" = some 1 := by
    rw [subscribedFeed_eq]; simp
  have hh : subscribedFeed.priceHistory "m1" = none := by
    rw [subscribedFeed_eq]; rfl
  have hp : getPrice subscribedFeed "m1" = none := by
    rw [subscribedFeed_eq]; rfl
  have hi : subscribedFeed.invocations = [] := by
    rw [subscribedFeed_eq]; rfl
  have hpush : pushBounded [] ({ price := 3 / 5, timestamp := 7 } : PricePoint) =
      [{ price := 3 / 5, timestamp := 7 }] := by
    simp [pushBounded, lastN]
  obtain ⟨g1, g2, _, g4, _⟩ :=
    handleMessage_stores_and_notifies subscribedFeed (sampleMessage (3 / 5)) 7 "m1" (3 / 5)
      h1 h2 h3
  have g5 := g4 1 hcb
  rw [hh, Option.getD_none, hpush] at g2
  rw [hh, Option.getD_none, hpush, hp, hi] at g5
  exact ⟨h1, h2, h3, g1, g2, by simpa using g5⟩

/-! ## Bounded price history -/

theorem lastN_length {α : Type} (n : ℕ) (l : List α) :
    (lastN n l).length = min l.length n := by
  simp only [lastN, List.length_drop]
  omega

theorem lastN_of_length_le {α : Type} (n : ℕ) (l : List α) (h : l.length ≤ n) :
    lastN n l = l := by
  have : l.length - n = 0 := by omega
  simp only [lastN, this, List.drop_zero]

theorem lastN_lastN_append {α : Type} (n : ℕ) (l r : List α) :
    lastN n (lastN n l ++ r) = lastN n (l ++ r) := by
  by_cases h : l.length ≤ n
  · rw [lastN_of_length_le n l h]
  · have hk : l.length - n ≤ l.length := Nat.sub_le _ _
    have h1 : (lastN n l).length = n := by rw [lastN_length]; omega
    have h2 : (l ++ r).length - n = (l.length - n) + r.length := by
      rw [List.length_append]; omega
    have h3 : (lastN n l ++ r).length - n = r.length := by
      rw [List.length_append, h1]; omega
    have h4 : lastN n (l ++ r) = List.drop r.length (List.drop (l.length - n) l ++ r) := by
      unfold lastN
      rw [h2, ← List.drop_drop, List.drop_append_of_le_length hk]
    rw [h4]
    show List.drop ((lastN n l ++ r).length - n) (lastN n l ++ r) = _
    rw [h3]
    rfl

theorem updatePrice_priceHistory_other (f : FeedState) (m other : String) (p : ℚ)
    (raw : FeedMessage) (now : ℕ) (h : other ≠ m) :
    (updatePrice f m p raw now).priceHistory other = f.priceHistory other := by
  rw [updatePrice_priceHistory, Function.update_noteq h]

/-- The history of market `m` after a sequence of updates, from a feed whose history
of `m` is within the bound. -/
theorem deliverUpdates_priceHistory (updates : List PriceUpdate) (f : FeedState)
    (m : String) (hold : ((f.priceHistory m).getD []).length ≤ 60) :
    ((deliverUpdates f updates).priceHistory m).getD [] =
      lastN 60 ((f.priceHistory m).getD [] ++ pointsFor m updates) := by
  induction updates generalizing f with
  | nil =>
    simp only [deliverUpdates, List.foldl_nil, pointsFor, List.filter_nil, List.map_nil,
      List.append_nil]
    exact (lastN_of_length_le 60 _ hold).symm
  | cons u rest ih =>
    have hstep : deliverUpdates f (u :: rest) =
        deliverUpdates (updatePrice f u.marketId u.price u.raw u.now) rest := rfl
    rw [hstep]
    by_cases hm : u.marketId = m
    · have hnew : ((updatePrice f u.marketId u.price u.raw u.now).priceHistory m).getD [] =
          pushBounded ((f.priceHistory m).getD []) { price := u.price, timestamp := u.now } := by
        rw [updatePrice_priceHistory, hm, Function.update_same, Option.getD_some]
      have hle : (((updatePrice f u.marketId u.price u.raw u.now).priceHistory m).getD
          []).length ≤ 60 := by
        rw [hnew, pushBounded, lastN_length]
        exact Nat.min_le_right _ _
      rw [ih _ hle, hnew, pushBounded, lastN_lastN_append]
      have hp : pointsFor m (u :: rest) =
          { price := u.price, timestamp := u.now } :: pointsFor m rest := by
        simp [pointsFor, hm]
      rw [hp, List.append_assoc]
      rfl
    · have hsame : (updatePrice f u.marketId u.price u.raw u.now).priceHistory m =
          f.priceHistory m :=
        updatePrice_priceHistory_other f u.marketId m u.price u.raw u.now (Ne.symm hm)
      have hp : pointsFor m (u :: rest) = pointsFor m rest := by
        simp [pointsFor, hm]
      rw [ih _ (by rw [hsame]; exact hold), hsame, hp]

/-- C19: with the configured history length 60, for every sequence of price updates
delivered to a feed that holds no history for market `m`, of which `k` are for `m`,
the stored history of `m` consists of exactly the last `min(k, 60)` of these updates
in arrival order (the oldest ones are evicted), so its length is `min(k, 60)` and
never more than 60; and an update for one market leaves the history of every other
market unchanged. -/
theorem priceHistory_keeps_last_sixty (f : FeedState) (m : String)
    (updates : List PriceUpdate) (hnew : f.priceHistory m = none) :
    GAME_CONFIG.priceHistoryLength = 60 ∧
    ((deliverUpdates f updates).priceHistory m).getD [] = lastN 60 (pointsFor m updates) ∧
    (((deliverUpdates f updates).priceHistory m).getD []).length =
      min (pointsFor m updates).length 60 ∧
    (((deliverUpdates f updates).priceHistory m).getD []).length ≤ 60 ∧
    (((deliverUpdates f updates).priceHistory m).getD []).map (fun h => h.price) =
      lastN 60 (((updates.filter (fun u => decide (u.marketId = m))).map (fun u => u.price))) ∧
    (∀ (g : FeedState) (other : String) (p : ℚ) (raw : FeedMessage) (now : ℕ), other ≠ m →
      (updatePrice g m p raw now).priceHistory other = g.priceHistory other) := by
  have h := deliverUpdates_priceHistory updates f m (by rw [hnew]; simp)
  rw [hnew, Option.getD_none, List.nil_append] at h
  refine ⟨rfl, h, ?_, ?_, ?_, ?_⟩
  · rw [h, lastN_length]
  · rw [h, lastN_length]
    exact Nat.min_le_right _ _
  · rw [h]
    simp only [lastN, pointsFor, List.map_drop, List.map_map, List.length_map]
    rfl
  · intro g other p raw now hne
    exact updatePrice_priceHistory_other g m other p raw now hne

/-- Instance of `priceHistory_keeps_last_sixty`: after 61 updates for `m1` on a fresh
feed the history of `m1` has 60 entries and its oldest entry is the second update
(time stamp 1); the first one was evicted. -/
theorem priceHistory_keeps_last_sixty_witness :
    newFeed.priceHistory "m1" = none ∧
    (pointsFor "m1" sixtyOneUpdates).length = 61 ∧
    (((deliverUpdates newFeed sixtyOneUpdates).priceHistory "m1").getD []).length = 60 ∧
    ((((deliverUpdates newFeed sixtyOneUpdates).priceHistory "m1").getD []).head?).map
      (fun h => h.timestamp) = some 1 := by
  have hnew : newFeed.priceHistory "m1" = none := rfl
  have hp : pointsFor "m1" sixtyOneUpdates =
      (List.range 61).map
        (fun (i : ℕ) => ({ price := (i : ℚ), timestamp := i } : PricePoint)) := by
    unfold pointsFor sixtyOneUpdates
    rw [List.filter_eq_self.mpr, List.map_map]
    · rfl
    · intro u hu
      obtain ⟨i, _, rfl⟩ := List.mem_map.mp hu
      simp
  have hlen : (pointsFor "m1" sixtyOneUpdates).length = 61 := by
    rw [hp, List.length_map, List.length_range]
  obtain ⟨_, h1, h2, _⟩ := priceHistory_keeps_last_sixty newFeed "m1" sixtyOneUpdates hnew
  refine ⟨hnew, hlen, by rw [h2, hlen]; rfl, ?_⟩
  rw [h1, hp]
  simp only [lastN, List.length_map, List.length_range]
  rfl

/-! ## Subscriptions -/

/-- C20: `subscribe(marketId, onUpdate)` on a feed that is not connected returns
false and leaves the feed as it was (subscriptions, callbacks and sent messages
unchanged); on a connected feed (which holds a transport) it returns true, records
`marketId` as subscribed with `onUpdate` as its callback, leaves the other markets
as they were and sends exactly one `subscribe` control message for the market;
subscribing again to the same `marketId` replaces the earlier callback, so that a later
price update for that market makes exactly one call, to the newest callback. -/
theorem subscribe_records_callback (f : FeedState) (m : String) (cb : ℕ) :
    (f.connected = false → subscribe f m cb = (SubscribeResult.notConnected, f)) ∧
    (f.connected = true → f.ws.isSome = true →
      (subscribe f m cb).1 = SubscribeResult.subscribed ∧
      (subscribe f m cb).2.subscriptions m = true ∧
      (subscribe f m cb).2.callbacks m = some cb ∧
      (subscribe f m cb).2.sent =
        f.sent ++ [{ type := "subscribe", channel := "market", market := m }] ∧
      (∀ other, other ≠ m →
        (subscribe f m cb).2.subscriptions other = f.subscriptions other ∧
        (subscribe f m cb).2.callbacks other = f.callbacks other) ∧
      (subscribe f m cb).2.connected = true ∧
      (subscribe f m cb).2.ws = f.ws) ∧
    (f.connected = true → f.ws.isSome = true →
      ∀ (newest : ℕ) (p : ℚ) (raw : FeedMessage) (now : ℕ),
        (subscribe (subscribe f m cb).2 m newest).1 = SubscribeResult.subscribed ∧
        (subscribe (subscribe f m cb).2 m newest).2.callbacks m = some newest ∧
        ∃ call : CallbackCall,
          (updatePrice (subscribe (subscribe f m cb).2 m newest).2 m p raw now).invocations =
            (subscribe (subscribe f m cb).2 m newest).2.invocations ++ [call] ∧
          call.callback = newest ∧ call.price = p) := by
  have hsub : ∀ (g : FeedState) (c : ℕ), g.connected = true → g.ws.isSome = true →
      subscribe g m c = (SubscribeResult.subscribed,
        { g with callbacks := Function.update g.callbacks m (some c)
                 sent := g.sent ++ [{ type := "subscribe", channel := "market", market := m }]
                 subscriptions := Function.update g.subscriptions m true }) := by
    intro g c hc hw
    have hw2 : g.ws.isNone = false := by
      cases hg : g.ws with
      | none => rw [hg] at hw; simp at hw
      | some t => rfl
    simp [subscribe, hc, hw2]
  refine ⟨?_, ?_, ?_⟩
  · intro hc
    simp [subscribe, hc]
  · intro hc hw
    rw [hsub f cb hc hw]
    refine ⟨rfl, ?_, ?_, rfl, ?_, hc, rfl⟩
    · simp
    · simp
    · intro other hne
      exact ⟨Function.update_noteq hne _ _, Function.update_noteq hne _ _⟩
  · intro hc hw newest p raw now
    have e1 := hsub f cb hc hw
    have e2 := hsub (subscribe f m cb).2 newest (by rw [e1]; exact hc) (by rw [e1]; exact hw)
    rw [e2]
    refine ⟨rfl, by simp, ?_⟩
    refine ⟨_, updatePrice_invocations_some _ m p raw now newest (by simp), rfl, rfl⟩

/-- Instance of `subscribe_records_callback`: on a fresh (disconnected) feed
`subscribe` fails and changes nothing; on the connected feed it succeeds and sends one
message; after subscribing `m1` with callback 1 and then callback 2, an update for
`m1` calls callback 2 only. -/
theorem subscribe_records_callback_witness :
    newFeed.connected = false ∧ connectedFeed.connected = true ∧
    connectedFeed.ws.isSome = true ∧
    subscribe newFeed "m1" 1 = (SubscribeResult.notConnected, newFeed) ∧
    (subscribe connectedFeed "m1" 1).1 = SubscribeResult.subscribed ∧
    (subscribe connectedFeed "m1" 1).2.sent =
      [{ type := "subscribe", channel := "market", market := "m1" }] ∧
    ∃ call : CallbackCall,
      (updatePrice (subscribe (subscribe connectedFeed "m1" 1).2 "m1" 2).2 "m1" (3 / 5)
        (sampleMessage (3 / 5)) 7).invocations =
        (subscribe (subscribe connectedFeed "m1" 1).2 "m1" 2).2.invocations ++ [call] ∧
      call.callback = 2 := by
  have hc : connectedFeed.connected = true := rfl
  have hw : connectedFeed.ws.isSome = true := rfl
  have h1 := (subscribe_records_callback newFeed "m1" 1).1 rfl
  have h2 := (subscribe_records_callback connectedFeed "m1" 1).2.1 hc hw
  obtain ⟨_, _, call, hcall, hcb, _⟩ :=
    (subscribe_records_callback connectedFeed "m1" 1).2.2 hc hw 2 (3 / 5)
      (sampleMessage (3 / 5)) 7
  exact ⟨rfl, hc, hw, h1, h2.1, h2.2.2.2.1, call, hcall, hcb⟩

/-! ## Fee model: zero stake and break-even -/

/-- C21 (amended): `calculateFees` has no guard on the stake.  For stake 0, every
tier and either flag (fees enabled), the three components proportional to the stake
(slippage, spread, trading fee) are 0, but the gas cost `2 * estimatedGasUSD = 0.02`
is still charged, so the total is 0.02 and not 0, and the percentage
`total / 0 * 100` is a division by zero whose result is not a finite number. -/
theorem calculateFees_zero_stake (t : Option String) (w : Bool) :
    (calculateFees 0 t w).breakdown =
      some { slippage := 0, spread := 0, tradingFee := 0, gas := 2 / 100 } ∧
    (calculateFees 0 t w).total = 2 / 100 ∧
    (calculateFees 0 t w).percentage = none := by
  refine ⟨?_, ?_, ?_⟩
  · cases w <;> simp [calculateFees, GAME_CONFIG] <;> norm_num
  · cases w <;> simp [calculateFees, GAME_CONFIG] <;> norm_num
  · simp [calculateFees, GAME_CONFIG]

/-- C21 (as stated, refuted): at stake 0 in the medium tier, not winning, the total
is 0.02, not 0; the gas component is 0.02, not 0; and the percentage is not a finite
number (the division by the zero stake is carried out). -/
theorem calculateFees_zero_stake_counterexample :
    (calculateFees 0 (some "medium") false).total = 2 / 100 ∧
    (calculateFees 0 (some "medium") false).total ≠ 0 ∧
    (∃ b : FeeBreakdown, (calculateFees 0 (some "medium") false).breakdown = some b ∧
      b.gas ≠ 0) ∧
    (calculateFees 0 (some "medium") false).percentage = none := by
  have ht : (calculateFees 0 (some "medium") false).total = 2 / 100 := by
    simp [calculateFees, GAME_CONFIG]; norm_num
  refine ⟨ht, by rw [ht]; norm_num, ?_, by simp [calculateFees, GAME_CONFIG]⟩
  refine ⟨{ slippage := 0, spread := 0, tradingFee := 0, gas := 2 / 100 }, ?_, by norm_num⟩
  simp [calculateFees, GAME_CONFIG]; norm_num

theorem calculateFees_total_winning (s rate : ℚ) (t : String) (h : slippageLookup t = some rate)
    (hr : rate ≠ 0) :
    (calculateFees s (some t) true).total =
      s * rate + s * (GAME_CONFIG.fees.typicalSpread / 2) + s * GAME_CONFIG.fees.takerFee +
        GAME_CONFIG.fees.estimatedGasUSD * 2 := by
  simp [calculateFees, GAME_CONFIG, h, jsOr, hr]

theorem slippageLookup_ne_zero (t : String) (rate : ℚ) (h : slippageLookup t = some rate) :
    rate ≠ 0 := by
  unfold slippageLookup at h
  split_ifs at h <;> simp [GAME_CONFIG] at h <;> rw [← h] <;> norm_num

/-- How `calculateBreakEvenProfit` relates to `calculateNetPnL`: for every stake
`s >= 0` and configured tier `t` (low, medium, high, with slippage rate `r`),
`calculateBreakEvenProfit(s, t)` is
`s * (r + typicalSpread / 2) + s * (r + takerFee) + 2 * estimatedGasUSD`; it counts
the slippage twice, while `calculateFees` counts it once, so for a gross profit
`g > 0`, `calculateNetPnL(g, s, t) = g - breakEven + s * r`, and the net P&L is not
negative iff `g >= breakEven - s * r`: the returned value exceeds the gross profit at
which the net P&L is 0 by `s * r`. -/
theorem calculateBreakEvenProfit_bound (s rate : ℚ) (t : String) (hs : 0 ≤ s)
    (ht : slippageLookup t = some rate) :
    ∃ breakEven : ℚ,
      calculateBreakEvenProfit s (some t) = some breakEven ∧
      breakEven = s * (rate + GAME_CONFIG.fees.typicalSpread / 2) +
        s * (rate + GAME_CONFIG.fees.takerFee) + 2 * GAME_CONFIG.fees.estimatedGasUSD ∧
      (∀ g : ℚ, g > 0 →
        calculateNetPnL g s (some t) = g - breakEven + s * rate ∧
        (g ≥ breakEven → calculateNetPnL g s (some t) ≥ 0) ∧
        (calculateNetPnL g s (some t) ≥ 0 ↔ g ≥ breakEven - s * rate)) := by
  have hr : rate ≠ 0 := slippageLookup_ne_zero t rate ht
  have hrpos : 0 < rate := by
    unfold slippageLookup at ht
    split_ifs at ht <;> simp [GAME_CONFIG] at ht <;> rw [← ht] <;> norm_num
  refine ⟨_, ?_, rfl, ?_⟩
  · simp only [calculateBreakEvenProfit, Option.getD_some, ht]
    congr 1
    ring
  · intro g hg
    have hnet : calculateNetPnL g s (some t) =
        g - (s * (rate + GAME_CONFIG.fees.typicalSpread / 2) +
          s * (rate + GAME_CONFIG.fees.takerFee) + 2 * GAME_CONFIG.fees.estimatedGasUSD) +
          s * rate := by
      unfold calculateNetPnL
      have : decide (g > 0) = true := by simpa using hg
      rw [this, calculateFees_total_winning s rate t ht hr]
      ring
    have hsr : 0 ≤ s * rate := mul_nonneg hs (le_of_lt hrpos)
    refine ⟨hnet, ?_, ?_⟩
    · intro hge
      rw [hnet]
      linarith
    · rw [hnet]
      constructor <;> intro h <;> linarith

/-- Instance of `calculateBreakEvenProfit_bound` at stake 100 in the medium tier: the
break-even profit is 4.52 and a gross profit of 5 nets 1.48. -/
theorem calculateBreakEvenProfit_bound_witness :
    (0 : ℚ) ≤ 100 ∧ slippageLookup "medium" = some (1 / 100) ∧
    calculateBreakEvenProfit 100 (some "medium") = some (113 / 25) ∧
    calculateNetPnL 5 100 (some "medium") = 37 / 25 := by
  have hs : (0 : ℚ) ≤ 100 := by norm_num
  have ht : slippageLookup "medium" = some (1 / 100) := by
    simp [slippageLookup, GAME_CONFIG]
  obtain ⟨b, hb, hbe, hall⟩ := calculateBreakEvenProfit_bound 100 (1 / 100) "medium" hs ht
  have hbv : b = 113 / 25 := by
    rw [hbe]; simp [GAME_CONFIG]; norm_num
  refine ⟨hs, ht, by rw [hb, hbv], ?_⟩
  rw [(hall 5 (by norm_num)).1, hbv]
  norm_num

/-- C27 (the code at the failing input): stake 100 in the medium tier.
`calculateBreakEvenProfit(100, 'medium')` returns 4.52, the "required gross profit to
break even" of its docstring; yet the gross profit 4, positive and below 4.52, already
gives `calculateNetPnL(4, 100, 'medium') = 0.48 >= 0`, and the gross profit at which
`calculateNetPnL` is 0 is 3.52: the fees that `calculateFees` charges a winning trade
are 3.52, with the slippage counted once. -/
theorem calculateBreakEvenProfit_overstates_break_even :
    calculateBreakEvenProfit 100 (some "medium") = some (113 / 25) ∧
    (4 : ℚ) > 0 ∧ (4 : ℚ) < 113 / 25 ∧
    calculateNetPnL 4 100 (some "medium") = 12 / 25 ∧
    calculateNetPnL 4 100 (some "medium") ≥ 0 ∧
    (calculateFees 100 (some "medium") true).total = 88 / 25 ∧
    calculateNetPnL (88 / 25) 100 (some "medium") = 0 := by
  have hb : calculateBreakEvenProfit 100 (some "medium") = some (113 / 25) := by
    simp [calculateBreakEvenProfit, slippageLookup, GAME_CONFIG]; norm_num
  have hn : calculateNetPnL 4 100 (some "medium") = 12 / 25 := by
    simp [calculateNetPnL, calculateFees, slippageLookup, GAME_CONFIG, jsOr]; norm_num
  have hf : (calculateFees 100 (some "medium") true).total = 88 / 25 := by
    simp [calculateFees, slippageLookup, GAME_CONFIG, jsOr]; norm_num
  have hz : calculateNetPnL (88 / 25) 100 (some "medium") = 0 := by
    simp [calculateNetPnL, calculateFees, slippageLookup, GAME_CONFIG, jsOr]; norm_num
  refine ⟨hb, by norm_num, by norm_num, hn, ?_, hf, hz⟩
  rw [hn]; norm_num

/-! ## Monotonicity of the entry validator -/

/-- C30: `validateEntry` is monotone in the confidence: for every market, stake
`s >= 0`, tier `t` and confidences `c <= c'`, the expected profit and the edge after
fees at `c'` are at least those at `c`, and if the entry is valid at `c` it is valid
at `c'`. -/
theorem validateEntry_monotone (m : Market) (s : ℚ) (t : Option String) (c c' : ℚ)
    (hs : 0 ≤ s) (hc : c ≤ c') :
    (validateEntry m c s t).expectedProfit ≤ (validateEntry m c' s t).expectedProfit ∧
    (validateEntry m c s t).edgeAfterFees ≤ (validateEntry m c' s t).edgeAfterFees ∧
    ((validateEntry m c s t).valid = true → (validateEntry m c' s t).valid = true) := by
  have e4 : GAME_CONFIG.smartTrading.takeProfitLevels.standard = 15 / 100 := rfl
  have e5 : GAME_CONFIG.smartTrading.stopLoss = 12 / 100 := rfl
  have hep : (validateEntry m c s t).expectedProfit ≤
      (validateEntry m c' s t).expectedProfit := by
    rw [validateEntry_expectedProfit, validateEntry_expectedProfit, e4, e5]
    have : 0 ≤ (c' - c) * s := mul_nonneg (sub_nonneg.mpr hc) hs
    nlinarith
  have hedge : (validateEntry m c s t).edgeAfterFees ≤
      (validateEntry m c' s t).edgeAfterFees := by
    rw [validateEntry_edgeAfterFees, validateEntry_edgeAfterFees, validateEntry_feeCost,
      validateEntry_feeCost]
    linarith
  refine ⟨hep, hedge, ?_⟩
  intro hv
  rw [validateEntry_valid_iff] at hv ⊢
  obtain ⟨h1, h2, h3⟩ := hv
  exact ⟨not_lt.mpr (le_trans (not_lt.mp h1) hep), not_lt.mpr (le_trans (not_lt.mp h2) hedge),
    not_lt.mpr (le_trans (not_lt.mp h3) hc)⟩

/-- Instance of `validateEntry_monotone`: stake 5, tier medium, confidences 75 and
90. -/
theorem validateEntry_monotone_witness :
    (0 : ℚ) ≤ 5 ∧ (75 : ℚ) ≤ 90 ∧
    (validateEntry sampleMarket 75 5 (some "medium")).valid = true ∧
    (validateEntry sampleMarket 90 5 (some "medium")).valid = true ∧
    (validateEntry sampleMarket 75 5 (some "medium")).expectedProfit ≤
      (validateEntry sampleMarket 90 5 (some "medium")).expectedProfit := by
  have h := validateEntry_monotone sampleMarket 5 (some "medium") 75 90 (by norm_num)
    (by norm_num)
  exact ⟨by norm_num, by norm_num, validateEntry_sample_valid,
    h.2.2 validateEntry_sample_valid, h.1⟩

/-! ## The max-loss trigger -/

theorem updateTradePnL_targetsFromStake (s : GameState) (h : TargetsFromStake s) :
    TargetsFromStake (updateTradePnL s) := by
  by_cases ha : s.activeTrade = none
  · have : updateTradePnL s = s := by simp [updateTradePnL, ha]
    rw [this]; exact h
  · obtain ⟨trade, ha⟩ := Option.ne_none_iff_exists'.mp ha
    rcases updateTradePnL_cases s trade ha with hc | hc
    · intro t ht
      rw [hc.1] at ht
      exact absurd ht (by simp)
    · rw [hc]
      intro t ht
      have : storePnL trade = t := Option.some.inj ht
      rw [← this]
      exact h trade ha

theorem step_targetsFromStake (s : GameState) (a : Action) (h : TargetsFromStake s) :
    TargetsFromStake (step s a) := by
  cases a with
  | startSession =>
    intro t ht
    simp only [step, startSession, updateStats_eq] at ht
    exact h t ht
  | enterTrade market buyPrice =>
    simp only [step]
    by_cases hop : (enterTrade s market buyPrice).1 = EnterOutcome.opened
    · rw [enterTrade_opened_eq_update s market buyPrice hop]
      apply updateTradePnL_targetsFromStake
      intro t ht
      have : openedTrade s market buyPrice = t := Option.some.inj ht
      rw [← this]
      exact ⟨rfl, rfl⟩
    · rw [enterTrade_rejected_state s market buyPrice hop]
      exact h
  | startTrade =>
    intro t ht
    simp only [step] at ht
    rw [startTrade_activeTrade] at ht
    exact h t ht
  | priceTick newPrice =>
    simp only [step]
    rcases priceTick_cases s newPrice with hc | hc | ⟨t, p, hs, _, _, hc⟩
    · rw [hc]; exact h
    · intro t ht
      rw [hc.1] at ht
      exact absurd ht (by simp)
    · rw [hc]
      intro t' ht'
      have : storePnL { t with currentPrice := p } = t' := Option.some.inj ht'
      rw [← this]
      exact h t hs
  | countdownTick =>
    simp only [step]
    rcases countdownTick_cases s with hc | hc | ⟨t, hs, hc⟩
    · rw [hc]; exact h
    · intro t ht
      rw [hc.1] at ht
      exact absurd ht (by simp)
    · rw [hc]
      intro t' ht'
      have : { t with timeRemaining := t.timeRemaining - 1 } = t' := Option.some.inj ht'
      rw [← this]
      exact h t hs
  | exitTrade =>
    simp only [step]
    by_cases hn : s.activeTrade = none
    · have : exitTrade s = s := by simp [exitTrade, hn]
      rw [this]; exact h
    · obtain ⟨trade, hopen⟩ := Option.ne_none_iff_exists'.mp hn
      rw [exitTrade_eq s trade hopen, settleTrade_eq]
      intro t ht
      exact absurd ht (by simp)
  | cancelTrade =>
    simp only [step]
    by_cases hn : s.activeTrade = none
    · have : cancelTrade s = s := by simp [cancelTrade, hn]
      rw [this]; exact h
    · obtain ⟨trade, hopen⟩ := Option.ne_none_iff_exists'.mp hn
      rw [cancelTrade_eq s trade hopen]
      intro t ht
      exact absurd ht (by simp)

theorem run_targetsFromStake (actions : List Action) (s : GameState)
    (h : TargetsFromStake s) : TargetsFromStake (run s actions) := by
  induction actions generalizing s with
  | nil => exact h
  | cons a rest ih => exact ih (step s a) (step_targetsFromStake s a h)

/-- The effect of `autoExitTrade` on the log: one outcome with the given reason. -/
theorem autoExitTrade_logged (s : GameState) (trade : Trade) (reason : AutoExitReason)
    (h : s.activeTrade = some trade) :
    ∃ o : TradeOutcome, (autoExitTrade s reason).logged = s.logged ++ [o] ∧
      o.exitReason = ExitReason.auto reason := by
  rw [autoExitTrade_eq s trade h, settleTrade_eq]
  exact ⟨_, rfl, rfl⟩

theorem tickedTrade_netPnl_sample :
    exitNetPnL (tickedTrade sampleTrade (1 / 100)) ≤ -sampleTrade.buyPrice := by
  rw [tickedTrade, exitNetPnL_storePnL]
  simp [sampleTrade, sampleMarket, calculateFees, GAME_CONFIG, jsOr, slippageLookup]
  norm_num

/-- C29: under the default configuration the max-loss trigger is unreachable.  For
every state reached by any sequence of operations from a state without a trade, and
every Started trade of stake > 0 open in it (its targets are then `stake * 0.15` and
`-(stake * 0.12)`): at every price `p`, with `netPnl` the value computed by the tick,
(1) `netPnl <= -stake` implies that the stop-loss condition `netPnl <= stopLossTarget`
holds and the take-profit condition does not, and the take-profit and stop-loss
conditions are never both true; (2) a price tick at which `netPnl <= -stake` closes
the trade with reason stop_loss; (3) every price tick either logs nothing or logs
exactly one outcome whose reason is take_profit or stop_loss, never max_loss. -/
theorem maxLoss_trigger_unreachable (s0 : GameState) (actions : List Action) (trade : Trade)
    (hnone : s0.activeTrade = none)
    (hopen : (run s0 actions).activeTrade = some trade)
    (hstarted : (run s0 actions).tradeTimer = true)
    (hstake : 0 < trade.buyPrice) :
    (∀ p : ℚ,
      (exitNetPnL (tickedTrade trade p) ≤ -trade.buyPrice →
        exitNetPnL (tickedTrade trade p) ≤ trade.stopLossTarget ∧
        ¬ exitNetPnL (tickedTrade trade p) ≥ trade.takeProfitTarget) ∧
      ¬ (exitNetPnL (tickedTrade trade p) ≥ trade.takeProfitTarget ∧
         exitNetPnL (tickedTrade trade p) ≤ trade.stopLossTarget)) ∧
    (∀ p : ℚ, p ≠ 0 → (run s0 actions).priceUpdateTimer = true →
      exitNetPnL (tickedTrade trade p) ≤ -trade.buyPrice →
      priceTick (run s0 actions) (some p) =
        autoExitTrade { run s0 actions with activeTrade := some (tickedTrade trade p) }
          AutoExitReason.stopLoss) ∧
    (∀ newPrice : Option ℚ,
      (priceTick (run s0 actions) newPrice).logged = (run s0 actions).logged ∨
      ∃ o : TradeOutcome,
        (priceTick (run s0 actions) newPrice).logged = (run s0 actions).logged ++ [o] ∧
        (o.exitReason = ExitReason.auto AutoExitReason.takeProfit ∨
         o.exitReason = ExitReason.auto AutoExitReason.stopLoss)) := by
  have h0 : TargetsFromStake s0 := by
    intro t ht
    rw [hnone] at ht
    exact absurd ht (by simp)
  obtain ⟨htp, hsl⟩ := run_targetsFromStake actions s0 h0 trade hopen
  generalize run s0 actions = s at hopen hstarted
  have hupd : ∀ p : ℚ,
      updateTradePnL { s with activeTrade := some { trade with currentPrice := p } } =
        if exitNetPnL (tickedTrade trade p) ≥ trade.takeProfitTarget then
          autoExitTrade { s with activeTrade := some (tickedTrade trade p) }
            AutoExitReason.takeProfit
        else if exitNetPnL (tickedTrade trade p) ≤ trade.stopLossTarget then
          autoExitTrade { s with activeTrade := some (tickedTrade trade p) }
            AutoExitReason.stopLoss
        else { s with activeTrade := some (tickedTrade trade p) } := by
    intro p
    rw [updateTradePnL_eq { s with activeTrade := some { trade with currentPrice := p } }
      { trade with currentPrice := p } rfl]
    have ht : ({ s with activeTrade := some { trade with currentPrice := p } } :
        GameState).tradeTimer = true := hstarted
    rw [if_pos ht]
    show (if exitNetPnL (tickedTrade trade p) ≥ trade.takeProfitTarget then _
      else if exitNetPnL (tickedTrade trade p) ≤ trade.stopLossTarget then _
      else if exitNetPnL (tickedTrade trade p) ≤ -trade.buyPrice then _ else _) = _
    split_ifs with h1 h2 h3
    · rfl
    · rfl
    · exfalso
      rw [hsl] at h2
      apply h2
      linarith
    · rfl
  refine ⟨?_, ?_, ?_⟩
  · intro p
    rw [htp, hsl]
    refine ⟨fun h => ⟨by linarith, fun h2 => ?_⟩, fun h => ?_⟩
    · have : exitNetPnL (tickedTrade trade p) ≥ trade.buyPrice * (15 / 100) := h2
      linarith
    · obtain ⟨h1, h2⟩ := h
      have : exitNetPnL (tickedTrade trade p) ≥ trade.buyPrice * (15 / 100) := h1
      linarith
  · intro p hp htimer hnet
    rw [priceTick_eq s trade p hopen htimer hp, hupd p]
    have h1 : ¬ exitNetPnL (tickedTrade trade p) ≥ trade.takeProfitTarget := by
      rw [htp]
      intro h
      have : exitNetPnL (tickedTrade trade p) ≥ trade.buyPrice * (15 / 100) := h
      linarith
    have h2 : exitNetPnL (tickedTrade trade p) ≤ trade.stopLossTarget := by
      rw [hsl]; linarith
    rw [if_neg h1, if_pos h2]
  · intro newPrice
    by_cases htimer : s.priceUpdateTimer = true
    · cases newPrice with
      | none =>
        left
        have : priceTick s none = s := by simp [priceTick, hopen]
        rw [this]
      | some p =>
        by_cases hp : p = 0
        · left
          have : priceTick s (some p) = s := by simp [priceTick, hopen, hp]
          rw [this]
        · rw [priceTick_eq s trade p hopen htimer hp, hupd p]
          split_ifs
          · right
            obtain ⟨o, ho, hr⟩ := autoExitTrade_logged
              { s with activeTrade := some (tickedTrade trade p) } (tickedTrade trade p)
              AutoExitReason.takeProfit rfl
            exact ⟨o, ho, Or.inl hr⟩
          · right
            obtain ⟨o, ho, hr⟩ := autoExitTrade_logged
              { s with activeTrade := some (tickedTrade trade p) } (tickedTrade trade p)
              AutoExitReason.stopLoss rfl
            exact ⟨o, ho, Or.inr hr⟩
          · left; rfl
    · left
      have : priceTick s newPrice = s := by simp [priceTick, htimer]
      rw [this]

/-- Witness for C29: the sample trade (stake 5, entered at 0.50 with 15 shares), opened
and started in a fresh session; a tick at 0.01 gives a net P&L below -5 and the trade
is closed with reason stop_loss. -/
theorem maxLoss_trigger_unreachable_witness :
    initialState.activeTrade = none ∧
    (run initialState [Action.startSession, Action.enterTrade sampleMarket 5,
      Action.startTrade]).activeTrade = some sampleTrade ∧
    (run initialState [Action.startSession, Action.enterTrade sampleMarket 5,
      Action.startTrade]).tradeTimer = true ∧
    0 < sampleTrade.buyPrice ∧
    exitNetPnL (tickedTrade sampleTrade (1 / 100)) ≤ -sampleTrade.buyPrice ∧
    priceTick (run initialState [Action.startSession, Action.enterTrade sampleMarket 5,
        Action.startTrade]) (some (1 / 100)) =
      autoExitTrade
        { run initialState [Action.startSession, Action.enterTrade sampleMarket 5,
            Action.startTrade] with activeTrade := some (tickedTrade sampleTrade (1 / 100)) }
        AutoExitReason.stopLoss := by
  have hrun : run initialState [Action.startSession, Action.enterTrade sampleMarket 5,
      Action.startTrade] = startedState := rfl
  have hopen : (run initialState [Action.startSession, Action.enterTrade sampleMarket 5,
      Action.startTrade]).activeTrade = some sampleTrade := by
    rw [hrun, startedState_eq]
  have hstarted : (run initialState [Action.startSession, Action.enterTrade sampleMarket 5,
      Action.startTrade]).tradeTimer = true := by
    rw [hrun, startedState_eq]
  have htimer : (run initialState [Action.startSession, Action.enterTrade sampleMarket 5,
      Action.startTrade]).priceUpdateTimer = true := by
    rw [hrun, startedState_eq]
  have hstake : 0 < sampleTrade.buyPrice := by
    show (0 : ℚ) < 5
    norm_num
  exact ⟨rfl, hopen, hstarted, hstake, tickedTrade_netPnl_sample,
    (maxLoss_trigger_unreachable initialState
      [Action.startSession, Action.enterTrade sampleMarket 5, Action.startTrade] sampleTrade
      rfl hopen hstarted hstake).2.1 (1 / 100) (by norm_num) htimer tickedTrade_netPnl_sample⟩

/-! ## The simulator's step size for an unknown tier -/

/-- The record stored by `initializePrice` for its market. -/
theorem initializePrice_prices_self (sim : PriceSimulator) (marketId : String)
    (startPrice : ℚ) (volatilityLevel : Option String) (aiConfidence : ℚ) :
    (sim.initializePrice marketId startPrice volatilityLevel aiConfidence).prices marketId =
      some
        { current := startPrice
          startPrice := startPrice
          volatility := jsOr (simulationVolatilityLookup volatilityLevel) (1 / 100)
          aiConfidence := aiConfidence
          trend := 1
          momentum := 0
          tickCount := 0
          highPrice := startPrice
          lowPrice := startPrice } := by
  simp [PriceSimulator.initializePrice]

/-- C22 (the code): for every tier value that is not one of low, medium, high (also
`undefined`), `initializePrice` seeds the record with the step size 0.01, the literal of
the fallback, which is the step size configured for the high tier and not the 0.006
configured for the medium tier. -/
theorem initializePrice_unknown_tier_step (sim : PriceSimulator) (marketId : String)
    (startPrice : ℚ) (volatilityLevel : Option String) (aiConfidence : ℚ)
    (hlow : volatilityLevel ≠ some "low") (hmedium : volatilityLevel ≠ some "medium")
    (hhigh : volatilityLevel ≠ some "high") :
    ∃ record : SimulatedPrice,
      (sim.initializePrice marketId startPrice volatilityLevel aiConfidence).prices marketId =
        some record ∧
      record.volatility = 1 / 100 ∧
      record.volatility = GAME_CONFIG.simulationVolatility.high ∧
      record.volatility ≠ GAME_CONFIG.simulationVolatility.medium ∧
      (∃ medium : SimulatedPrice,
        (sim.initializePrice marketId startPrice (some "medium") aiConfidence).prices marketId =
          some medium ∧ medium.volatility = 6 / 1000 ∧ record ≠ medium) := by
  have hlook : simulationVolatilityLookup volatilityLevel = none := by
    cases volatilityLevel with
    | none => rfl
    | some level =>
      have h1 : level ≠ "low" := fun h => hlow (by rw [h])
      have h2 : level ≠ "medium" := fun h => hmedium (by rw [h])
      have h3 : level ≠ "high" := fun h => hhigh (by rw [h])
      simp [simulationVolatilityLookup, h1, h2, h3]
  have hmed : simulationVolatilityLookup (some "medium") = some (6 / 1000) := by
    simp [simulationVolatilityLookup, GAME_CONFIG]
  have hv : jsOr (simulationVolatilityLookup volatilityLevel) (1 / 100) = 1 / 100 := by
    rw [hlook]; rfl
  have hm : jsOr (simulationVolatilityLookup (some "medium")) (1 / 100) = 6 / 1000 := by
    rw [hmed]; simp [jsOr]
  refine ⟨_, initializePrice_prices_self sim marketId startPrice volatilityLevel aiConfidence,
    hv, ?_, ?_, _, initializePrice_prices_self sim marketId startPrice (some "medium")
      aiConfidence, hm, ?_⟩
  · show jsOr (simulationVolatilityLookup volatilityLevel) (1 / 100) = _
    rw [hv]; simp [GAME_CONFIG]
  · show jsOr (simulationVolatilityLookup volatilityLevel) (1 / 100) ≠ _
    rw [hv]; simp [GAME_CONFIG]; norm_num
  · intro h
    have hvol := congrArg SimulatedPrice.volatility h
    simp only [hv, hm] at hvol
    norm_num at hvol

/-- Witness for C22: `initializePrice('m1', 0.5, 'extreme', 75)` on the empty
simulator. -/
theorem initializePrice_unknown_tier_step_witness :
    ∃ record : SimulatedPrice,
      (newSimulator.initializePrice "m1" (1 / 2) (some "extreme") 75).prices "m1" =
        some record ∧
      record.volatility = 1 / 100 ∧
      record.volatility ≠ GAME_CONFIG.simulationVolatility.medium := by
  obtain ⟨record, h1, h2, _, h3, _⟩ :=
    initializePrice_unknown_tier_step newSimulator "m1" (1 / 2) (some "extreme") 75
      (by decide) (by decide) (by decide)
  exact ⟨record, h1, h2, h3⟩

/-! ## Live readiness -/

theorem foldl_pnl_eq_sum (l : List TradeData) (acc : ℚ) :
    l.foldl (fun sum t => sum + t.pnl) acc = acc + (l.map (fun t => t.pnl)).sum := by
  induction l generalizing acc with
  | nil => simp
  | cons t rest ih =>
    simp only [List.foldl_cons, List.map_cons, List.sum_cons, ih]
    ring

theorem grossProfit_eq_sum (tradeHistory : List TradeData) :
    grossProfit tradeHistory = sumOfPositivePnLs tradeHistory := by
  unfold grossProfit sumOfPositivePnLs
  rw [foldl_pnl_eq_sum, zero_add]
  induction tradeHistory with
  | nil => rfl
  | cons t rest ih =>
    by_cases h : 0 < t.pnl
    · simp [List.filter_cons, h, ih]
    · simp [List.filter_cons, h, ih]

theorem negative_pnl_sum (tradeHistory : List TradeData) :
    ((tradeHistory.filter (fun t => decide (t.pnl < 0))).map (fun t => t.pnl)).sum =
      -absSumOfNegativePnLs tradeHistory := by
  unfold absSumOfNegativePnLs
  induction tradeHistory with
  | nil => simp
  | cons t rest ih =>
    by_cases h : t.pnl < 0
    · simp [List.filter_cons, h, ih, abs_of_neg h]
      ring
    · simp [List.filter_cons, h, ih]

theorem absSumOfNegativePnLs_nonneg (tradeHistory : List TradeData) :
    0 ≤ absSumOfNegativePnLs tradeHistory := by
  unfold absSumOfNegativePnLs
  apply List.sum_nonneg
  intro x hx
  obtain ⟨y, _, hy⟩ := List.mem_map.mp hx
  rw [← hy]
  exact abs_nonneg y

theorem grossLoss_eq_sum (tradeHistory : List TradeData) :
    grossLoss tradeHistory = absSumOfNegativePnLs tradeHistory := by
  unfold grossLoss
  rw [foldl_pnl_eq_sum, zero_add, negative_pnl_sum, abs_neg,
    abs_of_nonneg (absSumOfNegativePnLs_nonneg tradeHistory)]

/-- C23: for every trade history the profit factor reported by `checkLiveReadiness`
(the third of its four checks) is `grossProfit / grossLoss`, where `grossProfit` is the
sum of the positive P&Ls and `grossLoss` the absolute sum of the negative P&Ls; when
`grossLoss` is 0 (it is never negative) the profit factor is +infinity if
`grossProfit > 0` and 0 otherwise, in particular 0 for the empty history.  The function
is total: it returns a result with the four checks for every history. -/
theorem checkLiveReadiness_profit_factor (tradeHistory : List TradeData) :
    (checkLiveReadiness tradeHistory).checks.map (fun c => c.name) =
      ["Minimum Paper Trades", "Win Rate", "Profit Factor", "Max Drawdown"] ∧
    ((checkLiveReadiness tradeHistory).checks.get? 2).map (fun c => c.actual) =
      some (profitFactor tradeHistory) ∧
    ((checkLiveReadiness tradeHistory).checks.get? 2).map (fun c => c.passed) =
      some ((profitFactor tradeHistory).ge (12 / 10)) ∧
    0 ≤ absSumOfNegativePnLs tradeHistory ∧
    (0 < absSumOfNegativePnLs tradeHistory →
      profitFactor tradeHistory =
        JsNumber.finite (sumOfPositivePnLs tradeHistory / absSumOfNegativePnLs tradeHistory)) ∧
    (absSumOfNegativePnLs tradeHistory = 0 → 0 < sumOfPositivePnLs tradeHistory →
      profitFactor tradeHistory = JsNumber.infinity) ∧
    (absSumOfNegativePnLs tradeHistory = 0 → ¬ 0 < sumOfPositivePnLs tradeHistory →
      profitFactor tradeHistory = JsNumber.finite 0) ∧
    profitFactor [] = JsNumber.finite 0 := by
  refine ⟨rfl, rfl, ?_, absSumOfNegativePnLs_nonneg tradeHistory, ?_, ?_, ?_, ?_⟩
  · simp [checkLiveReadiness, GAME_CONFIG]
  · intro h
    unfold profitFactor
    rw [grossLoss_eq_sum, grossProfit_eq_sum, if_pos h]
  · intro h hp
    unfold profitFactor
    rw [grossLoss_eq_sum, grossProfit_eq_sum, h, if_neg (lt_irrefl 0), if_pos hp]
  · intro h hp
    unfold profitFactor
    rw [grossLoss_eq_sum, grossProfit_eq_sum, h, if_neg (lt_irrefl 0), if_neg hp]
  · simp [profitFactor, grossLoss, grossProfit]

/-! ## The drawdown scan on the example of the specification -/

theorem drawdownScan_example_three :
    drawdownScan (exampleHistory.take 3) = { peak := 25, maxDrawdown := 1 / 2, running := 25 } := by
  simp [drawdownScan, exampleHistory, drawdownStep, pnlTrade]
  norm_num

theorem drawdownScan_example_four :
    drawdownScan (exampleHistory.take 4) = { peak := 25, maxDrawdown := 6 / 5, running := -5 } := by
  simp [drawdownScan, exampleHistory, drawdownStep, pnlTrade]
  norm_num

theorem drawdownScan_example :
    drawdownScan exampleHistory = { peak := 25, maxDrawdown := 6 / 5, running := 0 } := by
  simp [drawdownScan, exampleHistory, drawdownStep, pnlTrade]
  norm_num

theorem profitFactor_example :
    grossProfit exampleHistory = 35 ∧ grossLoss exampleHistory = 35 ∧
    profitFactor exampleHistory = JsNumber.finite 1 := by
  have hp : grossProfit exampleHistory = 35 := by
    simp [grossProfit, exampleHistory, pnlTrade, List.filter]
    norm_num
  have hl : grossLoss exampleHistory = 35 := by
    simp [grossLoss, exampleHistory, pnlTrade, List.filter]
    norm_num
  refine ⟨hp, hl, ?_⟩
  unfold profitFactor
  rw [hl, hp]
  norm_num

/-- C24 (amended): feeding the net P&L sequence [+10, -5, +20, -30, +5] to
`checkLiveReadiness`, the running equity is 25 after step 3 and that is the peak (25,
not 40); after step 4 the equity is -5 and the maximum drawdown is
(25 - (-5)) / 25 = 1.2, which is also the value reported for the whole sequence; the
profit factor is 35 / 35 = 1.0. -/
theorem checkLiveReadiness_example :
    (drawdownScan (exampleHistory.take 3)).running = 25 ∧
    (drawdownScan (exampleHistory.take 3)).peak = 25 ∧
    (drawdownScan (exampleHistory.take 4)).running = -5 ∧
    (drawdownScan (exampleHistory.take 4)).peak = 25 ∧
    (drawdownScan (exampleHistory.take 4)).maxDrawdown = (25 - (-5)) / 25 ∧
    ((checkLiveReadiness exampleHistory).checks.get? 3).map (fun c => c.actual) =
      some (JsNumber.finite (6 / 5)) ∧
    grossProfit exampleHistory = 35 ∧ grossLoss exampleHistory = 35 ∧
    ((checkLiveReadiness exampleHistory).checks.get? 2).map (fun c => c.actual) =
      some (JsNumber.finite 1) := by
  refine ⟨?_, ?_, ?_, ?_, ?_, ?_, profitFactor_example.1, profitFactor_example.2.1, ?_⟩
  · rw [drawdownScan_example_three]
  · rw [drawdownScan_example_three]
  · rw [drawdownScan_example_four]
  · rw [drawdownScan_example_four]
  · rw [drawdownScan_example_four]; norm_num
  · show some (JsNumber.finite (drawdownScan exampleHistory).maxDrawdown) = _
    rw [drawdownScan_example]
  · show some (profitFactor exampleHistory) = _
    rw [profitFactor_example.2.2]

/-- C24 (counterexample): on the sequence [+10, -5, +20, -30, +5] the peak after
step 3 is not 40 and the maximum drawdown after step 4 is not 1.0. -/
theorem checkLiveReadiness_example_counterexample :
    (drawdownScan (exampleHistory.take 3)).peak ≠ 40 ∧
    (drawdownScan (exampleHistory.take 4)).maxDrawdown ≠ 1 := by
  rw [drawdownScan_example_three, drawdownScan_example_four]
  constructor <;> norm_num

/-! ## The requirements enforced by the readiness check -/

theorem checkLiveReadiness_ready_iff (tradeHistory : List TradeData) :
    (checkLiveReadiness tradeHistory).ready = true ↔
      50 ≤ tradeHistory.length ∧ 55 / 100 ≤ winRate tradeHistory ∧
      (profitFactor tradeHistory).ge (12 / 10) = true ∧
      (drawdownScan tradeHistory).maxDrawdown ≤ 20 / 100 := by
  simp [checkLiveReadiness, GAME_CONFIG, and_assoc]

theorem drawdownStep_block (d : DrawdownState) (hpeak : d.peak = d.running + 1)
    (hrun : 19 ≤ d.running) (hmax : d.maxDrawdown = 1 / 20) :
    (twoWinsOneLoss.foldl drawdownStep d).peak =
      (twoWinsOneLoss.foldl drawdownStep d).running + 1 ∧
    19 ≤ (twoWinsOneLoss.foldl drawdownStep d).running ∧
    (twoWinsOneLoss.foldl drawdownStep d).maxDrawdown = 1 / 20 := by
  have h1 : max d.peak (d.running + 10) = d.running + 10 := max_eq_right (by linarith)
  have h2 : max (d.running + 10) (d.running + 10 + 10) = d.running + 10 + 10 :=
    max_eq_right (by linarith)
  have h3 : max (d.running + 10 + 10) (d.running + 10 + 10 + -1) = d.running + 10 + 10 :=
    max_eq_left (by linarith)
  have hpos1 : d.running + 10 > 0 := by linarith
  have hpos2 : d.running + 10 + 10 > 0 := by linarith
  have hdd : (d.running + 10 + 10 - (d.running + 10 + 10 + -1)) / (d.running + 10 + 10) ≤
      1 / 20 := by
    rw [div_le_iff₀ hpos2]
    linarith
  simp only [twoWinsOneLoss, List.foldl_cons, List.foldl_nil, drawdownStep, pnlTrade, h1, h2,
    h3, hmax, if_pos hpos1, if_pos hpos2, sub_self, zero_div]
  refine ⟨by ring, by linarith, ?_⟩
  rw [max_eq_left (by norm_num : (0 : ℚ) ≤ 1 / 20), max_eq_left (by norm_num : (0 : ℚ) ≤ 1 / 20)]
  exact max_eq_left hdd

theorem drawdownScan_blocks (k : ℕ) (d : DrawdownState) (hpeak : d.peak = d.running + 1)
    (hrun : 19 ≤ d.running) (hmax : d.maxDrawdown = 1 / 20) :
    ((List.replicate k twoWinsOneLoss).flatten.foldl drawdownStep d).maxDrawdown = 1 / 20 := by
  induction k generalizing d with
  | zero => simpa using hmax
  | succ n ih =>
    rw [List.replicate_succ, List.flatten_cons, List.foldl_append]
    obtain ⟨h1, h2, h3⟩ := drawdownStep_block d hpeak hrun hmax
    exact ih _ h1 h2 h3

theorem drawdownScan_streakless : (drawdownScan streaklessHistory).maxDrawdown = 1 / 20 := by
  have hfirst : twoWinsOneLoss.foldl drawdownStep { peak := 0, maxDrawdown := 0, running := 0 } =
      { peak := 20, maxDrawdown := 1 / 20, running := 19 } := by
    simp [twoWinsOneLoss, drawdownStep, pnlTrade]
    norm_num
  unfold drawdownScan streaklessHistory
  rw [List.replicate_succ, List.flatten_cons, List.foldl_append, hfirst]
  exact drawdownScan_blocks 16 _ (by norm_num) (by norm_num) rfl

theorem filter_wins_blocks (k : ℕ) :
    (List.replicate k twoWinsOneLoss).flatten.filter (fun t => decide (t.pnl > 0)) =
      (List.replicate k [pnlTrade 10, pnlTrade 10]).flatten := by
  induction k with
  | zero => rfl
  | succ n ih =>
    have hb : twoWinsOneLoss.filter (fun t => decide (t.pnl > 0)) =
        [pnlTrade 10, pnlTrade 10] := by
      norm_num [twoWinsOneLoss, pnlTrade, List.filter]
    rw [List.replicate_succ, List.flatten_cons, List.filter_append, ih, List.replicate_succ,
      List.flatten_cons, hb]

theorem filter_losses_blocks (k : ℕ) :
    (List.replicate k twoWinsOneLoss).flatten.filter (fun t => decide (t.pnl < 0)) =
      (List.replicate k [pnlTrade (-1)]).flatten := by
  induction k with
  | zero => rfl
  | succ n ih =>
    have hb : twoWinsOneLoss.filter (fun t => decide (t.pnl < 0)) = [pnlTrade (-1)] := by
      norm_num [twoWinsOneLoss, pnlTrade, List.filter]
    rw [List.replicate_succ, List.flatten_cons, List.filter_append, ih, List.replicate_succ,
      List.flatten_cons, hb]

theorem sum_pnl_blocks (k : ℕ) (block : List TradeData) :
    (((List.replicate k block).flatten).map (fun t => t.pnl)).sum =
      k * (block.map (fun t => t.pnl)).sum := by
  induction k with
  | zero => simp
  | succ n ih =>
    rw [List.replicate_succ, List.flatten_cons, List.map_append, List.sum_append, ih]
    push_cast
    ring

theorem length_blocks (k : ℕ) (block : List TradeData) :
    ((List.replicate k block).flatten).length = k * block.length := by
  induction k with
  | zero => simp
  | succ n ih =>
    rw [List.replicate_succ, List.flatten_cons, List.length_append, ih]
    ring

theorem winStreaks_blocks (k : ℕ) (acc : ℕ × ℕ) (h1 : acc.1 = 0) (h2 : acc.2 = 2) :
    (List.replicate k twoWinsOneLoss).flatten.foldl
      (fun (acc : ℕ × ℕ) t =>
        if t.pnl > 0 then (acc.1 + 1, max acc.2 (acc.1 + 1)) else (0, acc.2)) acc = (0, 2) := by
  induction k generalizing acc with
  | zero =>
    simp only [List.replicate_zero, List.flatten_nil, List.foldl_nil]
    exact Prod.ext h1 h2
  | succ n ih =>
    rw [List.replicate_succ, List.flatten_cons, List.foldl_append]
    apply ih
    · norm_num [twoWinsOneLoss, pnlTrade]
    · norm_num [twoWinsOneLoss, pnlTrade, h1, h2]

theorem longestWinStreak_streakless : longestWinStreak streaklessHistory = 2 := by
  unfold longestWinStreak winStreaks streaklessHistory
  rw [List.replicate_succ, List.flatten_cons, List.foldl_append]
  rw [winStreaks_blocks 16 _ (by norm_num [twoWinsOneLoss, pnlTrade])
    (by norm_num [twoWinsOneLoss, pnlTrade])]

/-- C25 (the code at the failing input): the history of 51 trades in which two wins of
+10 are followed by a loss of -1, seventeen times over, has a win rate of 2/3, a profit
factor of 20 and a maximum drawdown of 0.05, so `checkLiveReadiness` reports
`ready = true`; its longest run of consecutive winning trades is 2, below the
configured `minConsecutiveWins = 3`, and none of the four checks is about streaks. -/
theorem checkLiveReadiness_ignores_win_streak :
    streaklessHistory.length = 51 ∧
    winRate streaklessHistory = 2 / 3 ∧
    profitFactor streaklessHistory = JsNumber.finite 20 ∧
    (drawdownScan streaklessHistory).maxDrawdown = 1 / 20 ∧
    (checkLiveReadiness streaklessHistory).ready = true ∧
    (checkLiveReadiness streaklessHistory).checks.map (fun c => c.name) =
      ["Minimum Paper Trades", "Win Rate", "Profit Factor", "Max Drawdown"] ∧
    longestWinStreak streaklessHistory = 2 ∧
    GAME_CONFIG.warnings.liveTradeRequirements.minConsecutiveWins = 3 := by
  have hlen : streaklessHistory.length = 51 := by
    unfold streaklessHistory
    rw [length_blocks]
    rfl
  have hwins : (streaklessHistory.filter (fun t => decide (t.pnl > 0))).length = 34 := by
    unfold streaklessHistory
    rw [filter_wins_blocks, length_blocks]
    rfl
  have hrate : winRate streaklessHistory = 2 / 3 := by
    unfold winRate
    simp only [hlen, hwins]
    norm_num
  have hprofit : grossProfit streaklessHistory = 340 := by
    unfold grossProfit
    rw [foldl_pnl_eq_sum, zero_add]
    unfold streaklessHistory
    rw [filter_wins_blocks, sum_pnl_blocks]
    simp [pnlTrade]
    norm_num
  have hloss : grossLoss streaklessHistory = 17 := by
    unfold grossLoss
    rw [foldl_pnl_eq_sum, zero_add]
    unfold streaklessHistory
    rw [filter_losses_blocks, sum_pnl_blocks]
    simp [pnlTrade]
  have hpf : profitFactor streaklessHistory = JsNumber.finite 20 := by
    unfold profitFactor
    rw [hloss, hprofit]
    norm_num
  refine ⟨hlen, hrate, hpf, drawdownScan_streakless, ?_, rfl, longestWinStreak_streakless, rfl⟩
  rw [checkLiveReadiness_ready_iff, hlen, hrate, hpf, drawdownScan_streakless]
  refine ⟨by norm_num, by norm_num, ?_, by norm_num⟩
  simp [JsNumber.ge]
  norm_num

/-! ## Simulated prices and the price source policy -/

theorem initializePriceFeed_failed (cfg : Config) (s : GameState)
    (hsrc : cfg.priceSource = PriceSource.real) :
    initializePriceFeed cfg false s =
      if cfg.requireRealPrices = true then
        { s with wsConnected := false, priceSource := PriceSource.unavailable,
                 tradingEnabled := false }
      else if cfg.fallbackToSimulation = true then
        { s with wsConnected := false, priceSource := PriceSource.simulated,
                 tradingEnabled := true }
      else { s with wsConnected := false, priceSource := PriceSource.unavailable } := by
  unfold initializePriceFeed
  rw [if_pos hsrc]
  cases cfg.requireRealPrices <;> cases cfg.fallbackToSimulation <;> simp

theorem enterTrade_blocked (s : GameState) (market : Market) (buyPrice : ℚ)
    (h : s.tradingEnabled = false) :
    (enterTrade s market buyPrice).1 ≠ EnterOutcome.opened := by
  intro hop
  have := ((enterTrade_opened_iff s market buyPrice).mp hop).2.1
  rw [h] at this
  exact absurd this (by simp)

theorem sessionStep_simulatorEmpty (cfg : Config) (ss : Session) (a : SessionAction)
    (hcfg : cfg.enablePriceSimulation = false) (h : SimulatorEmpty ss) :
    SimulatorEmpty (sessionStep cfg ss a) := by
  obtain ⟨hempty, happlied⟩ := h
  cases a with
  | connectSettles connects => exact ⟨hempty, happlied⟩
  | startSession => exact ⟨hempty, happlied⟩
  | enterTrade market buyPrice =>
    refine ⟨?_, happlied⟩
    intro marketId
    simp only [sessionStep, enterTradeWithSimulator, hcfg]
    simpa using hempty marketId
  | startTrade => exact ⟨hempty, happlied⟩
  | priceInterval feed random =>
    have hupd : ∀ marketId, ss.simulator.updatePrice marketId random = (none, ss.simulator) := by
      intro marketId
      simp [PriceSimulator.updatePrice, hempty marketId]
    simp only [sessionStep, priceIntervalFires, hupd]
    split
    · exact ⟨hempty, happlied⟩
    · split
      · exact ⟨hempty, happlied⟩
      · split
        · exact ⟨hempty, happlied⟩
        · exact ⟨hempty, happlied⟩
  | countdownTick => exact ⟨hempty, happlied⟩
  | exitTrade => exact ⟨hempty, happlied⟩
  | cancelTrade => exact ⟨hempty, happlied⟩

theorem sessionRun_simulatorEmpty (cfg : Config) (actions : List SessionAction) (ss : Session)
    (hcfg : cfg.enablePriceSimulation = false) (h : SimulatorEmpty ss) :
    SimulatorEmpty (sessionRun cfg ss actions) := by
  induction actions generalizing ss with
  | nil => exact h
  | cons a rest ih =>
    exact ih (sessionStep cfg ss a) (sessionStep_simulatorEmpty cfg ss a hcfg h)

/-- With `enablePriceSimulation` off (as shipped) the simulator never holds a record,
whenever the connection settles and whatever the other switches are: after any
sequence of operations from the constructor state no simulator price has been applied
to a trade, and `updatePrice` returns null for every market. -/
theorem no_simulated_price_while_simulation_disabled (cfg : Config)
    (actions : List SessionAction) (hcfg : cfg.enablePriceSimulation = false) :
    (sessionRun cfg newSession actions).simulatedApplied = [] ∧
    ∀ (marketId : String) (random : ℚ),
      ((sessionRun cfg newSession actions).simulator.updatePrice marketId random).1 = none := by
  have h := sessionRun_simulatorEmpty cfg actions newSession hcfg ⟨fun _ => rfl, rfl⟩
  refine ⟨h.2, fun marketId random => ?_⟩
  simp [PriceSimulator.updatePrice, h.1 marketId]

theorem unavailableSessionState_eq :
    startSession (initializePriceFeed simulationWithoutFallbackConfig false initialState) =
      unavailableSessionState := by
  rw [initializePriceFeed_failed _ _ rfl]
  simp only [startSession, updateStats_eq, unavailableSessionState, sessionState]
  rfl

theorem storePnL_openedTrade_unavailable :
    storePnL (openedTrade unavailableSessionState sampleMarket 5) = unavailableSampleTrade := by
  have hfl2 : Int.floor ((5 : ℚ) * 2 * (3 / 2)) = 15 := by
    rw [Int.floor_eq_iff]; norm_num
  have hfee : (calculateFees 5 (some "medium") false).total = 19 / 200 := by
    simp [calculateFees, GAME_CONFIG, slippageLookup, jsOr]; norm_num
  have hs : unavailableSessionState.timerDuration = 20 := by
    simp only [unavailableSessionState, sessionState_eq]; rfl
  have hp : unavailableSessionState.priceSource = PriceSource.unavailable := rfl
  simp [storePnL, openedTrade, unavailableSampleTrade, sampleTrade, sampleMarket, hs, hp, jsOr,
    jsOrStr, hfl2, hfee]
  norm_num

theorem enterTrade_unavailable_opened :
    (enterTrade unavailableSessionState sampleMarket 5).1 = EnterOutcome.opened := by
  rw [enterTrade_opened_iff]
  have hv : (validateEntry sampleMarket (jsOr sampleMarket.aiProbability 75) 5
      (some (jsOrStr sampleMarket.volatilityLevel "medium"))).valid = true := by
    have h1 : jsOr sampleMarket.aiProbability 75 = 75 := by simp [jsOr, sampleMarket]
    have h2 : jsOrStr sampleMarket.volatilityLevel "medium" = "medium" := by
      simp [jsOrStr, sampleMarket]
    rw [h1, h2]
    exact validateEntry_sample_valid
  refine ⟨?_, ?_, ?_, ?_, hv⟩
  · simp only [unavailableSessionState, sessionState_eq]
  · simp only [unavailableSessionState, sessionState_eq]; rfl
  · simp only [unavailableSessionState, sessionState_eq]; rfl
  · simp only [unavailableSessionState, sessionState_eq]
    simp [initialState, GAME_CONFIG]
    norm_num

theorem simulator_sample_tick :
    ((newSimulator.initializePrice "m1" (1 / 2) (some "medium") 75).updatePrice "m1" (3 / 4)).1 =
      some (503 / 1000) := by
  have hv : jsOr (simulationVolatilityLookup (some "medium")) (1 / 100) = 6 / 1000 := by
    simp [simulationVolatilityLookup, GAME_CONFIG, jsOr]
  simp only [PriceSimulator.updatePrice, initializePrice_prices_self, hv]
  norm_num

/-- One firing of the price interval on a Started trade of the sample market whose
price source is not a connected real feed, with the simulator record of the sample
market and `Math.random()` returning 0.75: the simulator's price 0.503 is written to
the trade, which stays open (its net P&L is -0.15). -/
theorem priceIntervalFires_sample (g : GameState) (trade : Trade)
    (hopen : g.activeTrade = some trade) (htimer : g.priceUpdateTimer = true)
    (hstarted : g.tradeTimer = true)
    (hsource : ¬ (g.priceSource = PriceSource.real ∧ g.wsConnected = true))
    (hid : trade.market.id = "m1")
    (hnet : exitNetPnL (tickedTrade trade (503 / 1000)) = -(3 / 20))
    (htp : trade.takeProfitTarget = 3 / 4) (hsl : trade.stopLossTarget = -(3 / 5))
    (hstake : trade.buyPrice = 5) :
    (priceIntervalFires
      { game := g
        simulator := newSimulator.initializePrice "m1" (1 / 2) (some "medium") 75
        simulatedApplied := [] } newFeed (3 / 4)).simulatedApplied = [503 / 1000] ∧
    (priceIntervalFires
      { game := g
        simulator := newSimulator.initializePrice "m1" (1 / 2) (some "medium") 75
        simulatedApplied := [] } newFeed (3 / 4)).game.activeTrade =
      some (tickedTrade trade (503 / 1000)) := by
  have hfire : priceIntervalFires
        { game := g
          simulator := newSimulator.initializePrice "m1" (1 / 2) (some "medium") 75
          simulatedApplied := [] } newFeed (3 / 4) =
      { game := priceTick g (some (503 / 1000))
        simulator := ((newSimulator.initializePrice "m1" (1 / 2) (some "medium") 75).updatePrice
          "m1" (3 / 4)).2
        simulatedApplied := [503 / 1000] } := by
    simp only [priceIntervalFires, hopen, htimer, hid, simulator_sample_tick, if_neg hsource]
    simp
  have htick : priceTick g (some (503 / 1000)) =
      { g with activeTrade := some (tickedTrade trade (503 / 1000)) } := by
    rw [priceTick_eq g trade (503 / 1000) hopen htimer (by norm_num),
      updateTradePnL_eq _ { trade with currentPrice := 503 / 1000 } rfl]
    have hst : ({ g with activeTrade := some { trade with currentPrice := 503 / 1000 } } :
        GameState).tradeTimer = true := hstarted
    rw [if_pos hst]
    have hn : exitNetPnL (storePnL { trade with currentPrice := 503 / 1000 }) = -(3 / 20) := hnet
    rw [hn]
    show (if (-(3 / 20) : ℚ) ≥ trade.takeProfitTarget then _
      else if (-(3 / 20) : ℚ) ≤ trade.stopLossTarget then _
      else if (-(3 / 20) : ℚ) ≤ -trade.buyPrice then _ else _) = _
    have h1 : ¬ (-(3 / 20) : ℚ) ≥ trade.takeProfitTarget := by rw [htp]; norm_num
    have h2 : ¬ (-(3 / 20) : ℚ) ≤ trade.stopLossTarget := by rw [hsl]; norm_num
    have h3 : ¬ (-(3 / 20) : ℚ) ≤ -trade.buyPrice := by rw [hstake]; norm_num
    rw [if_neg h1, if_neg h2, if_neg h3]
    rfl
  rw [hfire]
  exact ⟨rfl, by rw [htick]⟩

theorem tickedTrade_netPnl_unavailable :
    exitNetPnL (tickedTrade unavailableSampleTrade (503 / 1000)) = -(3 / 20) := by
  rw [tickedTrade, exitNetPnL_storePnL]
  simp [unavailableSampleTrade, sampleTrade, sampleMarket, calculateFees, GAME_CONFIG, jsOr,
    slippageLookup]
  norm_num

theorem tickedTrade_netPnl_sample_up :
    exitNetPnL (tickedTrade sampleTrade (503 / 1000)) = -(3 / 20) := by
  rw [tickedTrade, exitNetPnL_storePnL]
  simp [sampleTrade, sampleMarket, calculateFees, GAME_CONFIG, jsOr, slippageLookup]
  norm_num

/-- C26 (the code at the failing input): the configuration with
`fallbackToSimulation = false` and price source 'real' in which `requireRealPrices` is
off and `enablePriceSimulation` is on.  The connection to the live feed fails, the
session is started, the sample trade is opened (the open is not refused) and started,
and the first firing of the price interval writes the simulator's price 0.503 to the
trade: the interval reads the simulator whenever the source is not a connected real
feed, without consulting `fallbackToSimulation`.  The same happens with
`requireRealPrices` on when the trade is opened while the connection is still
pending. -/
theorem simulated_price_applied_without_fallback :
    simulationWithoutFallbackConfig.fallbackToSimulation = false ∧
    simulationWithoutFallbackConfig.priceSource = PriceSource.real ∧
    (sessionRun simulationWithoutFallbackConfig newSession
      failedConnectThenTrade).simulatedApplied = [503 / 1000] ∧
    ((sessionRun simulationWithoutFallbackConfig newSession
      failedConnectThenTrade).game.activeTrade).map (fun t => t.currentPrice) =
        some (503 / 1000) ∧
    simulationWithRealRequiredConfig.fallbackToSimulation = false ∧
    simulationWithRealRequiredConfig.priceSource = PriceSource.real ∧
    simulationWithRealRequiredConfig.requireRealPrices = true ∧
    (sessionRun simulationWithRealRequiredConfig newSession
      tradeThenFailedConnect).simulatedApplied = [503 / 1000] ∧
    ((sessionRun simulationWithRealRequiredConfig newSession
      tradeThenFailedConnect).game.activeTrade).map (fun t => t.currentPrice) =
        some (503 / 1000) := by
  -- the connection fails before the trade
  have hidle : unavailableSessionState.tradeTimer = false := by
    simp only [unavailableSessionState, sessionState_eq]; rfl
  have hgame2 : (enterTrade unavailableSessionState sampleMarket 5).2 =
      { unavailableSessionState with
        bankroll := unavailableSessionState.bankroll - 5
        activeTrade := some unavailableSampleTrade } := by
    rw [enterTrade_opened_state _ _ _ enterTrade_unavailable_opened hidle,
      storePnL_openedTrade_unavailable]
  have hgame3 : startTrade (enterTrade unavailableSessionState sampleMarket 5).2 =
      { unavailableSessionState with
        bankroll := unavailableSessionState.bankroll - 5
        activeTrade := some unavailableSampleTrade
        tradeTimer := true
        priceUpdateTimer := true } := by
    rw [hgame2]; rfl
  have hrun1 : sessionRun simulationWithoutFallbackConfig newSession failedConnectThenTrade =
      priceIntervalFires
        { game := startTrade (enterTrade unavailableSessionState sampleMarket 5).2
          simulator := newSimulator.initializePrice "m1" (1 / 2) (some "medium") 75
          simulatedApplied := [] } newFeed (3 / 4) := by
    simp only [sessionRun, failedConnectThenTrade, List.foldl_cons, List.foldl_nil, sessionStep,
      newSession, unavailableSessionState_eq, enterTradeWithSimulator,
      enterTrade_unavailable_opened]
    simp [simulationWithoutFallbackConfig, sampleMarket, jsOr]
  have h1 := priceIntervalFires_sample
    (startTrade (enterTrade unavailableSessionState sampleMarket 5).2) unavailableSampleTrade
    (by rw [hgame3]) (by rw [hgame3]) (by rw [hgame3])
    (by rw [hgame3]; simp [unavailableSessionState]) rfl tickedTrade_netPnl_unavailable
    rfl rfl rfl
  -- the trade is opened while the connection is pending
  have hrun2 : sessionRun simulationWithRealRequiredConfig newSession tradeThenFailedConnect =
      priceIntervalFires
        { game := initializePriceFeed simulationWithRealRequiredConfig false startedState
          simulator := newSimulator.initializePrice "m1" (1 / 2) (some "medium") 75
          simulatedApplied := [] } newFeed (3 / 4) := by
    have hs : startSession initialState = sessionState := rfl
    have hst : startTrade (enterTrade sessionState sampleMarket 5).2 = startedState := rfl
    simp only [sessionRun, tradeThenFailedConnect, List.foldl_cons, List.foldl_nil, sessionStep,
      newSession, hs, enterTradeWithSimulator, enterTrade_sample_opened, hst]
    simp [simulationWithRealRequiredConfig, sampleMarket, jsOr]
  have hfailed : initializePriceFeed simulationWithRealRequiredConfig false startedState =
      { startedState with wsConnected := false, priceSource := PriceSource.unavailable,
                          tradingEnabled := false } := by
    rw [initializePriceFeed_failed _ _ rfl]
    rfl
  have h2 := priceIntervalFires_sample
    (initializePriceFeed simulationWithRealRequiredConfig false startedState) sampleTrade
    (by rw [hfailed, startedState_eq]) (by rw [hfailed, startedState_eq])
    (by rw [hfailed, startedState_eq]) (by rw [hfailed]; simp) rfl tickedTrade_netPnl_sample_up
    rfl rfl rfl
  refine ⟨rfl, rfl, ?_, ?_, rfl, rfl, rfl, ?_, ?_⟩
  · rw [hrun1]; exact h1.1
  · rw [hrun1, h1.2]; rfl
  · rw [hrun2]; exact h2.1
  · rw [hrun2, h2.2]; rfl

end PolymarketTrader
